import Mathlib

/-!
HTTP gateway of the `Blockchain` service (`www/grpc/gen/go/blockchain.pb.gw.go`).

A shallow embedding of the generated reverse proxy: the nine URL patterns, the
eighteen request decoders (`request_*` for the client path, `local_request_*`
for the in-process server path) and the two registration functions with the
handlers they install.

Effects are modelled by explicit traces: a decoder or a handler returns the
ordered list of the externally visible calls it makes (`Event`).  The gateway
runtime, `net/http` and gRPC are not part of the file under study; what the
code calls from them is taken as a parameter (`Runtime`, `BlockchainClient`,
`BlockchainServer`), except for the URL pattern machine, which is modelled.
-/

namespace Pactus

/-! ## Errors and status codes -/

/-- A Go `error` value: either an ordinary error carrying only a text, or a
gRPC status error carrying a code and a message. -/
inductive GoError where
  | plain (text : String)
  | status (code : Nat) (msg : String)
deriving DecidableEq, Repr

namespace codes

def OK : Nat := 0
def Canceled : Nat := 1
def Unknown : Nat := 2
def InvalidArgument : Nat := 3

/-- Modelled from the spec: the name `codes.Code.String` of gRPC prints for a status code. -/
def String (c : Nat) : String :=
  match c with
  | 0 => "OK"
  | 1 => "Canceled"
  | 2 => "Unknown"
  | 3 => "InvalidArgument"
  | 4 => "DeadlineExceeded"
  | 5 => "NotFound"
  | 6 => "AlreadyExists"
  | 7 => "PermissionDenied"
  | 8 => "ResourceExhausted"
  | 9 => "FailedPrecondition"
  | 10 => "Aborted"
  | 11 => "OutOfRange"
  | 12 => "Unimplemented"
  | 13 => "Internal"
  | 14 => "Unavailable"
  | 15 => "DataLoss"
  | 16 => "Unauthenticated"
  | n => "Code(" ++ toString n ++ ")"

end codes

/-- Modelled from the spec: the text of `err.Error()`, which is also what the verb `%v`
prints; a gRPC status error prints its code and its message. -/
def GoError.Error : GoError → String
  | .plain text => text
  | .status code msg => "rpc error: code = " ++ codes.String code ++ " desc = " ++ msg

namespace status

/-- Modelled from the spec: the call `status.Errorf(c, "%v", err)` of gRPC, which maps an
error to a status error of code `c` whose message is the `%v` text of `err`; it is `nil`
when `c` is `codes.OK`. -/
def Errorf (c : Nat) (err : GoError) : Option GoError :=
  if c = codes.OK then none else some (.status c err.Error)

/-- Modelled from the spec: the status code `status.Code` of gRPC reads off an error (`OK`
for `nil`, `Unknown` for an error that is not a status error). -/
def Code : Option GoError → Nat
  | none => codes.OK
  | some (.status c _) => c
  | some (.plain _) => codes.Unknown

end status

/-! ## Messages, metadata, contexts -/

/-- A protobuf message: the name of its Go type and the fields that are set. -/
structure Message where
  typeName : String
  fields : List (String × String)
deriving DecidableEq, Repr

/-- The zero value `var protoReq T`. -/
def Message.zero (typeName : String) : Message := ⟨typeName, []⟩

/-- The type `url.Values`. -/
abbrev Form := List (String × List String)

/-- The type `metadata.MD`. -/
abbrev MD := List (String × List String)

/-- The type `runtime.ServerMetadata`; its zero value has no header and no trailer. -/
structure ServerMetadata where
  HeaderMD : MD := []
  TrailerMD : MD := []
deriving DecidableEq, Repr

/-- The type `runtime.ServerTransportStream`: the headers and trailers an in-process
service implementation records on it. -/
structure ServerTransportStream where
  Header : MD := []
  Trailer : MD := []
deriving DecidableEq, Repr

/-- A `context.Context`, by the way it was derived. -/
inductive Ctx where
  | base (id : Nat)
  | WithCancel (parent : Ctx)
  | NewContextWithServerTransportStream (parent : Ctx)
  | annotated (parent : Ctx) (tag : Nat)
  | NewServerMetadataContext (parent : Ctx) (md : ServerMetadata)
deriving DecidableEq, Repr

/-- The type `utilities.DoubleArray`. -/
structure DoubleArray where
  Encoding : List (String × Int)
  Base : List Int
  Check : List Int
deriving DecidableEq, Repr

/-- The type `http.Request`, as far as the gateway reads it. -/
structure Request where
  Context : Ctx
  RawQuery : String
deriving DecidableEq, Repr

abbrev PathParams := List (String × String)

/-- A `runtime.Marshaler`, by name. -/
abbrev Marshaler := String

/-- The type `runtime.ServeMux`, as far as the handlers read it. -/
structure ServeMux where
  id : Nat
  GetForwardResponseOptions : List String
deriving DecidableEq, Repr

/-- The nine methods of the `Blockchain` service. -/
inductive Rpc where
  | GetBlock
  | GetBlockHash
  | GetBlockHeight
  | GetBlockchainInfo
  | GetConsensusInfo
  | GetAccount
  | GetValidator
  | GetValidatorByNumber
  | GetPublicKey
deriving DecidableEq, Repr

/-- All nine methods, in the order of the service definition. -/
def Rpc.all : List Rpc :=
  [.GetBlock, .GetBlockHash, .GetBlockHeight, .GetBlockchainInfo, .GetConsensusInfo,
   .GetAccount, .GetValidator, .GetValidatorByNumber, .GetPublicKey]

/-- What a `BlockchainClient` method returns: the pair `(msg, err)` and the metadata it
stores through the call options `grpc.Header` and `grpc.Trailer`. -/
structure ClientReply where
  msg : Option Message
  err : Option GoError
  header : MD
  trailer : MD
deriving DecidableEq, Repr

/-- What a `BlockchainServer` method returns: the pair `(msg, err)` and the state in
which it leaves the transport stream found in its context. -/
structure ServerReply where
  msg : Option Message
  err : Option GoError
  stream : ServerTransportStream
deriving DecidableEq, Repr

/-- The interface `BlockchainClient`. -/
structure BlockchainClient where
  GetBlock : Ctx → Message → ClientReply
  GetBlockHash : Ctx → Message → ClientReply
  GetBlockHeight : Ctx → Message → ClientReply
  GetBlockchainInfo : Ctx → Message → ClientReply
  GetConsensusInfo : Ctx → Message → ClientReply
  GetAccount : Ctx → Message → ClientReply
  GetValidator : Ctx → Message → ClientReply
  GetValidatorByNumber : Ctx → Message → ClientReply
  GetPublicKey : Ctx → Message → ClientReply

/-- The interface `BlockchainServer`. -/
structure BlockchainServer where
  GetBlock : Ctx → Message → ServerReply
  GetBlockHash : Ctx → Message → ServerReply
  GetBlockHeight : Ctx → Message → ServerReply
  GetBlockchainInfo : Ctx → Message → ServerReply
  GetConsensusInfo : Ctx → Message → ServerReply
  GetAccount : Ctx → Message → ServerReply
  GetValidator : Ctx → Message → ServerReply
  GetValidatorByNumber : Ctx → Message → ServerReply
  GetPublicKey : Ctx → Message → ServerReply

/-- What the file calls from `net/http`, the gateway runtime and gRPC metadata. -/
structure Runtime where
  ParseForm : Request → Except GoError Form
  PopulateQueryParameters : Message → Form → DoubleArray → Except GoError Message
  MarshalerForRequest : ServeMux → Request → Marshaler × Marshaler
  AnnotateContext : Ctx → ServeMux → Request → String → String → Except GoError Ctx
  AnnotateIncomingContext : Ctx → ServeMux → Request → String → String → Except GoError Ctx
  Join : MD → MD → MD

/-- The two response forwarders of the gateway runtime. -/
inductive RuntimeForwarder where
  | ForwardResponseMessage
  | ForwardResponseStream
deriving DecidableEq, Repr

/-- The externally visible calls of a decoder or a handler. -/
inductive Event where
  | WithCancel (parent : Ctx)
  | AnnotateContext (ctx : Ctx) (fullMethod : String) (httpPathPattern : String)
  | AnnotateIncomingContext (ctx : Ctx) (fullMethod : String) (httpPathPattern : String)
  | ParseForm
  | PopulateQueryParameters (msg : Message) (values : Form) (filter : DoubleArray)
  | ClientCall (rpc : Rpc) (ctx : Ctx) (req : Message)
  | ServerCall (rpc : Rpc) (ctx : Ctx) (req : Message)
  | HTTPError (ctx : Ctx) (marshaler : Marshaler) (err : GoError)
  | Forward (fn : RuntimeForwarder) (ctx : Ctx) (marshaler : Marshaler)
      (resp : Option Message) (opts : List String)
  | cancel
deriving DecidableEq, Repr

/-! ## URL patterns of the gateway runtime -/

namespace utilities

def OpNop : Int := 0
def OpPush : Int := 1
def OpLitPush : Int := 2
def OpPushM : Int := 3
def OpConcatN : Int := 4
def OpCapture : Int := 5

end utilities

namespace runtime

/-- One typed operation of a pattern: an opcode and its operand. -/
structure Op where
  code : Int
  operand : Int
deriving DecidableEq, Repr

/-- The type `runtime.Pattern`. -/
structure Pattern where
  ops : List Op
  pool : List String
  vars : List String
  stacksize : Int
  tailLen : Int
  verb : String
deriving DecidableEq, Repr

instance : Inhabited Pattern := ⟨⟨[], [], [], 0, 0, ""⟩⟩

/-- The local variables of the loop of `NewPattern`. -/
structure Scan where
  typedOps : List Op
  stack : Int
  maxstack : Int
  tailLen : Int
  pushMSeen : Bool
  vars : List String
deriving DecidableEq, Repr

/-- Modelled from the spec: the body of the loop of `runtime.NewPattern`, which lives in
the gateway runtime and not in this repository.  It types one `(opcode, operand)` pair,
checks it (a literal or a capture must index the pool, a concatenation and a capture
must not underflow the stack) and tracks the stack depth; `none` is `ErrInvalidPattern`. -/
def NewPattern.step (pool : List String) (s : Scan) (code operand : Int) : Option Scan :=
  let bump (s : Scan) (o : Op) : Option Scan :=
    some { s with maxstack := if s.maxstack < s.stack then s.stack else s.maxstack,
                  typedOps := s.typedOps ++ [o] }
  if code = utilities.OpNop then some s
  else if code = utilities.OpPush then
    bump { s with tailLen := if s.pushMSeen then s.tailLen + 1 else s.tailLen,
                  stack := s.stack + 1 } ⟨code, operand⟩
  else if code = utilities.OpPushM then
    if s.pushMSeen then none
    else bump { s with pushMSeen := true, stack := s.stack + 1 } ⟨code, operand⟩
  else if code = utilities.OpLitPush then
    if operand < 0 ∨ (pool.length : Int) ≤ operand then none
    else bump { s with tailLen := if s.pushMSeen then s.tailLen + 1 else s.tailLen,
                       stack := s.stack + 1 } ⟨code, operand⟩
  else if code = utilities.OpConcatN then
    if operand ≤ 0 then none
    else if s.stack - operand < 0 then none
    else bump { s with stack := s.stack - operand + 1 } ⟨code, operand⟩
  else if code = utilities.OpCapture then
    if operand < 0 ∨ (pool.length : Int) ≤ operand then none
    else if s.stack - 1 < 0 then none
    else bump { s with vars := s.vars ++ [pool.getD operand.toNat ""],
                       stack := s.stack - 1 } ⟨code, (s.vars.length : Int)⟩
  else none

/-- Modelled from the spec: the loop of `runtime.NewPattern` over the flat opcode list,
two entries at a time. -/
def NewPattern.loop (pool : List String) : List Int → Scan → Option Scan
  | code :: operand :: rest, s =>
    match NewPattern.step pool s code operand with
    | none => none
    | some s1 => NewPattern.loop pool rest s1
  | _, s => some s

/-- Modelled from the spec: `runtime.NewPattern(version, ops, pool, verb)` of the gateway
runtime.  Only version 1 and an even number of opcode entries are accepted. -/
def NewPattern (version : Int) (ops : List Int) (pool : List String) (verb : String) :
    Option Pattern :=
  if version ≠ 1 then none
  else if ops.length % 2 ≠ 0 then none
  else
    match NewPattern.loop pool ops ⟨[], 0, 0, 0, false, []⟩ with
    | none => none
    | some s => some ⟨s.typedOps, pool, s.vars, s.maxstack, s.tailLen, verb⟩

/-- Modelled from the spec: `runtime.MustPattern`, which returns the pattern and ends the
process when given an error (the zero pattern stands for that case). -/
def MustPattern (r : Option Pattern) : Pattern :=
  match r with
  | some p => p
  | none => default

/-- The state of a match: the position in the path, the stack and the captured values. -/
structure MatchState where
  pos : Nat
  stack : List String
  captured : List String
deriving DecidableEq, Repr

/-- Modelled from the spec: one operation of `Pattern.MatchAndEscape` of the gateway
runtime on the path segments `components`; `none` is `ErrNotMatch` (or an unescaping
error).  A literal push compares the current segment with the pool entry, a push takes
any one segment, a multi-push takes all segments up to the tail, a concatenation joins the
top of the stack and a capture pops the stack into a variable. -/
def Pattern.matchOp (p : Pattern) (unescape : String → Bool → Option String)
    (components : List String) (st : MatchState) (o : Op) : Option MatchState :=
  if o.code = utilities.OpNop then some st
  else if o.code = utilities.OpLitPush then
    if components.length ≤ st.pos then none
    else
      let c := components.getD st.pos ""
      if c ≠ p.pool.getD o.operand.toNat "" then none
      else some { st with stack := st.stack ++ [c], pos := st.pos + 1 }
  else if o.code = utilities.OpPush then
    if components.length ≤ st.pos then none
    else
      match unescape (components.getD st.pos "") false with
      | none => none
      | some c => some { st with stack := st.stack ++ [c], pos := st.pos + 1 }
  else if o.code = utilities.OpPushM then
    if (components.length : Int) < st.pos + p.tailLen then none
    else
      let e := components.length - p.tailLen.toNat
      match unescape ("/".intercalate ((components.take e).drop st.pos)) true with
      | none => none
      | some c => some { st with stack := st.stack ++ [c], pos := e }
  else if o.code = utilities.OpConcatN then
    let l := st.stack.length - o.operand.toNat
    some { st with stack := st.stack.take l ++ ["/".intercalate (st.stack.drop l)] }
  else if o.code = utilities.OpCapture then
    let n := st.stack.length - 1
    some { st with captured := st.captured.set o.operand.toNat (st.stack.getD n ""),
                   stack := st.stack.take n }
  else some st

/-- Modelled from the spec: the loop of `Pattern.MatchAndEscape` over the operations. -/
def Pattern.matchOps (p : Pattern) (unescape : String → Bool → Option String)
    (components : List String) : List Op → MatchState → Option MatchState
  | [], st => some st
  | o :: rest, st =>
    match p.matchOp unescape components st o with
    | none => none
    | some st1 => p.matchOps unescape components rest st1

/-- Modelled from the spec: `Pattern.MatchAndEscape(components, verb, mode)` of the gateway
runtime, with the unescaping of the mode as `unescape`.  A pattern with a verb matches only
that verb; a verb the pattern does not have is put back on the last segment.  All segments
must be consumed; the result binds each variable to what was captured for it. -/
def Pattern.Match (p : Pattern) (unescape : String → Bool → Option String)
    (components : List String) (verb : String) : Option (List (String × String)) :=
  if p.verb ≠ verb ∧ p.verb ≠ "" then none
  else
    let components :=
      if p.verb ≠ verb then
        if components.length = 0 then [":" ++ verb]
        else components.dropLast ++ [components.getLastD "" ++ ":" ++ verb]
      else components
    match p.matchOps unescape components p.ops ⟨0, [], p.vars.map (fun _ => "")⟩ with
    | none => none
    | some st =>
      if st.pos < components.length then none
      else some (p.vars.zip st.captured)

/-- Modelled from the spec: one operation of `Pattern.String` of the gateway runtime on
the stack of rendered segments: a push renders as `*`, a literal push as the pool entry, a
multi-push as `**`, a concatenation joins the top of the stack with `/` and a capture
wraps the top of the stack as `{var=...}`. -/
def Pattern.renderOp (p : Pattern) (stack : List String) (o : Op) : List String :=
  if o.code = utilities.OpNop then stack
  else if o.code = utilities.OpPush then stack ++ ["*"]
  else if o.code = utilities.OpLitPush then stack ++ [p.pool.getD o.operand.toNat ""]
  else if o.code = utilities.OpPushM then stack ++ ["**"]
  else if o.code = utilities.OpConcatN then
    let l := stack.length - o.operand.toNat
    stack.take l ++ ["/".intercalate (stack.drop l)]
  else if o.code = utilities.OpCapture then
    let n := stack.length - 1
    stack.set n ("\x7b" ++ p.vars.getD o.operand.toNat "" ++ "=" ++ stack.getD n "" ++ "\x7d")
  else stack

/-- Modelled from the spec: `Pattern.String` of the gateway runtime: the rendered segments
joined with `/` after a leading `/`, followed by `:verb` when the pattern has a verb. -/
def Pattern.String (p : Pattern) : String :=
  let segs := "/".intercalate (p.ops.foldl p.renderOp [])
  if p.verb ≠ "" then "/" ++ segs ++ ":" ++ p.verb else "/" ++ segs

end runtime

open runtime

/-! ## The nine patterns (source lines 795-813) -/

def pattern_Blockchain_GetBlock_0 : Pattern :=
  MustPattern (NewPattern 1 [2, 0, 2, 1, 2, 2] ["pactus", "blockchain", "get_block"] "")

def pattern_Blockchain_GetBlockHash_0 : Pattern :=
  MustPattern (NewPattern 1 [2, 0, 2, 1, 2, 2] ["pactus", "blockchain", "get_block_hash"] "")

def pattern_Blockchain_GetBlockHeight_0 : Pattern :=
  MustPattern (NewPattern 1 [2, 0, 2, 1, 2, 2] ["pactus", "blockchain", "get_block_height"] "")

def pattern_Blockchain_GetBlockchainInfo_0 : Pattern :=
  MustPattern (NewPattern 1 [2, 0, 2, 1, 2, 2] ["pactus", "blockchain", "get_blockchain_info"] "")

def pattern_Blockchain_GetConsensusInfo_0 : Pattern :=
  MustPattern (NewPattern 1 [2, 0, 2, 1, 2, 2] ["pactus", "blockchain", "get_consensus_info"] "")

def pattern_Blockchain_GetAccount_0 : Pattern :=
  MustPattern (NewPattern 1 [2, 0, 2, 1, 2, 2] ["pactus", "blockchain", "get_account"] "")

def pattern_Blockchain_GetValidator_0 : Pattern :=
  MustPattern (NewPattern 1 [2, 0, 2, 1, 2, 2] ["pactus", "blockchain", "get_validator"] "")

def pattern_Blockchain_GetValidatorByNumber_0 : Pattern :=
  MustPattern (NewPattern 1 [2, 0, 2, 1, 2, 2] ["pactus", "blockchain", "get_validator_by_number"] "")

def pattern_Blockchain_GetPublicKey_0 : Pattern :=
  MustPattern (NewPattern 1 [2, 0, 2, 1, 2, 2] ["pactus", "blockchain", "get_public_key"] "")

/-! ## The nine forwarders (source lines 815-833) -/

def forward_Blockchain_GetBlock_0 : RuntimeForwarder := .ForwardResponseMessage

def forward_Blockchain_GetBlockHash_0 : RuntimeForwarder := .ForwardResponseMessage

def forward_Blockchain_GetBlockHeight_0 : RuntimeForwarder := .ForwardResponseMessage

def forward_Blockchain_GetBlockchainInfo_0 : RuntimeForwarder := .ForwardResponseMessage

def forward_Blockchain_GetConsensusInfo_0 : RuntimeForwarder := .ForwardResponseMessage

def forward_Blockchain_GetAccount_0 : RuntimeForwarder := .ForwardResponseMessage

def forward_Blockchain_GetValidator_0 : RuntimeForwarder := .ForwardResponseMessage

def forward_Blockchain_GetValidatorByNumber_0 : RuntimeForwarder := .ForwardResponseMessage

def forward_Blockchain_GetPublicKey_0 : RuntimeForwarder := .ForwardResponseMessage

/-! ## The request decoders (source lines 34-320) -/

/-- What a `request_*` decoder returns, `(msg, metadata, err)`, and the calls it made. -/
structure Decoded where
  msg : Option Message
  metadata : ServerMetadata
  err : Option GoError
  trace : List Event
deriving DecidableEq, Repr

/-- What a `local_request_*` decoder returns, `(msg, metadata, err)`, the calls it made and
the state in which it leaves the transport stream of its context. -/
structure LocalDecoded where
  msg : Option Message
  metadata : ServerMetadata
  err : Option GoError
  trace : List Event
  stream : ServerTransportStream
deriving DecidableEq, Repr

def filter_Blockchain_GetBlock_0 : DoubleArray := ⟨[], [], []⟩

def request_Blockchain_GetBlock_0 (R : Runtime) (ctx : Ctx) (_marshaler : Marshaler)
    (client : BlockchainClient) (req : Request) (_pathParams : PathParams) : Decoded :=
  let protoReq : Message := Message.zero "GetBlockRequest"
  let metadata : ServerMetadata := {}
  match R.ParseForm req with
  | .error err => ⟨none, metadata, status.Errorf codes.InvalidArgument err, [.ParseForm]⟩
  | .ok form =>
    match R.PopulateQueryParameters protoReq form filter_Blockchain_GetBlock_0 with
    | .error err =>
      ⟨none, metadata, status.Errorf codes.InvalidArgument err,
        [.ParseForm, .PopulateQueryParameters protoReq form filter_Blockchain_GetBlock_0]⟩
    | .ok populated =>
      let r := client.GetBlock ctx populated
      ⟨r.msg, ⟨r.header, r.trailer⟩, r.err,
        [.ParseForm, .PopulateQueryParameters protoReq form filter_Blockchain_GetBlock_0,
         .ClientCall .GetBlock ctx populated]⟩

def local_request_Blockchain_GetBlock_0 (R : Runtime) (ctx : Ctx) (_marshaler : Marshaler)
    (server : BlockchainServer) (req : Request) (_pathParams : PathParams) : LocalDecoded :=
  let protoReq : Message := Message.zero "GetBlockRequest"
  let metadata : ServerMetadata := {}
  match R.ParseForm req with
  | .error err => ⟨none, metadata, status.Errorf codes.InvalidArgument err, [.ParseForm], {}⟩
  | .ok form =>
    match R.PopulateQueryParameters protoReq form filter_Blockchain_GetBlock_0 with
    | .error err =>
      ⟨none, metadata, status.Errorf codes.InvalidArgument err,
        [.ParseForm, .PopulateQueryParameters protoReq form filter_Blockchain_GetBlock_0], {}⟩
    | .ok populated =>
      let r := server.GetBlock ctx populated
      ⟨r.msg, metadata, r.err,
        [.ParseForm, .PopulateQueryParameters protoReq form filter_Blockchain_GetBlock_0,
         .ServerCall .GetBlock ctx populated], r.stream⟩

def filter_Blockchain_GetBlockHash_0 : DoubleArray := ⟨[], [], []⟩

def request_Blockchain_GetBlockHash_0 (R : Runtime) (ctx : Ctx) (_marshaler : Marshaler)
    (client : BlockchainClient) (req : Request) (_pathParams : PathParams) : Decoded :=
  let protoReq : Message := Message.zero "GetBlockHashRequest"
  let metadata : ServerMetadata := {}
  match R.ParseForm req with
  | .error err => ⟨none, metadata, status.Errorf codes.InvalidArgument err, [.ParseForm]⟩
  | .ok form =>
    match R.PopulateQueryParameters protoReq form filter_Blockchain_GetBlockHash_0 with
    | .error err =>
      ⟨none, metadata, status.Errorf codes.InvalidArgument err,
        [.ParseForm, .PopulateQueryParameters protoReq form filter_Blockchain_GetBlockHash_0]⟩
    | .ok populated =>
      let r := client.GetBlockHash ctx populated
      ⟨r.msg, ⟨r.header, r.trailer⟩, r.err,
        [.ParseForm, .PopulateQueryParameters protoReq form filter_Blockchain_GetBlockHash_0,
         .ClientCall .GetBlockHash ctx populated]⟩

def local_request_Blockchain_GetBlockHash_0 (R : Runtime) (ctx : Ctx) (_marshaler : Marshaler)
    (server : BlockchainServer) (req : Request) (_pathParams : PathParams) : LocalDecoded :=
  let protoReq : Message := Message.zero "GetBlockHashRequest"
  let metadata : ServerMetadata := {}
  match R.ParseForm req with
  | .error err => ⟨none, metadata, status.Errorf codes.InvalidArgument err, [.ParseForm], {}⟩
  | .ok form =>
    match R.PopulateQueryParameters protoReq form filter_Blockchain_GetBlockHash_0 with
    | .error err =>
      ⟨none, metadata, status.Errorf codes.InvalidArgument err,
        [.ParseForm, .PopulateQueryParameters protoReq form filter_Blockchain_GetBlockHash_0], {}⟩
    | .ok populated =>
      let r := server.GetBlockHash ctx populated
      ⟨r.msg, metadata, r.err,
        [.ParseForm, .PopulateQueryParameters protoReq form filter_Blockchain_GetBlockHash_0,
         .ServerCall .GetBlockHash ctx populated], r.stream⟩

def filter_Blockchain_GetBlockHeight_0 : DoubleArray := ⟨[], [], []⟩

def request_Blockchain_GetBlockHeight_0 (R : Runtime) (ctx : Ctx) (_marshaler : Marshaler)
    (client : BlockchainClient) (req : Request) (_pathParams : PathParams) : Decoded :=
  let protoReq : Message := Message.zero "GetBlockHeightRequest"
  let metadata : ServerMetadata := {}
  match R.ParseForm req with
  | .error err => ⟨none, metadata, status.Errorf codes.InvalidArgument err, [.ParseForm]⟩
  | .ok form =>
    match R.PopulateQueryParameters protoReq form filter_Blockchain_GetBlockHeight_0 with
    | .error err =>
      ⟨none, metadata, status.Errorf codes.InvalidArgument err,
        [.ParseForm, .PopulateQueryParameters protoReq form filter_Blockchain_GetBlockHeight_0]⟩
    | .ok populated =>
      let r := client.GetBlockHeight ctx populated
      ⟨r.msg, ⟨r.header, r.trailer⟩, r.err,
        [.ParseForm, .PopulateQueryParameters protoReq form filter_Blockchain_GetBlockHeight_0,
         .ClientCall .GetBlockHeight ctx populated]⟩

def local_request_Blockchain_GetBlockHeight_0 (R : Runtime) (ctx : Ctx) (_marshaler : Marshaler)
    (server : BlockchainServer) (req : Request) (_pathParams : PathParams) : LocalDecoded :=
  let protoReq : Message := Message.zero "GetBlockHeightRequest"
  let metadata : ServerMetadata := {}
  match R.ParseForm req with
  | .error err => ⟨none, metadata, status.Errorf codes.InvalidArgument err, [.ParseForm], {}⟩
  | .ok form =>
    match R.PopulateQueryParameters protoReq form filter_Blockchain_GetBlockHeight_0 with
    | .error err =>
      ⟨none, metadata, status.Errorf codes.InvalidArgument err,
        [.ParseForm, .PopulateQueryParameters protoReq form filter_Blockchain_GetBlockHeight_0], {}⟩
    | .ok populated =>
      let r := server.GetBlockHeight ctx populated
      ⟨r.msg, metadata, r.err,
        [.ParseForm, .PopulateQueryParameters protoReq form filter_Blockchain_GetBlockHeight_0,
         .ServerCall .GetBlockHeight ctx populated], r.stream⟩

def request_Blockchain_GetBlockchainInfo_0 (_R : Runtime) (ctx : Ctx) (_marshaler : Marshaler)
    (client : BlockchainClient) (_req : Request) (_pathParams : PathParams) : Decoded :=
  let protoReq : Message := Message.zero "GetBlockchainInfoRequest"
  let r := client.GetBlockchainInfo ctx protoReq
  ⟨r.msg, ⟨r.header, r.trailer⟩, r.err, [.ClientCall .GetBlockchainInfo ctx protoReq]⟩

def local_request_Blockchain_GetBlockchainInfo_0 (_R : Runtime) (ctx : Ctx) (_marshaler : Marshaler)
    (server : BlockchainServer) (_req : Request) (_pathParams : PathParams) : LocalDecoded :=
  let protoReq : Message := Message.zero "GetBlockchainInfoRequest"
  let metadata : ServerMetadata := {}
  let r := server.GetBlockchainInfo ctx protoReq
  ⟨r.msg, metadata, r.err, [.ServerCall .GetBlockchainInfo ctx protoReq], r.stream⟩

def request_Blockchain_GetConsensusInfo_0 (_R : Runtime) (ctx : Ctx) (_marshaler : Marshaler)
    (client : BlockchainClient) (_req : Request) (_pathParams : PathParams) : Decoded :=
  let protoReq : Message := Message.zero "GetConsensusInfoRequest"
  let r := client.GetConsensusInfo ctx protoReq
  ⟨r.msg, ⟨r.header, r.trailer⟩, r.err, [.ClientCall .GetConsensusInfo ctx protoReq]⟩

def local_request_Blockchain_GetConsensusInfo_0 (_R : Runtime) (ctx : Ctx) (_marshaler : Marshaler)
    (server : BlockchainServer) (_req : Request) (_pathParams : PathParams) : LocalDecoded :=
  let protoReq : Message := Message.zero "GetConsensusInfoRequest"
  let metadata : ServerMetadata := {}
  let r := server.GetConsensusInfo ctx protoReq
  ⟨r.msg, metadata, r.err, [.ServerCall .GetConsensusInfo ctx protoReq], r.stream⟩

def filter_Blockchain_GetAccount_0 : DoubleArray := ⟨[], [], []⟩

def request_Blockchain_GetAccount_0 (R : Runtime) (ctx : Ctx) (_marshaler : Marshaler)
    (client : BlockchainClient) (req : Request) (_pathParams : PathParams) : Decoded :=
  let protoReq : Message := Message.zero "GetAccountRequest"
  let metadata : ServerMetadata := {}
  match R.ParseForm req with
  | .error err => ⟨none, metadata, status.Errorf codes.InvalidArgument err, [.ParseForm]⟩
  | .ok form =>
    match R.PopulateQueryParameters protoReq form filter_Blockchain_GetAccount_0 with
    | .error err =>
      ⟨none, metadata, status.Errorf codes.InvalidArgument err,
        [.ParseForm, .PopulateQueryParameters protoReq form filter_Blockchain_GetAccount_0]⟩
    | .ok populated =>
      let r := client.GetAccount ctx populated
      ⟨r.msg, ⟨r.header, r.trailer⟩, r.err,
        [.ParseForm, .PopulateQueryParameters protoReq form filter_Blockchain_GetAccount_0,
         .ClientCall .GetAccount ctx populated]⟩

def local_request_Blockchain_GetAccount_0 (R : Runtime) (ctx : Ctx) (_marshaler : Marshaler)
    (server : BlockchainServer) (req : Request) (_pathParams : PathParams) : LocalDecoded :=
  let protoReq : Message := Message.zero "GetAccountRequest"
  let metadata : ServerMetadata := {}
  match R.ParseForm req with
  | .error err => ⟨none, metadata, status.Errorf codes.InvalidArgument err, [.ParseForm], {}⟩
  | .ok form =>
    match R.PopulateQueryParameters protoReq form filter_Blockchain_GetAccount_0 with
    | .error err =>
      ⟨none, metadata, status.Errorf codes.InvalidArgument err,
        [.ParseForm, .PopulateQueryParameters protoReq form filter_Blockchain_GetAccount_0], {}⟩
    | .ok populated =>
      let r := server.GetAccount ctx populated
      ⟨r.msg, metadata, r.err,
        [.ParseForm, .PopulateQueryParameters protoReq form filter_Blockchain_GetAccount_0,
         .ServerCall .GetAccount ctx populated], r.stream⟩

def filter_Blockchain_GetValidator_0 : DoubleArray := ⟨[], [], []⟩

def request_Blockchain_GetValidator_0 (R : Runtime) (ctx : Ctx) (_marshaler : Marshaler)
    (client : BlockchainClient) (req : Request) (_pathParams : PathParams) : Decoded :=
  let protoReq : Message := Message.zero "GetValidatorRequest"
  let metadata : ServerMetadata := {}
  match R.ParseForm req with
  | .error err => ⟨none, metadata, status.Errorf codes.InvalidArgument err, [.ParseForm]⟩
  | .ok form =>
    match R.PopulateQueryParameters protoReq form filter_Blockchain_GetValidator_0 with
    | .error err =>
      ⟨none, metadata, status.Errorf codes.InvalidArgument err,
        [.ParseForm, .PopulateQueryParameters protoReq form filter_Blockchain_GetValidator_0]⟩
    | .ok populated =>
      let r := client.GetValidator ctx populated
      ⟨r.msg, ⟨r.header, r.trailer⟩, r.err,
        [.ParseForm, .PopulateQueryParameters protoReq form filter_Blockchain_GetValidator_0,
         .ClientCall .GetValidator ctx populated]⟩

def local_request_Blockchain_GetValidator_0 (R : Runtime) (ctx : Ctx) (_marshaler : Marshaler)
    (server : BlockchainServer) (req : Request) (_pathParams : PathParams) : LocalDecoded :=
  let protoReq : Message := Message.zero "GetValidatorRequest"
  let metadata : ServerMetadata := {}
  match R.ParseForm req with
  | .error err => ⟨none, metadata, status.Errorf codes.InvalidArgument err, [.ParseForm], {}⟩
  | .ok form =>
    match R.PopulateQueryParameters protoReq form filter_Blockchain_GetValidator_0 with
    | .error err =>
      ⟨none, metadata, status.Errorf codes.InvalidArgument err,
        [.ParseForm, .PopulateQueryParameters protoReq form filter_Blockchain_GetValidator_0], {}⟩
    | .ok populated =>
      let r := server.GetValidator ctx populated
      ⟨r.msg, metadata, r.err,
        [.ParseForm, .PopulateQueryParameters protoReq form filter_Blockchain_GetValidator_0,
         .ServerCall .GetValidator ctx populated], r.stream⟩

def filter_Blockchain_GetValidatorByNumber_0 : DoubleArray := ⟨[], [], []⟩

def request_Blockchain_GetValidatorByNumber_0 (R : Runtime) (ctx : Ctx) (_marshaler : Marshaler)
    (client : BlockchainClient) (req : Request) (_pathParams : PathParams) : Decoded :=
  let protoReq : Message := Message.zero "GetValidatorByNumberRequest"
  let metadata : ServerMetadata := {}
  match R.ParseForm req with
  | .error err => ⟨none, metadata, status.Errorf codes.InvalidArgument err, [.ParseForm]⟩
  | .ok form =>
    match R.PopulateQueryParameters protoReq form filter_Blockchain_GetValidatorByNumber_0 with
    | .error err =>
      ⟨none, metadata, status.Errorf codes.InvalidArgument err,
        [.ParseForm, .PopulateQueryParameters protoReq form filter_Blockchain_GetValidatorByNumber_0]⟩
    | .ok populated =>
      let r := client.GetValidatorByNumber ctx populated
      ⟨r.msg, ⟨r.header, r.trailer⟩, r.err,
        [.ParseForm, .PopulateQueryParameters protoReq form filter_Blockchain_GetValidatorByNumber_0,
         .ClientCall .GetValidatorByNumber ctx populated]⟩

def local_request_Blockchain_GetValidatorByNumber_0 (R : Runtime) (ctx : Ctx) (_marshaler : Marshaler)
    (server : BlockchainServer) (req : Request) (_pathParams : PathParams) : LocalDecoded :=
  let protoReq : Message := Message.zero "GetValidatorByNumberRequest"
  let metadata : ServerMetadata := {}
  match R.ParseForm req with
  | .error err => ⟨none, metadata, status.Errorf codes.InvalidArgument err, [.ParseForm], {}⟩
  | .ok form =>
    match R.PopulateQueryParameters protoReq form filter_Blockchain_GetValidatorByNumber_0 with
    | .error err =>
      ⟨none, metadata, status.Errorf codes.InvalidArgument err,
        [.ParseForm, .PopulateQueryParameters protoReq form filter_Blockchain_GetValidatorByNumber_0], {}⟩
    | .ok populated =>
      let r := server.GetValidatorByNumber ctx populated
      ⟨r.msg, metadata, r.err,
        [.ParseForm, .PopulateQueryParameters protoReq form filter_Blockchain_GetValidatorByNumber_0,
         .ServerCall .GetValidatorByNumber ctx populated], r.stream⟩

def filter_Blockchain_GetPublicKey_0 : DoubleArray := ⟨[], [], []⟩

def request_Blockchain_GetPublicKey_0 (R : Runtime) (ctx : Ctx) (_marshaler : Marshaler)
    (client : BlockchainClient) (req : Request) (_pathParams : PathParams) : Decoded :=
  let protoReq : Message := Message.zero "GetPublicKeyRequest"
  let metadata : ServerMetadata := {}
  match R.ParseForm req with
  | .error err => ⟨none, metadata, status.Errorf codes.InvalidArgument err, [.ParseForm]⟩
  | .ok form =>
    match R.PopulateQueryParameters protoReq form filter_Blockchain_GetPublicKey_0 with
    | .error err =>
      ⟨none, metadata, status.Errorf codes.InvalidArgument err,
        [.ParseForm, .PopulateQueryParameters protoReq form filter_Blockchain_GetPublicKey_0]⟩
    | .ok populated =>
      let r := client.GetPublicKey ctx populated
      ⟨r.msg, ⟨r.header, r.trailer⟩, r.err,
        [.ParseForm, .PopulateQueryParameters protoReq form filter_Blockchain_GetPublicKey_0,
         .ClientCall .GetPublicKey ctx populated]⟩

def local_request_Blockchain_GetPublicKey_0 (R : Runtime) (ctx : Ctx) (_marshaler : Marshaler)
    (server : BlockchainServer) (req : Request) (_pathParams : PathParams) : LocalDecoded :=
  let protoReq : Message := Message.zero "GetPublicKeyRequest"
  let metadata : ServerMetadata := {}
  match R.ParseForm req with
  | .error err => ⟨none, metadata, status.Errorf codes.InvalidArgument err, [.ParseForm], {}⟩
  | .ok form =>
    match R.PopulateQueryParameters protoReq form filter_Blockchain_GetPublicKey_0 with
    | .error err =>
      ⟨none, metadata, status.Errorf codes.InvalidArgument err,
        [.ParseForm, .PopulateQueryParameters protoReq form filter_Blockchain_GetPublicKey_0], {}⟩
    | .ok populated =>
      let r := server.GetPublicKey ctx populated
      ⟨r.msg, metadata, r.err,
        [.ParseForm, .PopulateQueryParameters protoReq form filter_Blockchain_GetPublicKey_0,
         .ServerCall .GetPublicKey ctx populated], r.stream⟩

/-! ## The registration functions (source lines 322-554 and 587-793) -/

/-- One call `mux.Handle(meth, pat, h)`; the handler is given by the calls it makes on a
request. -/
structure Registration where
  meth : String
  pat : Pattern
  h : Request → PathParams → List Event

/-- A function body under `defer cancel()`: the deferred call runs when the body returns,
whichever `return` it took. -/
def deferCancel (body : List Event) : List Event := body ++ [Event.cancel]

/-- The function `RegisterBlockchainHandlerServer`: the calls `mux.Handle` it makes, in
order, and the error it returns. -/
def RegisterBlockchainHandlerServer (R : Runtime) (_ctx : Ctx) (mux : ServeMux)
    (server : BlockchainServer) : List Registration × Option GoError :=
  ([
    ⟨"GET", pattern_Blockchain_GetBlock_0, fun req pathParams =>
      let ctx := Ctx.WithCancel req.Context
      Event.WithCancel req.Context :: deferCancel (
        let ctx := Ctx.NewContextWithServerTransportStream ctx
        let marshalers := R.MarshalerForRequest mux req
        let inboundMarshaler := marshalers.1
        let outboundMarshaler := marshalers.2
        Event.AnnotateIncomingContext ctx "/pactus.Blockchain/GetBlock" "/pactus/blockchain/get_block" ::
        match R.AnnotateIncomingContext ctx mux req "/pactus.Blockchain/GetBlock"
            "/pactus/blockchain/get_block" with
        | .error err => [Event.HTTPError ctx outboundMarshaler err]
        | .ok annotatedContext =>
          let d := local_request_Blockchain_GetBlock_0 R annotatedContext inboundMarshaler server req
            pathParams
          let md : ServerMetadata :=
            ⟨R.Join d.metadata.HeaderMD d.stream.Header, R.Join d.metadata.TrailerMD d.stream.Trailer⟩
          let annotatedContext := Ctx.NewServerMetadataContext annotatedContext md
          d.trace ++
          match d.err with
          | some err => [Event.HTTPError annotatedContext outboundMarshaler err]
          | none =>
            [Event.Forward forward_Blockchain_GetBlock_0 annotatedContext outboundMarshaler d.msg
              mux.GetForwardResponseOptions])⟩,
    ⟨"GET", pattern_Blockchain_GetBlockHash_0, fun req pathParams =>
      let ctx := Ctx.WithCancel req.Context
      Event.WithCancel req.Context :: deferCancel (
        let ctx := Ctx.NewContextWithServerTransportStream ctx
        let marshalers := R.MarshalerForRequest mux req
        let inboundMarshaler := marshalers.1
        let outboundMarshaler := marshalers.2
        Event.AnnotateIncomingContext ctx "/pactus.Blockchain/GetBlockHash" "/pactus/blockchain/get_block_hash" ::
        match R.AnnotateIncomingContext ctx mux req "/pactus.Blockchain/GetBlockHash"
            "/pactus/blockchain/get_block_hash" with
        | .error err => [Event.HTTPError ctx outboundMarshaler err]
        | .ok annotatedContext =>
          let d := local_request_Blockchain_GetBlockHash_0 R annotatedContext inboundMarshaler server req
            pathParams
          let md : ServerMetadata :=
            ⟨R.Join d.metadata.HeaderMD d.stream.Header, R.Join d.metadata.TrailerMD d.stream.Trailer⟩
          let annotatedContext := Ctx.NewServerMetadataContext annotatedContext md
          d.trace ++
          match d.err with
          | some err => [Event.HTTPError annotatedContext outboundMarshaler err]
          | none =>
            [Event.Forward forward_Blockchain_GetBlockHash_0 annotatedContext outboundMarshaler d.msg
              mux.GetForwardResponseOptions])⟩,
    ⟨"GET", pattern_Blockchain_GetBlockHeight_0, fun req pathParams =>
      let ctx := Ctx.WithCancel req.Context
      Event.WithCancel req.Context :: deferCancel (
        let ctx := Ctx.NewContextWithServerTransportStream ctx
        let marshalers := R.MarshalerForRequest mux req
        let inboundMarshaler := marshalers.1
        let outboundMarshaler := marshalers.2
        Event.AnnotateIncomingContext ctx "/pactus.Blockchain/GetBlockHeight" "/pactus/blockchain/get_block_height" ::
        match R.AnnotateIncomingContext ctx mux req "/pactus.Blockchain/GetBlockHeight"
            "/pactus/blockchain/get_block_height" with
        | .error err => [Event.HTTPError ctx outboundMarshaler err]
        | .ok annotatedContext =>
          let d := local_request_Blockchain_GetBlockHeight_0 R annotatedContext inboundMarshaler server req
            pathParams
          let md : ServerMetadata :=
            ⟨R.Join d.metadata.HeaderMD d.stream.Header, R.Join d.metadata.TrailerMD d.stream.Trailer⟩
          let annotatedContext := Ctx.NewServerMetadataContext annotatedContext md
          d.trace ++
          match d.err with
          | some err => [Event.HTTPError annotatedContext outboundMarshaler err]
          | none =>
            [Event.Forward forward_Blockchain_GetBlockHeight_0 annotatedContext outboundMarshaler d.msg
              mux.GetForwardResponseOptions])⟩,
    ⟨"GET", pattern_Blockchain_GetBlockchainInfo_0, fun req pathParams =>
      let ctx := Ctx.WithCancel req.Context
      Event.WithCancel req.Context :: deferCancel (
        let ctx := Ctx.NewContextWithServerTransportStream ctx
        let marshalers := R.MarshalerForRequest mux req
        let inboundMarshaler := marshalers.1
        let outboundMarshaler := marshalers.2
        Event.AnnotateIncomingContext ctx "/pactus.Blockchain/GetBlockchainInfo" "/pactus/blockchain/get_blockchain_info" ::
        match R.AnnotateIncomingContext ctx mux req "/pactus.Blockchain/GetBlockchainInfo"
            "/pactus/blockchain/get_blockchain_info" with
        | .error err => [Event.HTTPError ctx outboundMarshaler err]
        | .ok annotatedContext =>
          let d := local_request_Blockchain_GetBlockchainInfo_0 R annotatedContext inboundMarshaler server req
            pathParams
          let md : ServerMetadata :=
            ⟨R.Join d.metadata.HeaderMD d.stream.Header, R.Join d.metadata.TrailerMD d.stream.Trailer⟩
          let annotatedContext := Ctx.NewServerMetadataContext annotatedContext md
          d.trace ++
          match d.err with
          | some err => [Event.HTTPError annotatedContext outboundMarshaler err]
          | none =>
            [Event.Forward forward_Blockchain_GetBlockchainInfo_0 annotatedContext outboundMarshaler d.msg
              mux.GetForwardResponseOptions])⟩,
    ⟨"GET", pattern_Blockchain_GetConsensusInfo_0, fun req pathParams =>
      let ctx := Ctx.WithCancel req.Context
      Event.WithCancel req.Context :: deferCancel (
        let ctx := Ctx.NewContextWithServerTransportStream ctx
        let marshalers := R.MarshalerForRequest mux req
        let inboundMarshaler := marshalers.1
        let outboundMarshaler := marshalers.2
        Event.AnnotateIncomingContext ctx "/pactus.Blockchain/GetConsensusInfo" "/pactus/blockchain/get_consensus_info" ::
        match R.AnnotateIncomingContext ctx mux req "/pactus.Blockchain/GetConsensusInfo"
            "/pactus/blockchain/get_consensus_info" with
        | .error err => [Event.HTTPError ctx outboundMarshaler err]
        | .ok annotatedContext =>
          let d := local_request_Blockchain_GetConsensusInfo_0 R annotatedContext inboundMarshaler server req
            pathParams
          let md : ServerMetadata :=
            ⟨R.Join d.metadata.HeaderMD d.stream.Header, R.Join d.metadata.TrailerMD d.stream.Trailer⟩
          let annotatedContext := Ctx.NewServerMetadataContext annotatedContext md
          d.trace ++
          match d.err with
          | some err => [Event.HTTPError annotatedContext outboundMarshaler err]
          | none =>
            [Event.Forward forward_Blockchain_GetConsensusInfo_0 annotatedContext outboundMarshaler d.msg
              mux.GetForwardResponseOptions])⟩,
    ⟨"GET", pattern_Blockchain_GetAccount_0, fun req pathParams =>
      let ctx := Ctx.WithCancel req.Context
      Event.WithCancel req.Context :: deferCancel (
        let ctx := Ctx.NewContextWithServerTransportStream ctx
        let marshalers := R.MarshalerForRequest mux req
        let inboundMarshaler := marshalers.1
        let outboundMarshaler := marshalers.2
        Event.AnnotateIncomingContext ctx "/pactus.Blockchain/GetAccount" "/pactus/blockchain/get_account" ::
        match R.AnnotateIncomingContext ctx mux req "/pactus.Blockchain/GetAccount"
            "/pactus/blockchain/get_account" with
        | .error err => [Event.HTTPError ctx outboundMarshaler err]
        | .ok annotatedContext =>
          let d := local_request_Blockchain_GetAccount_0 R annotatedContext inboundMarshaler server req
            pathParams
          let md : ServerMetadata :=
            ⟨R.Join d.metadata.HeaderMD d.stream.Header, R.Join d.metadata.TrailerMD d.stream.Trailer⟩
          let annotatedContext := Ctx.NewServerMetadataContext annotatedContext md
          d.trace ++
          match d.err with
          | some err => [Event.HTTPError annotatedContext outboundMarshaler err]
          | none =>
            [Event.Forward forward_Blockchain_GetAccount_0 annotatedContext outboundMarshaler d.msg
              mux.GetForwardResponseOptions])⟩,
    ⟨"GET", pattern_Blockchain_GetValidator_0, fun req pathParams =>
      let ctx := Ctx.WithCancel req.Context
      Event.WithCancel req.Context :: deferCancel (
        let ctx := Ctx.NewContextWithServerTransportStream ctx
        let marshalers := R.MarshalerForRequest mux req
        let inboundMarshaler := marshalers.1
        let outboundMarshaler := marshalers.2
        Event.AnnotateIncomingContext ctx "/pactus.Blockchain/GetValidator" "/pactus/blockchain/get_validator" ::
        match R.AnnotateIncomingContext ctx mux req "/pactus.Blockchain/GetValidator"
            "/pactus/blockchain/get_validator" with
        | .error err => [Event.HTTPError ctx outboundMarshaler err]
        | .ok annotatedContext =>
          let d := local_request_Blockchain_GetValidator_0 R annotatedContext inboundMarshaler server req
            pathParams
          let md : ServerMetadata :=
            ⟨R.Join d.metadata.HeaderMD d.stream.Header, R.Join d.metadata.TrailerMD d.stream.Trailer⟩
          let annotatedContext := Ctx.NewServerMetadataContext annotatedContext md
          d.trace ++
          match d.err with
          | some err => [Event.HTTPError annotatedContext outboundMarshaler err]
          | none =>
            [Event.Forward forward_Blockchain_GetValidator_0 annotatedContext outboundMarshaler d.msg
              mux.GetForwardResponseOptions])⟩,
    ⟨"GET", pattern_Blockchain_GetValidatorByNumber_0, fun req pathParams =>
      let ctx := Ctx.WithCancel req.Context
      Event.WithCancel req.Context :: deferCancel (
        let ctx := Ctx.NewContextWithServerTransportStream ctx
        let marshalers := R.MarshalerForRequest mux req
        let inboundMarshaler := marshalers.1
        let outboundMarshaler := marshalers.2
        Event.AnnotateIncomingContext ctx "/pactus.Blockchain/GetValidatorByNumber" "/pactus/blockchain/get_validator_by_number" ::
        match R.AnnotateIncomingContext ctx mux req "/pactus.Blockchain/GetValidatorByNumber"
            "/pactus/blockchain/get_validator_by_number" with
        | .error err => [Event.HTTPError ctx outboundMarshaler err]
        | .ok annotatedContext =>
          let d := local_request_Blockchain_GetValidatorByNumber_0 R annotatedContext inboundMarshaler server req
            pathParams
          let md : ServerMetadata :=
            ⟨R.Join d.metadata.HeaderMD d.stream.Header, R.Join d.metadata.TrailerMD d.stream.Trailer⟩
          let annotatedContext := Ctx.NewServerMetadataContext annotatedContext md
          d.trace ++
          match d.err with
          | some err => [Event.HTTPError annotatedContext outboundMarshaler err]
          | none =>
            [Event.Forward forward_Blockchain_GetValidatorByNumber_0 annotatedContext outboundMarshaler d.msg
              mux.GetForwardResponseOptions])⟩,
    ⟨"GET", pattern_Blockchain_GetPublicKey_0, fun req pathParams =>
      let ctx := Ctx.WithCancel req.Context
      Event.WithCancel req.Context :: deferCancel (
        let ctx := Ctx.NewContextWithServerTransportStream ctx
        let marshalers := R.MarshalerForRequest mux req
        let inboundMarshaler := marshalers.1
        let outboundMarshaler := marshalers.2
        Event.AnnotateIncomingContext ctx "/pactus.Blockchain/GetPublicKey" "/pactus/blockchain/get_public_key" ::
        match R.AnnotateIncomingContext ctx mux req "/pactus.Blockchain/GetPublicKey"
            "/pactus/blockchain/get_public_key" with
        | .error err => [Event.HTTPError ctx outboundMarshaler err]
        | .ok annotatedContext =>
          let d := local_request_Blockchain_GetPublicKey_0 R annotatedContext inboundMarshaler server req
            pathParams
          let md : ServerMetadata :=
            ⟨R.Join d.metadata.HeaderMD d.stream.Header, R.Join d.metadata.TrailerMD d.stream.Trailer⟩
          let annotatedContext := Ctx.NewServerMetadataContext annotatedContext md
          d.trace ++
          match d.err with
          | some err => [Event.HTTPError annotatedContext outboundMarshaler err]
          | none =>
            [Event.Forward forward_Blockchain_GetPublicKey_0 annotatedContext outboundMarshaler d.msg
              mux.GetForwardResponseOptions])⟩
   ], none)

/-- The function `RegisterBlockchainHandlerClient`: the calls `mux.Handle` it makes, in
order, and the error it returns. -/
def RegisterBlockchainHandlerClient (R : Runtime) (_ctx : Ctx) (mux : ServeMux)
    (client : BlockchainClient) : List Registration × Option GoError :=
  ([
    ⟨"GET", pattern_Blockchain_GetBlock_0, fun req pathParams =>
      let ctx := Ctx.WithCancel req.Context
      Event.WithCancel req.Context :: deferCancel (
        let marshalers := R.MarshalerForRequest mux req
        let inboundMarshaler := marshalers.1
        let outboundMarshaler := marshalers.2
        Event.AnnotateContext ctx "/pactus.Blockchain/GetBlock" "/pactus/blockchain/get_block" ::
        match R.AnnotateContext ctx mux req "/pactus.Blockchain/GetBlock"
            "/pactus/blockchain/get_block" with
        | .error err => [Event.HTTPError ctx outboundMarshaler err]
        | .ok annotatedContext =>
          let d := request_Blockchain_GetBlock_0 R annotatedContext inboundMarshaler client req
            pathParams
          let annotatedContext := Ctx.NewServerMetadataContext annotatedContext d.metadata
          d.trace ++
          match d.err with
          | some err => [Event.HTTPError annotatedContext outboundMarshaler err]
          | none =>
            [Event.Forward forward_Blockchain_GetBlock_0 annotatedContext outboundMarshaler d.msg
              mux.GetForwardResponseOptions])⟩,
    ⟨"GET", pattern_Blockchain_GetBlockHash_0, fun req pathParams =>
      let ctx := Ctx.WithCancel req.Context
      Event.WithCancel req.Context :: deferCancel (
        let marshalers := R.MarshalerForRequest mux req
        let inboundMarshaler := marshalers.1
        let outboundMarshaler := marshalers.2
        Event.AnnotateContext ctx "/pactus.Blockchain/GetBlockHash" "/pactus/blockchain/get_block_hash" ::
        match R.AnnotateContext ctx mux req "/pactus.Blockchain/GetBlockHash"
            "/pactus/blockchain/get_block_hash" with
        | .error err => [Event.HTTPError ctx outboundMarshaler err]
        | .ok annotatedContext =>
          let d := request_Blockchain_GetBlockHash_0 R annotatedContext inboundMarshaler client req
            pathParams
          let annotatedContext := Ctx.NewServerMetadataContext annotatedContext d.metadata
          d.trace ++
          match d.err with
          | some err => [Event.HTTPError annotatedContext outboundMarshaler err]
          | none =>
            [Event.Forward forward_Blockchain_GetBlockHash_0 annotatedContext outboundMarshaler d.msg
              mux.GetForwardResponseOptions])⟩,
    ⟨"GET", pattern_Blockchain_GetBlockHeight_0, fun req pathParams =>
      let ctx := Ctx.WithCancel req.Context
      Event.WithCancel req.Context :: deferCancel (
        let marshalers := R.MarshalerForRequest mux req
        let inboundMarshaler := marshalers.1
        let outboundMarshaler := marshalers.2
        Event.AnnotateContext ctx "/pactus.Blockchain/GetBlockHeight" "/pactus/blockchain/get_block_height" ::
        match R.AnnotateContext ctx mux req "/pactus.Blockchain/GetBlockHeight"
            "/pactus/blockchain/get_block_height" with
        | .error err => [Event.HTTPError ctx outboundMarshaler err]
        | .ok annotatedContext =>
          let d := request_Blockchain_GetBlockHeight_0 R annotatedContext inboundMarshaler client req
            pathParams
          let annotatedContext := Ctx.NewServerMetadataContext annotatedContext d.metadata
          d.trace ++
          match d.err with
          | some err => [Event.HTTPError annotatedContext outboundMarshaler err]
          | none =>
            [Event.Forward forward_Blockchain_GetBlockHeight_0 annotatedContext outboundMarshaler d.msg
              mux.GetForwardResponseOptions])⟩,
    ⟨"GET", pattern_Blockchain_GetBlockchainInfo_0, fun req pathParams =>
      let ctx := Ctx.WithCancel req.Context
      Event.WithCancel req.Context :: deferCancel (
        let marshalers := R.MarshalerForRequest mux req
        let inboundMarshaler := marshalers.1
        let outboundMarshaler := marshalers.2
        Event.AnnotateContext ctx "/pactus.Blockchain/GetBlockchainInfo" "/pactus/blockchain/get_blockchain_info" ::
        match R.AnnotateContext ctx mux req "/pactus.Blockchain/GetBlockchainInfo"
            "/pactus/blockchain/get_blockchain_info" with
        | .error err => [Event.HTTPError ctx outboundMarshaler err]
        | .ok annotatedContext =>
          let d := request_Blockchain_GetBlockchainInfo_0 R annotatedContext inboundMarshaler client req
            pathParams
          let annotatedContext := Ctx.NewServerMetadataContext annotatedContext d.metadata
          d.trace ++
          match d.err with
          | some err => [Event.HTTPError annotatedContext outboundMarshaler err]
          | none =>
            [Event.Forward forward_Blockchain_GetBlockchainInfo_0 annotatedContext outboundMarshaler d.msg
              mux.GetForwardResponseOptions])⟩,
    ⟨"GET", pattern_Blockchain_GetConsensusInfo_0, fun req pathParams =>
      let ctx := Ctx.WithCancel req.Context
      Event.WithCancel req.Context :: deferCancel (
        let marshalers := R.MarshalerForRequest mux req
        let inboundMarshaler := marshalers.1
        let outboundMarshaler := marshalers.2
        Event.AnnotateContext ctx "/pactus.Blockchain/GetConsensusInfo" "/pactus/blockchain/get_consensus_info" ::
        match R.AnnotateContext ctx mux req "/pactus.Blockchain/GetConsensusInfo"
            "/pactus/blockchain/get_consensus_info" with
        | .error err => [Event.HTTPError ctx outboundMarshaler err]
        | .ok annotatedContext =>
          let d := request_Blockchain_GetConsensusInfo_0 R annotatedContext inboundMarshaler client req
            pathParams
          let annotatedContext := Ctx.NewServerMetadataContext annotatedContext d.metadata
          d.trace ++
          match d.err with
          | some err => [Event.HTTPError annotatedContext outboundMarshaler err]
          | none =>
            [Event.Forward forward_Blockchain_GetConsensusInfo_0 annotatedContext outboundMarshaler d.msg
              mux.GetForwardResponseOptions])⟩,
    ⟨"GET", pattern_Blockchain_GetAccount_0, fun req pathParams =>
      let ctx := Ctx.WithCancel req.Context
      Event.WithCancel req.Context :: deferCancel (
        let marshalers := R.MarshalerForRequest mux req
        let inboundMarshaler := marshalers.1
        let outboundMarshaler := marshalers.2
        Event.AnnotateContext ctx "/pactus.Blockchain/GetAccount" "/pactus/blockchain/get_account" ::
        match R.AnnotateContext ctx mux req "/pactus.Blockchain/GetAccount"
            "/pactus/blockchain/get_account" with
        | .error err => [Event.HTTPError ctx outboundMarshaler err]
        | .ok annotatedContext =>
          let d := request_Blockchain_GetAccount_0 R annotatedContext inboundMarshaler client req
            pathParams
          let annotatedContext := Ctx.NewServerMetadataContext annotatedContext d.metadata
          d.trace ++
          match d.err with
          | some err => [Event.HTTPError annotatedContext outboundMarshaler err]
          | none =>
            [Event.Forward forward_Blockchain_GetAccount_0 annotatedContext outboundMarshaler d.msg
              mux.GetForwardResponseOptions])⟩,
    ⟨"GET", pattern_Blockchain_GetValidator_0, fun req pathParams =>
      let ctx := Ctx.WithCancel req.Context
      Event.WithCancel req.Context :: deferCancel (
        let marshalers := R.MarshalerForRequest mux req
        let inboundMarshaler := marshalers.1
        let outboundMarshaler := marshalers.2
        Event.AnnotateContext ctx "/pactus.Blockchain/GetValidator" "/pactus/blockchain/get_validator" ::
        match R.AnnotateContext ctx mux req "/pactus.Blockchain/GetValidator"
            "/pactus/blockchain/get_validator" with
        | .error err => [Event.HTTPError ctx outboundMarshaler err]
        | .ok annotatedContext =>
          let d := request_Blockchain_GetValidator_0 R annotatedContext inboundMarshaler client req
            pathParams
          let annotatedContext := Ctx.NewServerMetadataContext annotatedContext d.metadata
          d.trace ++
          match d.err with
          | some err => [Event.HTTPError annotatedContext outboundMarshaler err]
          | none =>
            [Event.Forward forward_Blockchain_GetValidator_0 annotatedContext outboundMarshaler d.msg
              mux.GetForwardResponseOptions])⟩,
    ⟨"GET", pattern_Blockchain_GetValidatorByNumber_0, fun req pathParams =>
      let ctx := Ctx.WithCancel req.Context
      Event.WithCancel req.Context :: deferCancel (
        let marshalers := R.MarshalerForRequest mux req
        let inboundMarshaler := marshalers.1
        let outboundMarshaler := marshalers.2
        Event.AnnotateContext ctx "/pactus.Blockchain/GetValidatorByNumber" "/pactus/blockchain/get_validator_by_number" ::
        match R.AnnotateContext ctx mux req "/pactus.Blockchain/GetValidatorByNumber"
            "/pactus/blockchain/get_validator_by_number" with
        | .error err => [Event.HTTPError ctx outboundMarshaler err]
        | .ok annotatedContext =>
          let d := request_Blockchain_GetValidatorByNumber_0 R annotatedContext inboundMarshaler client req
            pathParams
          let annotatedContext := Ctx.NewServerMetadataContext annotatedContext d.metadata
          d.trace ++
          match d.err with
          | some err => [Event.HTTPError annotatedContext outboundMarshaler err]
          | none =>
            [Event.Forward forward_Blockchain_GetValidatorByNumber_0 annotatedContext outboundMarshaler d.msg
              mux.GetForwardResponseOptions])⟩,
    ⟨"GET", pattern_Blockchain_GetPublicKey_0, fun req pathParams =>
      let ctx := Ctx.WithCancel req.Context
      Event.WithCancel req.Context :: deferCancel (
        let marshalers := R.MarshalerForRequest mux req
        let inboundMarshaler := marshalers.1
        let outboundMarshaler := marshalers.2
        Event.AnnotateContext ctx "/pactus.Blockchain/GetPublicKey" "/pactus/blockchain/get_public_key" ::
        match R.AnnotateContext ctx mux req "/pactus.Blockchain/GetPublicKey"
            "/pactus/blockchain/get_public_key" with
        | .error err => [Event.HTTPError ctx outboundMarshaler err]
        | .ok annotatedContext =>
          let d := request_Blockchain_GetPublicKey_0 R annotatedContext inboundMarshaler client req
            pathParams
          let annotatedContext := Ctx.NewServerMetadataContext annotatedContext d.metadata
          d.trace ++
          match d.err with
          | some err => [Event.HTTPError annotatedContext outboundMarshaler err]
          | none =>
            [Event.Forward forward_Blockchain_GetPublicKey_0 annotatedContext outboundMarshaler d.msg
              mux.GetForwardResponseOptions])⟩
   ], none)

/-! ## Indexing the per-method definitions by method -/

/-- The name of a method in the service definition. -/
def Rpc.name : Rpc → String
  | .GetBlock => "GetBlock"
  | .GetBlockHash => "GetBlockHash"
  | .GetBlockHeight => "GetBlockHeight"
  | .GetBlockchainInfo => "GetBlockchainInfo"
  | .GetConsensusInfo => "GetConsensusInfo"
  | .GetAccount => "GetAccount"
  | .GetValidator => "GetValidator"
  | .GetValidatorByNumber => "GetValidatorByNumber"
  | .GetPublicKey => "GetPublicKey"

/-- The pattern variable named for a method. -/
def pattern_Blockchain : Rpc → Pattern
  | .GetBlock => pattern_Blockchain_GetBlock_0
  | .GetBlockHash => pattern_Blockchain_GetBlockHash_0
  | .GetBlockHeight => pattern_Blockchain_GetBlockHeight_0
  | .GetBlockchainInfo => pattern_Blockchain_GetBlockchainInfo_0
  | .GetConsensusInfo => pattern_Blockchain_GetConsensusInfo_0
  | .GetAccount => pattern_Blockchain_GetAccount_0
  | .GetValidator => pattern_Blockchain_GetValidator_0
  | .GetValidatorByNumber => pattern_Blockchain_GetValidatorByNumber_0
  | .GetPublicKey => pattern_Blockchain_GetPublicKey_0

/-- The forwarder variable named for a method. -/
def forward_Blockchain : Rpc → RuntimeForwarder
  | .GetBlock => forward_Blockchain_GetBlock_0
  | .GetBlockHash => forward_Blockchain_GetBlockHash_0
  | .GetBlockHeight => forward_Blockchain_GetBlockHeight_0
  | .GetBlockchainInfo => forward_Blockchain_GetBlockchainInfo_0
  | .GetConsensusInfo => forward_Blockchain_GetConsensusInfo_0
  | .GetAccount => forward_Blockchain_GetAccount_0
  | .GetValidator => forward_Blockchain_GetValidator_0
  | .GetValidatorByNumber => forward_Blockchain_GetValidatorByNumber_0
  | .GetPublicKey => forward_Blockchain_GetPublicKey_0

/-- The filter variable named for a method, when the file declares one. -/
def filter_Blockchain : Rpc → Option DoubleArray
  | .GetBlock => some filter_Blockchain_GetBlock_0
  | .GetBlockHash => some filter_Blockchain_GetBlockHash_0
  | .GetBlockHeight => some filter_Blockchain_GetBlockHeight_0
  | .GetBlockchainInfo => none
  | .GetConsensusInfo => none
  | .GetAccount => some filter_Blockchain_GetAccount_0
  | .GetValidator => some filter_Blockchain_GetValidator_0
  | .GetValidatorByNumber => some filter_Blockchain_GetValidatorByNumber_0
  | .GetPublicKey => some filter_Blockchain_GetPublicKey_0

/-- The client-path decoder named for a method. -/
def request_Blockchain : Rpc → Runtime → Ctx → Marshaler → BlockchainClient → Request → PathParams → Decoded
  | .GetBlock => request_Blockchain_GetBlock_0
  | .GetBlockHash => request_Blockchain_GetBlockHash_0
  | .GetBlockHeight => request_Blockchain_GetBlockHeight_0
  | .GetBlockchainInfo => request_Blockchain_GetBlockchainInfo_0
  | .GetConsensusInfo => request_Blockchain_GetConsensusInfo_0
  | .GetAccount => request_Blockchain_GetAccount_0
  | .GetValidator => request_Blockchain_GetValidator_0
  | .GetValidatorByNumber => request_Blockchain_GetValidatorByNumber_0
  | .GetPublicKey => request_Blockchain_GetPublicKey_0

/-- The server-path decoder named for a method. -/
def local_request_Blockchain : Rpc → Runtime → Ctx → Marshaler → BlockchainServer → Request → PathParams →
    LocalDecoded
  | .GetBlock => local_request_Blockchain_GetBlock_0
  | .GetBlockHash => local_request_Blockchain_GetBlockHash_0
  | .GetBlockHeight => local_request_Blockchain_GetBlockHeight_0
  | .GetBlockchainInfo => local_request_Blockchain_GetBlockchainInfo_0
  | .GetConsensusInfo => local_request_Blockchain_GetConsensusInfo_0
  | .GetAccount => local_request_Blockchain_GetAccount_0
  | .GetValidator => local_request_Blockchain_GetValidator_0
  | .GetValidatorByNumber => local_request_Blockchain_GetValidatorByNumber_0
  | .GetPublicKey => local_request_Blockchain_GetPublicKey_0

/-- The method of a client that implements a given RPC. -/
def BlockchainClient.method (c : BlockchainClient) : Rpc → Ctx → Message → ClientReply
  | .GetBlock => c.GetBlock
  | .GetBlockHash => c.GetBlockHash
  | .GetBlockHeight => c.GetBlockHeight
  | .GetBlockchainInfo => c.GetBlockchainInfo
  | .GetConsensusInfo => c.GetConsensusInfo
  | .GetAccount => c.GetAccount
  | .GetValidator => c.GetValidator
  | .GetValidatorByNumber => c.GetValidatorByNumber
  | .GetPublicKey => c.GetPublicKey

/-- The method of a server that implements a given RPC. -/
def BlockchainServer.method (c : BlockchainServer) : Rpc → Ctx → Message → ServerReply
  | .GetBlock => c.GetBlock
  | .GetBlockHash => c.GetBlockHash
  | .GetBlockHeight => c.GetBlockHeight
  | .GetBlockchainInfo => c.GetBlockchainInfo
  | .GetConsensusInfo => c.GetConsensusInfo
  | .GetAccount => c.GetAccount
  | .GetValidator => c.GetValidator
  | .GetValidatorByNumber => c.GetValidatorByNumber
  | .GetPublicKey => c.GetPublicKey

/-! ## The documented URL surface (specification, section 6) -/

/-- One row of the documented table: HTTP method, path, RPC. -/
structure Row where
  httpMethod : String
  path : String
  rpc : Rpc
deriving DecidableEq, Repr

/-- The table of the specification, row by row. -/
def documentedTable : List Row :=
  [⟨"GET", "/pactus/blockchain/get_block", .GetBlock⟩,
   ⟨"GET", "/pactus/blockchain/get_block_hash", .GetBlockHash⟩,
   ⟨"GET", "/pactus/blockchain/get_block_height", .GetBlockHeight⟩,
   ⟨"GET", "/pactus/blockchain/get_blockchain_info", .GetBlockchainInfo⟩,
   ⟨"GET", "/pactus/blockchain/get_consensus_info", .GetConsensusInfo⟩,
   ⟨"GET", "/pactus/blockchain/get_account", .GetAccount⟩,
   ⟨"GET", "/pactus/blockchain/get_validator", .GetValidator⟩,
   ⟨"GET", "/pactus/blockchain/get_validator_by_number", .GetValidatorByNumber⟩,
   ⟨"GET", "/pactus/blockchain/get_public_key", .GetPublicKey⟩]

/-- The documented path of a method. -/
def documentedPath (rpc : Rpc) : String :=
  match documentedTable.find? (fun row => row.rpc = rpc) with
  | some row => row.path
  | none => ""

/-- Cuts a list of characters at every slash; `cur` holds, reversed, the piece being read. -/
def splitSlash : List Char → List Char → List String
  | [], cur => [String.mk cur.reverse]
  | c :: cs, cur =>
    if c = '/' then String.mk cur.reverse :: splitSlash cs [] else splitSlash cs (c :: cur)

/-- The segments of a URL path: the pieces between the slashes, after the leading one. -/
def pathSegments (path : String) : List String := (splitSlash path.data []).tail

/-- The seven methods the specification lists as decoding a query string. -/
def queryRpcs : List Rpc :=
  [.GetBlock, .GetBlockHash, .GetBlockHeight, .GetAccount, .GetValidator,
   .GetValidatorByNumber, .GetPublicKey]

/-! ## Reading traces -/

/-- The service methods a trace invokes, in order. -/
def invokedRpcs : List Event → List Rpc
  | [] => []
  | .ClientCall rpc _ _ :: t => rpc :: invokedRpcs t
  | .ServerCall rpc _ _ :: t => rpc :: invokedRpcs t
  | _ :: t => invokedRpcs t

def Event.isCall : Event → Bool
  | .ClientCall _ _ _ => true
  | .ServerCall _ _ _ => true
  | _ => false

def Event.isHTTPError : Event → Bool
  | .HTTPError _ _ _ => true
  | _ => false

def Event.isForward : Event → Bool
  | .Forward _ _ _ _ _ => true
  | _ => false

def Event.isCancel : Event → Bool
  | .cancel => true
  | _ => false

/-- The working context of a client-path handler before annotation. -/
def clientCtx (req : Request) : Ctx := Ctx.WithCancel req.Context

/-- The working context of a server-path handler before annotation. -/
def serverCtx (req : Request) : Ctx :=
  Ctx.NewContextWithServerTransportStream (Ctx.WithCancel req.Context)

/-- The gRPC full method name of a method. -/
def Rpc.fullMethod (rpc : Rpc) : String := "/pactus.Blockchain/" ++ rpc.name

/-- The outcome of the annotation step of the client-path handler of `rpc`. -/
def annotateClient (R : Runtime) (mux : ServeMux) (rpc : Rpc) (req : Request) :
    Except GoError Ctx :=
  R.AnnotateContext (clientCtx req) mux req rpc.fullMethod (documentedPath rpc)

/-- The outcome of the annotation step of the server-path handler of `rpc`. -/
def annotateServer (R : Runtime) (mux : ServeMux) (rpc : Rpc) (req : Request) :
    Except GoError Ctx :=
  R.AnnotateIncomingContext (serverCtx req) mux req rpc.fullMethod (documentedPath rpc)

/-- Query decoding succeeds for `rpc` on `req` and yields the request message `m`: either
the method takes its request from the query and the form parses and populates a
zero-valued request into `m`, or the method decodes nothing and `m` is zero-valued. -/
def decodesTo (R : Runtime) (rpc : Rpc) (req : Request) (m : Message) : Prop :=
  match filter_Blockchain rpc with
  | some filter =>
    ∃ form, R.ParseForm req = .ok form ∧
      R.PopulateQueryParameters (Message.zero (rpc.name ++ "Request")) form filter = .ok m
  | none => m = Message.zero (rpc.name ++ "Request")

/-- Query decoding fails for `rpc` on `req` with the parse or populate error `e`. -/
def decodeFails (R : Runtime) (rpc : Rpc) (req : Request) (e : GoError) : Prop :=
  match filter_Blockchain rpc with
  | some filter =>
    R.ParseForm req = .error e ∨
      ∃ form, R.ParseForm req = .ok form ∧
        R.PopulateQueryParameters (Message.zero (rpc.name ++ "Request")) form filter = .error e
  | none => False

/-! ## Sample environments -/

/-- A runtime whose annotation, form parsing and population succeed or fail as told. -/
def sampleRuntime (annotateOk parseOk populateOk : Bool) : Runtime where
  ParseForm := fun req =>
    if parseOk then .ok [("q", [req.RawQuery])] else .error (.plain "invalid URL escape")
  PopulateQueryParameters := fun msg form _ =>
    if populateOk then .ok { msg with fields := form.map (fun kv => (kv.1, String.join kv.2)) }
    else .error (.plain "parsing field")
  MarshalerForRequest := fun _ _ => ("inbound", "outbound")
  AnnotateContext := fun ctx _ _ _ _ =>
    if annotateOk then .ok (.annotated ctx 0) else .error (.status 13 "annotation")
  AnnotateIncomingContext := fun ctx _ _ _ _ =>
    if annotateOk then .ok (.annotated ctx 1) else .error (.status 13 "annotation")
  Join := fun a b => a ++ b

/-- A client all of whose methods answer alike: with an error when `fails`, else with a
response message. -/
def sampleClient (fails : Bool) : BlockchainClient :=
  let f : Ctx → Message → ClientReply := fun _ m =>
    if fails then ⟨none, some (.status 5 "not found"), [], []⟩
    else ⟨some ⟨"Response", m.fields⟩, none, [("h", ["1"])], []⟩
  ⟨f, f, f, f, f, f, f, f, f⟩

/-- A server all of whose methods answer alike: with an error when `fails`, else with a
response message. -/
def sampleServer (fails : Bool) : BlockchainServer :=
  let f : Ctx → Message → ServerReply := fun _ m =>
    if fails then ⟨none, some (.status 5 "not found"), {}⟩
    else ⟨some ⟨"Response", m.fields⟩, none, ⟨[("h", ["1"])], []⟩⟩
  ⟨f, f, f, f, f, f, f, f, f⟩

def sampleRequest : Request := ⟨.base 7, "height=1"⟩

def sampleMux : ServeMux := ⟨1, []⟩

/-! ## The common shape of the handlers -/

/-- The handler `RegisterBlockchainHandlerServer` installs for `rpc`, written once for all
nine methods. -/
def serverHandler (R : Runtime) (mux : ServeMux) (server : BlockchainServer) (rpc : Rpc) :
    Request → PathParams → List Event := fun req pathParams =>
  Event.WithCancel req.Context :: deferCancel (
    Event.AnnotateIncomingContext (serverCtx req) rpc.fullMethod (documentedPath rpc) ::
    match annotateServer R mux rpc req with
    | .error err => [Event.HTTPError (serverCtx req) (R.MarshalerForRequest mux req).2 err]
    | .ok annotatedContext =>
      let d := local_request_Blockchain rpc R annotatedContext (R.MarshalerForRequest mux req).1
        server req pathParams
      let md : ServerMetadata :=
        ⟨R.Join d.metadata.HeaderMD d.stream.Header, R.Join d.metadata.TrailerMD d.stream.Trailer⟩
      d.trace ++
      match d.err with
      | some err =>
        [Event.HTTPError (Ctx.NewServerMetadataContext annotatedContext md)
          (R.MarshalerForRequest mux req).2 err]
      | none =>
        [Event.Forward (forward_Blockchain rpc) (Ctx.NewServerMetadataContext annotatedContext md)
          (R.MarshalerForRequest mux req).2 d.msg mux.GetForwardResponseOptions])

/-- The handler `RegisterBlockchainHandlerClient` installs for `rpc`, written once for all
nine methods. -/
def clientHandler (R : Runtime) (mux : ServeMux) (client : BlockchainClient) (rpc : Rpc) :
    Request → PathParams → List Event := fun req pathParams =>
  Event.WithCancel req.Context :: deferCancel (
    Event.AnnotateContext (clientCtx req) rpc.fullMethod (documentedPath rpc) ::
    match annotateClient R mux rpc req with
    | .error err => [Event.HTTPError (clientCtx req) (R.MarshalerForRequest mux req).2 err]
    | .ok annotatedContext =>
      let d := request_Blockchain rpc R annotatedContext (R.MarshalerForRequest mux req).1
        client req pathParams
      d.trace ++
      match d.err with
      | some err =>
        [Event.HTTPError (Ctx.NewServerMetadataContext annotatedContext d.metadata)
          (R.MarshalerForRequest mux req).2 err]
      | none =>
        [Event.Forward (forward_Blockchain rpc)
          (Ctx.NewServerMetadataContext annotatedContext d.metadata)
          (R.MarshalerForRequest mux req).2 d.msg mux.GetForwardResponseOptions])

/-! ## Looking up a registered handler -/

/-- The handler a list of registrations holds under the pattern `p`: the calls it makes on
a request (none at all when no handler is registered under `p`). -/
def handlerUnder (regs : List Registration) (p : Pattern) : Request → PathParams → List Event :=
  match regs.find? (fun r => r.pat = p) with
  | some r => r.h
  | none => fun _ _ => []

/-- The run, on a request, of the handler `RegisterBlockchainHandlerServer` registers under
the pattern of `rpc`. -/
def serverTrace (R : Runtime) (ctx : Ctx) (mux : ServeMux) (server : BlockchainServer)
    (rpc : Rpc) (req : Request) (pathParams : PathParams) : List Event :=
  handlerUnder (RegisterBlockchainHandlerServer R ctx mux server).1 (pattern_Blockchain rpc)
    req pathParams

/-- The run, on a request, of the handler `RegisterBlockchainHandlerClient` registers under
the pattern of `rpc`. -/
def clientTrace (R : Runtime) (ctx : Ctx) (mux : ServeMux) (client : BlockchainClient)
    (rpc : Rpc) (req : Request) (pathParams : PathParams) : List Event :=
  handlerUnder (RegisterBlockchainHandlerClient R ctx mux client).1 (pattern_Blockchain rpc)
    req pathParams

/-- The calls a decoder of `rpc` makes before it reaches the service. -/
def decodePrefix (R : Runtime) (rpc : Rpc) (req : Request) : List Event :=
  match filter_Blockchain rpc with
  | none => []
  | some filter =>
    match R.ParseForm req with
    | .error _ => [.ParseForm]
    | .ok form =>
      [.ParseForm, .PopulateQueryParameters (Message.zero (rpc.name ++ "Request")) form filter]

/-- Context annotation or the decoder returned a non-nil error, in the client-path
handler of `rpc`. -/
def clientFailure (R : Runtime) (mux : ServeMux) (client : BlockchainClient) (rpc : Rpc)
    (req : Request) (pp : PathParams) : Prop :=
  (∃ err, annotateClient R mux rpc req = .error err) ∨
  ∃ actx err, annotateClient R mux rpc req = .ok actx ∧
    (request_Blockchain rpc R actx (R.MarshalerForRequest mux req).1 client req pp).err = some err

/-- Context annotation or the decoder returned a non-nil error, in the server-path
handler of `rpc`. -/
def serverFailure (R : Runtime) (mux : ServeMux) (server : BlockchainServer) (rpc : Rpc)
    (req : Request) (pp : PathParams) : Prop :=
  (∃ err, annotateServer R mux rpc req = .error err) ∨
  ∃ actx err, annotateServer R mux rpc req = .ok actx ∧
    (local_request_Blockchain rpc R actx (R.MarshalerForRequest mux req).1 server req pp).err =
      some err

/-! ## Registration over a connection (source lines 556-585) -/

/-- A `*grpc.ClientConn`, by identity. -/
structure ClientConn where
  id : Nat
deriving DecidableEq, Repr

/-- What the file calls from gRPC and from the generated client code to reach an
endpoint: `grpc.Dial`, `conn.Close` and the constructor `NewBlockchainClient`. -/
structure Grpc where
  Dial : String → List String → Except GoError ClientConn
  Close : ClientConn → Option GoError
  NewBlockchainClient : ClientConn → BlockchainClient

/-- The calls `RegisterBlockchainHandlerFromEndpoint` makes about the connection. -/
inductive ConnEvent where
  | Dial (endpoint : String) (opts : List String)
  | RegisterBlockchainHandler (conn : ClientConn)
  | AwaitDone (ctx : Ctx)
  | Close (conn : ClientConn)
  | Infof (endpoint : String) (cerr : GoError)
deriving DecidableEq, Repr

/-- The function `RegisterBlockchainHandler`. -/
def RegisterBlockchainHandler (G : Grpc) (R : Runtime) (ctx : Ctx) (mux : ServeMux)
    (conn : ClientConn) : List Registration × Option GoError :=
  RegisterBlockchainHandlerClient R ctx mux (G.NewBlockchainClient conn)

/-- The body `if cerr := conn.Close(); cerr != nil { grpclog.Infof(...) }`. -/
def closeConn (G : Grpc) (endpoint : String) (conn : ClientConn) : List ConnEvent :=
  match G.Close conn with
  | some cerr => [.Close conn, .Infof endpoint cerr]
  | none => [.Close conn]

/-- What a call of `RegisterBlockchainHandlerFromEndpoint` does: the error it returns,
the calls `mux.Handle` made on its behalf, the calls it makes itself about the connection
before it returns, and the goroutines it starts, each by the calls of its body in order. -/
structure FromEndpoint where
  err : Option GoError
  handles : List Registration
  calls : List ConnEvent
  goroutines : List (List ConnEvent)

/-- The function `RegisterBlockchainHandlerFromEndpoint`.  The deferred function reads the
named result `err` after the `return` statement has set it. -/
def RegisterBlockchainHandlerFromEndpoint (G : Grpc) (R : Runtime) (ctx : Ctx) (mux : ServeMux)
    (endpoint : String) (opts : List String) : FromEndpoint :=
  match G.Dial endpoint opts with
  | .error err => ⟨some err, [], [.Dial endpoint opts], []⟩
  | .ok conn =>
    let r := RegisterBlockchainHandler G R ctx mux conn
    let err := r.2
    match err with
    | some _ =>
      ⟨err, r.1,
        [.Dial endpoint opts, .RegisterBlockchainHandler conn] ++ closeConn G endpoint conn, []⟩
    | none =>
      ⟨err, r.1, [.Dial endpoint opts, .RegisterBlockchainHandler conn],
        [ConnEvent.AwaitDone ctx :: closeConn G endpoint conn]⟩

def ConnEvent.isClose : ConnEvent → Bool
  | .Close _ => true
  | _ => false

def Event.isAnnotate : Event → Bool
  | .AnnotateContext _ _ _ => true
  | .AnnotateIncomingContext _ _ _ => true
  | _ => false

def Event.isDecode : Event → Bool
  | .ParseForm => true
  | .PopulateQueryParameters _ _ _ => true
  | _ => false

/-- A client that answers as the server `sampleServer` does and writes no metadata. -/
def quietClient (fails : Bool) : BlockchainClient :=
  let f : Ctx → Message → ClientReply := fun _ m =>
    if fails then ⟨none, some (.status 5 "not found"), [], []⟩
    else ⟨some ⟨"Response", m.fields⟩, none, [], []⟩
  ⟨f, f, f, f, f, f, f, f, f⟩

/-! ## The forwarder variables as variables -/

/-- The nine package-level variables `forward_Blockchain_*_0` (source lines 815-833), by
the value each holds when a handler runs. -/
structure ForwardVars where
  forward_Blockchain_GetBlock_0 : RuntimeForwarder
  forward_Blockchain_GetBlockHash_0 : RuntimeForwarder
  forward_Blockchain_GetBlockHeight_0 : RuntimeForwarder
  forward_Blockchain_GetBlockchainInfo_0 : RuntimeForwarder
  forward_Blockchain_GetConsensusInfo_0 : RuntimeForwarder
  forward_Blockchain_GetAccount_0 : RuntimeForwarder
  forward_Blockchain_GetValidator_0 : RuntimeForwarder
  forward_Blockchain_GetValidatorByNumber_0 : RuntimeForwarder
  forward_Blockchain_GetPublicKey_0 : RuntimeForwarder

/-- The values the source gives the nine variables. -/
def ForwardVars.initial : ForwardVars where
  forward_Blockchain_GetBlock_0 := Pactus.forward_Blockchain_GetBlock_0
  forward_Blockchain_GetBlockHash_0 := Pactus.forward_Blockchain_GetBlockHash_0
  forward_Blockchain_GetBlockHeight_0 := Pactus.forward_Blockchain_GetBlockHeight_0
  forward_Blockchain_GetBlockchainInfo_0 := Pactus.forward_Blockchain_GetBlockchainInfo_0
  forward_Blockchain_GetConsensusInfo_0 := Pactus.forward_Blockchain_GetConsensusInfo_0
  forward_Blockchain_GetAccount_0 := Pactus.forward_Blockchain_GetAccount_0
  forward_Blockchain_GetValidator_0 := Pactus.forward_Blockchain_GetValidator_0
  forward_Blockchain_GetValidatorByNumber_0 := Pactus.forward_Blockchain_GetValidatorByNumber_0
  forward_Blockchain_GetPublicKey_0 := Pactus.forward_Blockchain_GetPublicKey_0

/-- The variable named for a method. -/
def ForwardVars.named (V : ForwardVars) : Rpc → RuntimeForwarder
  | .GetBlock => V.forward_Blockchain_GetBlock_0
  | .GetBlockHash => V.forward_Blockchain_GetBlockHash_0
  | .GetBlockHeight => V.forward_Blockchain_GetBlockHeight_0
  | .GetBlockchainInfo => V.forward_Blockchain_GetBlockchainInfo_0
  | .GetConsensusInfo => V.forward_Blockchain_GetConsensusInfo_0
  | .GetAccount => V.forward_Blockchain_GetAccount_0
  | .GetValidator => V.forward_Blockchain_GetValidator_0
  | .GetValidatorByNumber => V.forward_Blockchain_GetValidatorByNumber_0
  | .GetPublicKey => V.forward_Blockchain_GetPublicKey_0

/-- The function `RegisterBlockchainHandlerServer`, each handler reading the forwarder
variable it names from `V` rather than from the initial values. -/
def RegisterBlockchainHandlerServerVars (V : ForwardVars) (R : Runtime) (_ctx : Ctx)
    (mux : ServeMux) (server : BlockchainServer) : List Registration × Option GoError :=
  ([
    ⟨"GET", pattern_Blockchain_GetBlock_0, fun req pathParams =>
      let ctx := Ctx.WithCancel req.Context
      Event.WithCancel req.Context :: deferCancel (
        let ctx := Ctx.NewContextWithServerTransportStream ctx
        let marshalers := R.MarshalerForRequest mux req
        let inboundMarshaler := marshalers.1
        let outboundMarshaler := marshalers.2
        Event.AnnotateIncomingContext ctx "/pactus.Blockchain/GetBlock" "/pactus/blockchain/get_block" ::
        match R.AnnotateIncomingContext ctx mux req "/pactus.Blockchain/GetBlock"
            "/pactus/blockchain/get_block" with
        | .error err => [Event.HTTPError ctx outboundMarshaler err]
        | .ok annotatedContext =>
          let d := local_request_Blockchain_GetBlock_0 R annotatedContext inboundMarshaler server req
            pathParams
          let md : ServerMetadata :=
            ⟨R.Join d.metadata.HeaderMD d.stream.Header, R.Join d.metadata.TrailerMD d.stream.Trailer⟩
          let annotatedContext := Ctx.NewServerMetadataContext annotatedContext md
          d.trace ++
          match d.err with
          | some err => [Event.HTTPError annotatedContext outboundMarshaler err]
          | none =>
            [Event.Forward V.forward_Blockchain_GetBlock_0 annotatedContext outboundMarshaler d.msg
              mux.GetForwardResponseOptions])⟩,
    ⟨"GET", pattern_Blockchain_GetBlockHash_0, fun req pathParams =>
      let ctx := Ctx.WithCancel req.Context
      Event.WithCancel req.Context :: deferCancel (
        let ctx := Ctx.NewContextWithServerTransportStream ctx
        let marshalers := R.MarshalerForRequest mux req
        let inboundMarshaler := marshalers.1
        let outboundMarshaler := marshalers.2
        Event.AnnotateIncomingContext ctx "/pactus.Blockchain/GetBlockHash" "/pactus/blockchain/get_block_hash" ::
        match R.AnnotateIncomingContext ctx mux req "/pactus.Blockchain/GetBlockHash"
            "/pactus/blockchain/get_block_hash" with
        | .error err => [Event.HTTPError ctx outboundMarshaler err]
        | .ok annotatedContext =>
          let d := local_request_Blockchain_GetBlockHash_0 R annotatedContext inboundMarshaler server req
            pathParams
          let md : ServerMetadata :=
            ⟨R.Join d.metadata.HeaderMD d.stream.Header, R.Join d.metadata.TrailerMD d.stream.Trailer⟩
          let annotatedContext := Ctx.NewServerMetadataContext annotatedContext md
          d.trace ++
          match d.err with
          | some err => [Event.HTTPError annotatedContext outboundMarshaler err]
          | none =>
            [Event.Forward V.forward_Blockchain_GetBlockHash_0 annotatedContext outboundMarshaler d.msg
              mux.GetForwardResponseOptions])⟩,
    ⟨"GET", pattern_Blockchain_GetBlockHeight_0, fun req pathParams =>
      let ctx := Ctx.WithCancel req.Context
      Event.WithCancel req.Context :: deferCancel (
        let ctx := Ctx.NewContextWithServerTransportStream ctx
        let marshalers := R.MarshalerForRequest mux req
        let inboundMarshaler := marshalers.1
        let outboundMarshaler := marshalers.2
        Event.AnnotateIncomingContext ctx "/pactus.Blockchain/GetBlockHeight" "/pactus/blockchain/get_block_height" ::
        match R.AnnotateIncomingContext ctx mux req "/pactus.Blockchain/GetBlockHeight"
            "/pactus/blockchain/get_block_height" with
        | .error err => [Event.HTTPError ctx outboundMarshaler err]
        | .ok annotatedContext =>
          let d := local_request_Blockchain_GetBlockHeight_0 R annotatedContext inboundMarshaler server req
            pathParams
          let md : ServerMetadata :=
            ⟨R.Join d.metadata.HeaderMD d.stream.Header, R.Join d.metadata.TrailerMD d.stream.Trailer⟩
          let annotatedContext := Ctx.NewServerMetadataContext annotatedContext md
          d.trace ++
          match d.err with
          | some err => [Event.HTTPError annotatedContext outboundMarshaler err]
          | none =>
            [Event.Forward V.forward_Blockchain_GetBlockHeight_0 annotatedContext outboundMarshaler d.msg
              mux.GetForwardResponseOptions])⟩,
    ⟨"GET", pattern_Blockchain_GetBlockchainInfo_0, fun req pathParams =>
      let ctx := Ctx.WithCancel req.Context
      Event.WithCancel req.Context :: deferCancel (
        let ctx := Ctx.NewContextWithServerTransportStream ctx
        let marshalers := R.MarshalerForRequest mux req
        let inboundMarshaler := marshalers.1
        let outboundMarshaler := marshalers.2
        Event.AnnotateIncomingContext ctx "/pactus.Blockchain/GetBlockchainInfo" "/pactus/blockchain/get_blockchain_info" ::
        match R.AnnotateIncomingContext ctx mux req "/pactus.Blockchain/GetBlockchainInfo"
            "/pactus/blockchain/get_blockchain_info" with
        | .error err => [Event.HTTPError ctx outboundMarshaler err]
        | .ok annotatedContext =>
          let d := local_request_Blockchain_GetBlockchainInfo_0 R annotatedContext inboundMarshaler server req
            pathParams
          let md : ServerMetadata :=
            ⟨R.Join d.metadata.HeaderMD d.stream.Header, R.Join d.metadata.TrailerMD d.stream.Trailer⟩
          let annotatedContext := Ctx.NewServerMetadataContext annotatedContext md
          d.trace ++
          match d.err with
          | some err => [Event.HTTPError annotatedContext outboundMarshaler err]
          | none =>
            [Event.Forward V.forward_Blockchain_GetBlockchainInfo_0 annotatedContext outboundMarshaler d.msg
              mux.GetForwardResponseOptions])⟩,
    ⟨"GET", pattern_Blockchain_GetConsensusInfo_0, fun req pathParams =>
      let ctx := Ctx.WithCancel req.Context
      Event.WithCancel req.Context :: deferCancel (
        let ctx := Ctx.NewContextWithServerTransportStream ctx
        let marshalers := R.MarshalerForRequest mux req
        let inboundMarshaler := marshalers.1
        let outboundMarshaler := marshalers.2
        Event.AnnotateIncomingContext ctx "/pactus.Blockchain/GetConsensusInfo" "/pactus/blockchain/get_consensus_info" ::
        match R.AnnotateIncomingContext ctx mux req "/pactus.Blockchain/GetConsensusInfo"
            "/pactus/blockchain/get_consensus_info" with
        | .error err => [Event.HTTPError ctx outboundMarshaler err]
        | .ok annotatedContext =>
          let d := local_request_Blockchain_GetConsensusInfo_0 R annotatedContext inboundMarshaler server req
            pathParams
          let md : ServerMetadata :=
            ⟨R.Join d.metadata.HeaderMD d.stream.Header, R.Join d.metadata.TrailerMD d.stream.Trailer⟩
          let annotatedContext := Ctx.NewServerMetadataContext annotatedContext md
          d.trace ++
          match d.err with
          | some err => [Event.HTTPError annotatedContext outboundMarshaler err]
          | none =>
            [Event.Forward V.forward_Blockchain_GetConsensusInfo_0 annotatedContext outboundMarshaler d.msg
              mux.GetForwardResponseOptions])⟩,
    ⟨"GET", pattern_Blockchain_GetAccount_0, fun req pathParams =>
      let ctx := Ctx.WithCancel req.Context
      Event.WithCancel req.Context :: deferCancel (
        let ctx := Ctx.NewContextWithServerTransportStream ctx
        let marshalers := R.MarshalerForRequest mux req
        let inboundMarshaler := marshalers.1
        let outboundMarshaler := marshalers.2
        Event.AnnotateIncomingContext ctx "/pactus.Blockchain/GetAccount" "/pactus/blockchain/get_account" ::
        match R.AnnotateIncomingContext ctx mux req "/pactus.Blockchain/GetAccount"
            "/pactus/blockchain/get_account" with
        | .error err => [Event.HTTPError ctx outboundMarshaler err]
        | .ok annotatedContext =>
          let d := local_request_Blockchain_GetAccount_0 R annotatedContext inboundMarshaler server req
            pathParams
          let md : ServerMetadata :=
            ⟨R.Join d.metadata.HeaderMD d.stream.Header, R.Join d.metadata.TrailerMD d.stream.Trailer⟩
          let annotatedContext := Ctx.NewServerMetadataContext annotatedContext md
          d.trace ++
          match d.err with
          | some err => [Event.HTTPError annotatedContext outboundMarshaler err]
          | none =>
            [Event.Forward V.forward_Blockchain_GetAccount_0 annotatedContext outboundMarshaler d.msg
              mux.GetForwardResponseOptions])⟩,
    ⟨"GET", pattern_Blockchain_GetValidator_0, fun req pathParams =>
      let ctx := Ctx.WithCancel req.Context
      Event.WithCancel req.Context :: deferCancel (
        let ctx := Ctx.NewContextWithServerTransportStream ctx
        let marshalers := R.MarshalerForRequest mux req
        let inboundMarshaler := marshalers.1
        let outboundMarshaler := marshalers.2
        Event.AnnotateIncomingContext ctx "/pactus.Blockchain/GetValidator" "/pactus/blockchain/get_validator" ::
        match R.AnnotateIncomingContext ctx mux req "/pactus.Blockchain/GetValidator"
            "/pactus/blockchain/get_validator" with
        | .error err => [Event.HTTPError ctx outboundMarshaler err]
        | .ok annotatedContext =>
          let d := local_request_Blockchain_GetValidator_0 R annotatedContext inboundMarshaler server req
            pathParams
          let md : ServerMetadata :=
            ⟨R.Join d.metadata.HeaderMD d.stream.Header, R.Join d.metadata.TrailerMD d.stream.Trailer⟩
          let annotatedContext := Ctx.NewServerMetadataContext annotatedContext md
          d.trace ++
          match d.err with
          | some err => [Event.HTTPError annotatedContext outboundMarshaler err]
          | none =>
            [Event.Forward V.forward_Blockchain_GetValidator_0 annotatedContext outboundMarshaler d.msg
              mux.GetForwardResponseOptions])⟩,
    ⟨"GET", pattern_Blockchain_GetValidatorByNumber_0, fun req pathParams =>
      let ctx := Ctx.WithCancel req.Context
      Event.WithCancel req.Context :: deferCancel (
        let ctx := Ctx.NewContextWithServerTransportStream ctx
        let marshalers := R.MarshalerForRequest mux req
        let inboundMarshaler := marshalers.1
        let outboundMarshaler := marshalers.2
        Event.AnnotateIncomingContext ctx "/pactus.Blockchain/GetValidatorByNumber" "/pactus/blockchain/get_validator_by_number" ::
        match R.AnnotateIncomingContext ctx mux req "/pactus.Blockchain/GetValidatorByNumber"
            "/pactus/blockchain/get_validator_by_number" with
        | .error err => [Event.HTTPError ctx outboundMarshaler err]
        | .ok annotatedContext =>
          let d := local_request_Blockchain_GetValidatorByNumber_0 R annotatedContext inboundMarshaler server req
            pathParams
          let md : ServerMetadata :=
            ⟨R.Join d.metadata.HeaderMD d.stream.Header, R.Join d.metadata.TrailerMD d.stream.Trailer⟩
          let annotatedContext := Ctx.NewServerMetadataContext annotatedContext md
          d.trace ++
          match d.err with
          | some err => [Event.HTTPError annotatedContext outboundMarshaler err]
          | none =>
            [Event.Forward V.forward_Blockchain_GetValidatorByNumber_0 annotatedContext outboundMarshaler d.msg
              mux.GetForwardResponseOptions])⟩,
    ⟨"GET", pattern_Blockchain_GetPublicKey_0, fun req pathParams =>
      let ctx := Ctx.WithCancel req.Context
      Event.WithCancel req.Context :: deferCancel (
        let ctx := Ctx.NewContextWithServerTransportStream ctx
        let marshalers := R.MarshalerForRequest mux req
        let inboundMarshaler := marshalers.1
        let outboundMarshaler := marshalers.2
        Event.AnnotateIncomingContext ctx "/pactus.Blockchain/GetPublicKey" "/pactus/blockchain/get_public_key" ::
        match R.AnnotateIncomingContext ctx mux req "/pactus.Blockchain/GetPublicKey"
            "/pactus/blockchain/get_public_key" with
        | .error err => [Event.HTTPError ctx outboundMarshaler err]
        | .ok annotatedContext =>
          let d := local_request_Blockchain_GetPublicKey_0 R annotatedContext inboundMarshaler server req
            pathParams
          let md : ServerMetadata :=
            ⟨R.Join d.metadata.HeaderMD d.stream.Header, R.Join d.metadata.TrailerMD d.stream.Trailer⟩
          let annotatedContext := Ctx.NewServerMetadataContext annotatedContext md
          d.trace ++
          match d.err with
          | some err => [Event.HTTPError annotatedContext outboundMarshaler err]
          | none =>
            [Event.Forward V.forward_Blockchain_GetPublicKey_0 annotatedContext outboundMarshaler d.msg
              mux.GetForwardResponseOptions])⟩
   ], none)

/-- The function `RegisterBlockchainHandlerClient`, each handler reading the forwarder
variable it names from `V` rather than from the initial values. -/
def RegisterBlockchainHandlerClientVars (V : ForwardVars) (R : Runtime) (_ctx : Ctx)
    (mux : ServeMux) (client : BlockchainClient) : List Registration × Option GoError :=
  ([
    ⟨"GET", pattern_Blockchain_GetBlock_0, fun req pathParams =>
      let ctx := Ctx.WithCancel req.Context
      Event.WithCancel req.Context :: deferCancel (
        let marshalers := R.MarshalerForRequest mux req
        let inboundMarshaler := marshalers.1
        let outboundMarshaler := marshalers.2
        Event.AnnotateContext ctx "/pactus.Blockchain/GetBlock" "/pactus/blockchain/get_block" ::
        match R.AnnotateContext ctx mux req "/pactus.Blockchain/GetBlock"
            "/pactus/blockchain/get_block" with
        | .error err => [Event.HTTPError ctx outboundMarshaler err]
        | .ok annotatedContext =>
          let d := request_Blockchain_GetBlock_0 R annotatedContext inboundMarshaler client req
            pathParams
          let annotatedContext := Ctx.NewServerMetadataContext annotatedContext d.metadata
          d.trace ++
          match d.err with
          | some err => [Event.HTTPError annotatedContext outboundMarshaler err]
          | none =>
            [Event.Forward V.forward_Blockchain_GetBlock_0 annotatedContext outboundMarshaler d.msg
              mux.GetForwardResponseOptions])⟩,
    ⟨"GET", pattern_Blockchain_GetBlockHash_0, fun req pathParams =>
      let ctx := Ctx.WithCancel req.Context
      Event.WithCancel req.Context :: deferCancel (
        let marshalers := R.MarshalerForRequest mux req
        let inboundMarshaler := marshalers.1
        let outboundMarshaler := marshalers.2
        Event.AnnotateContext ctx "/pactus.Blockchain/GetBlockHash" "/pactus/blockchain/get_block_hash" ::
        match R.AnnotateContext ctx mux req "/pactus.Blockchain/GetBlockHash"
            "/pactus/blockchain/get_block_hash" with
        | .error err => [Event.HTTPError ctx outboundMarshaler err]
        | .ok annotatedContext =>
          let d := request_Blockchain_GetBlockHash_0 R annotatedContext inboundMarshaler client req
            pathParams
          let annotatedContext := Ctx.NewServerMetadataContext annotatedContext d.metadata
          d.trace ++
          match d.err with
          | some err => [Event.HTTPError annotatedContext outboundMarshaler err]
          | none =>
            [Event.Forward V.forward_Blockchain_GetBlockHash_0 annotatedContext outboundMarshaler d.msg
              mux.GetForwardResponseOptions])⟩,
    ⟨"GET", pattern_Blockchain_GetBlockHeight_0, fun req pathParams =>
      let ctx := Ctx.WithCancel req.Context
      Event.WithCancel req.Context :: deferCancel (
        let marshalers := R.MarshalerForRequest mux req
        let inboundMarshaler := marshalers.1
        let outboundMarshaler := marshalers.2
        Event.AnnotateContext ctx "/pactus.Blockchain/GetBlockHeight" "/pactus/blockchain/get_block_height" ::
        match R.AnnotateContext ctx mux req "/pactus.Blockchain/GetBlockHeight"
            "/pactus/blockchain/get_block_height" with
        | .error err => [Event.HTTPError ctx outboundMarshaler err]
        | .ok annotatedContext =>
          let d := request_Blockchain_GetBlockHeight_0 R annotatedContext inboundMarshaler client req
            pathParams
          let annotatedContext := Ctx.NewServerMetadataContext annotatedContext d.metadata
          d.trace ++
          match d.err with
          | some err => [Event.HTTPError annotatedContext outboundMarshaler err]
          | none =>
            [Event.Forward V.forward_Blockchain_GetBlockHeight_0 annotatedContext outboundMarshaler d.msg
              mux.GetForwardResponseOptions])⟩,
    ⟨"GET", pattern_Blockchain_GetBlockchainInfo_0, fun req pathParams =>
      let ctx := Ctx.WithCancel req.Context
      Event.WithCancel req.Context :: deferCancel (
        let marshalers := R.MarshalerForRequest mux req
        let inboundMarshaler := marshalers.1
        let outboundMarshaler := marshalers.2
        Event.AnnotateContext ctx "/pactus.Blockchain/GetBlockchainInfo" "/pactus/blockchain/get_blockchain_info" ::
        match R.AnnotateContext ctx mux req "/pactus.Blockchain/GetBlockchainInfo"
            "/pactus/blockchain/get_blockchain_info" with
        | .error err => [Event.HTTPError ctx outboundMarshaler err]
        | .ok annotatedContext =>
          let d := request_Blockchain_GetBlockchainInfo_0 R annotatedContext inboundMarshaler client req
            pathParams
          let annotatedContext := Ctx.NewServerMetadataContext annotatedContext d.metadata
          d.trace ++
          match d.err with
          | some err => [Event.HTTPError annotatedContext outboundMarshaler err]
          | none =>
            [Event.Forward V.forward_Blockchain_GetBlockchainInfo_0 annotatedContext outboundMarshaler d.msg
              mux.GetForwardResponseOptions])⟩,
    ⟨"GET", pattern_Blockchain_GetConsensusInfo_0, fun req pathParams =>
      let ctx := Ctx.WithCancel req.Context
      Event.WithCancel req.Context :: deferCancel (
        let marshalers := R.MarshalerForRequest mux req
        let inboundMarshaler := marshalers.1
        let outboundMarshaler := marshalers.2
        Event.AnnotateContext ctx "/pactus.Blockchain/GetConsensusInfo" "/pactus/blockchain/get_consensus_info" ::
        match R.AnnotateContext ctx mux req "/pactus.Blockchain/GetConsensusInfo"
            "/pactus/blockchain/get_consensus_info" with
        | .error err => [Event.HTTPError ctx outboundMarshaler err]
        | .ok annotatedContext =>
          let d := request_Blockchain_GetConsensusInfo_0 R annotatedContext inboundMarshaler client req
            pathParams
          let annotatedContext := Ctx.NewServerMetadataContext annotatedContext d.metadata
          d.trace ++
          match d.err with
          | some err => [Event.HTTPError annotatedContext outboundMarshaler err]
          | none =>
            [Event.Forward V.forward_Blockchain_GetConsensusInfo_0 annotatedContext outboundMarshaler d.msg
              mux.GetForwardResponseOptions])⟩,
    ⟨"GET", pattern_Blockchain_GetAccount_0, fun req pathParams =>
      let ctx := Ctx.WithCancel req.Context
      Event.WithCancel req.Context :: deferCancel (
        let marshalers := R.MarshalerForRequest mux req
        let inboundMarshaler := marshalers.1
        let outboundMarshaler := marshalers.2
        Event.AnnotateContext ctx "/pactus.Blockchain/GetAccount" "/pactus/blockchain/get_account" ::
        match R.AnnotateContext ctx mux req "/pactus.Blockchain/GetAccount"
            "/pactus/blockchain/get_account" with
        | .error err => [Event.HTTPError ctx outboundMarshaler err]
        | .ok annotatedContext =>
          let d := request_Blockchain_GetAccount_0 R annotatedContext inboundMarshaler client req
            pathParams
          let annotatedContext := Ctx.NewServerMetadataContext annotatedContext d.metadata
          d.trace ++
          match d.err with
          | some err => [Event.HTTPError annotatedContext outboundMarshaler err]
          | none =>
            [Event.Forward V.forward_Blockchain_GetAccount_0 annotatedContext outboundMarshaler d.msg
              mux.GetForwardResponseOptions])⟩,
    ⟨"GET", pattern_Blockchain_GetValidator_0, fun req pathParams =>
      let ctx := Ctx.WithCancel req.Context
      Event.WithCancel req.Context :: deferCancel (
        let marshalers := R.MarshalerForRequest mux req
        let inboundMarshaler := marshalers.1
        let outboundMarshaler := marshalers.2
        Event.AnnotateContext ctx "/pactus.Blockchain/GetValidator" "/pactus/blockchain/get_validator" ::
        match R.AnnotateContext ctx mux req "/pactus.Blockchain/GetValidator"
            "/pactus/blockchain/get_validator" with
        | .error err => [Event.HTTPError ctx outboundMarshaler err]
        | .ok annotatedContext =>
          let d := request_Blockchain_GetValidator_0 R annotatedContext inboundMarshaler client req
            pathParams
          let annotatedContext := Ctx.NewServerMetadataContext annotatedContext d.metadata
          d.trace ++
          match d.err with
          | some err => [Event.HTTPError annotatedContext outboundMarshaler err]
          | none =>
            [Event.Forward V.forward_Blockchain_GetValidator_0 annotatedContext outboundMarshaler d.msg
              mux.GetForwardResponseOptions])⟩,
    ⟨"GET", pattern_Blockchain_GetValidatorByNumber_0, fun req pathParams =>
      let ctx := Ctx.WithCancel req.Context
      Event.WithCancel req.Context :: deferCancel (
        let marshalers := R.MarshalerForRequest mux req
        let inboundMarshaler := marshalers.1
        let outboundMarshaler := marshalers.2
        Event.AnnotateContext ctx "/pactus.Blockchain/GetValidatorByNumber" "/pactus/blockchain/get_validator_by_number" ::
        match R.AnnotateContext ctx mux req "/pactus.Blockchain/GetValidatorByNumber"
            "/pactus/blockchain/get_validator_by_number" with
        | .error err => [Event.HTTPError ctx outboundMarshaler err]
        | .ok annotatedContext =>
          let d := request_Blockchain_GetValidatorByNumber_0 R annotatedContext inboundMarshaler client req
            pathParams
          let annotatedContext := Ctx.NewServerMetadataContext annotatedContext d.metadata
          d.trace ++
          match d.err with
          | some err => [Event.HTTPError annotatedContext outboundMarshaler err]
          | none =>
            [Event.Forward V.forward_Blockchain_GetValidatorByNumber_0 annotatedContext outboundMarshaler d.msg
              mux.GetForwardResponseOptions])⟩,
    ⟨"GET", pattern_Blockchain_GetPublicKey_0, fun req pathParams =>
      let ctx := Ctx.WithCancel req.Context
      Event.WithCancel req.Context :: deferCancel (
        let marshalers := R.MarshalerForRequest mux req
        let inboundMarshaler := marshalers.1
        let outboundMarshaler := marshalers.2
        Event.AnnotateContext ctx "/pactus.Blockchain/GetPublicKey" "/pactus/blockchain/get_public_key" ::
        match R.AnnotateContext ctx mux req "/pactus.Blockchain/GetPublicKey"
            "/pactus/blockchain/get_public_key" with
        | .error err => [Event.HTTPError ctx outboundMarshaler err]
        | .ok annotatedContext =>
          let d := request_Blockchain_GetPublicKey_0 R annotatedContext inboundMarshaler client req
            pathParams
          let annotatedContext := Ctx.NewServerMetadataContext annotatedContext d.metadata
          d.trace ++
          match d.err with
          | some err => [Event.HTTPError annotatedContext outboundMarshaler err]
          | none =>
            [Event.Forward V.forward_Blockchain_GetPublicKey_0 annotatedContext outboundMarshaler d.msg
              mux.GetForwardResponseOptions])⟩
   ], none)

/-- The run of the handler `RegisterBlockchainHandlerServerVars` registers under the
pattern of `rpc`. -/
def serverTraceVars (V : ForwardVars) (R : Runtime) (ctx : Ctx) (mux : ServeMux)
    (server : BlockchainServer) (rpc : Rpc) (req : Request) (pathParams : PathParams) :
    List Event :=
  handlerUnder (RegisterBlockchainHandlerServerVars V R ctx mux server).1
    (pattern_Blockchain rpc) req pathParams

/-- The run of the handler `RegisterBlockchainHandlerClientVars` registers under the
pattern of `rpc`. -/
def clientTraceVars (V : ForwardVars) (R : Runtime) (ctx : Ctx) (mux : ServeMux)
    (client : BlockchainClient) (rpc : Rpc) (req : Request) (pathParams : PathParams) :
    List Event :=
  handlerUnder (RegisterBlockchainHandlerClientVars V R ctx mux client).1
    (pattern_Blockchain rpc) req pathParams

/-- The handler `RegisterBlockchainHandlerServerVars` installs for `rpc`, written once for
all nine methods. -/
def serverHandlerVars (V : ForwardVars) (R : Runtime) (mux : ServeMux)
    (server : BlockchainServer) (rpc : Rpc) : Request → PathParams → List Event :=
  fun req pathParams =>
  Event.WithCancel req.Context :: deferCancel (
    Event.AnnotateIncomingContext (serverCtx req) rpc.fullMethod (documentedPath rpc) ::
    match annotateServer R mux rpc req with
    | .error err => [Event.HTTPError (serverCtx req) (R.MarshalerForRequest mux req).2 err]
    | .ok annotatedContext =>
      let d := local_request_Blockchain rpc R annotatedContext (R.MarshalerForRequest mux req).1
        server req pathParams
      let md : ServerMetadata :=
        ⟨R.Join d.metadata.HeaderMD d.stream.Header, R.Join d.metadata.TrailerMD d.stream.Trailer⟩
      d.trace ++
      match d.err with
      | some err =>
        [Event.HTTPError (Ctx.NewServerMetadataContext annotatedContext md)
          (R.MarshalerForRequest mux req).2 err]
      | none =>
        [Event.Forward (V.named rpc) (Ctx.NewServerMetadataContext annotatedContext md)
          (R.MarshalerForRequest mux req).2 d.msg mux.GetForwardResponseOptions])

/-- The handler `RegisterBlockchainHandlerClientVars` installs for `rpc`, written once for
all nine methods. -/
def clientHandlerVars (V : ForwardVars) (R : Runtime) (mux : ServeMux)
    (client : BlockchainClient) (rpc : Rpc) : Request → PathParams → List Event :=
  fun req pathParams =>
  Event.WithCancel req.Context :: deferCancel (
    Event.AnnotateContext (clientCtx req) rpc.fullMethod (documentedPath rpc) ::
    match annotateClient R mux rpc req with
    | .error err => [Event.HTTPError (clientCtx req) (R.MarshalerForRequest mux req).2 err]
    | .ok annotatedContext =>
      let d := request_Blockchain rpc R annotatedContext (R.MarshalerForRequest mux req).1
        client req pathParams
      d.trace ++
      match d.err with
      | some err =>
        [Event.HTTPError (Ctx.NewServerMetadataContext annotatedContext d.metadata)
          (R.MarshalerForRequest mux req).2 err]
      | none =>
        [Event.Forward (V.named rpc)
          (Ctx.NewServerMetadataContext annotatedContext d.metadata)
          (R.MarshalerForRequest mux req).2 d.msg mux.GetForwardResponseOptions])

/-! ## Structural lemmas -/

theorem RegisterBlockchainHandlerServer_eq (R : Runtime) (ctx : Ctx) (mux : ServeMux)
    (server : BlockchainServer) :
    RegisterBlockchainHandlerServer R ctx mux server =
      (Rpc.all.map (fun rpc => ⟨"GET", pattern_Blockchain rpc, serverHandler R mux server rpc⟩),
        none) := by
  rfl

theorem RegisterBlockchainHandlerClient_eq (R : Runtime) (ctx : Ctx) (mux : ServeMux)
    (client : BlockchainClient) :
    RegisterBlockchainHandlerClient R ctx mux client =
      (Rpc.all.map (fun rpc => ⟨"GET", pattern_Blockchain rpc, clientHandler R mux client rpc⟩),
        none) := by
  rfl

theorem serverTrace_eq (R : Runtime) (ctx : Ctx) (mux : ServeMux) (server : BlockchainServer)
    (rpc : Rpc) : serverTrace R ctx mux server rpc = serverHandler R mux server rpc := by
  cases rpc <;> rfl

theorem clientTrace_eq (R : Runtime) (ctx : Ctx) (mux : ServeMux) (client : BlockchainClient)
    (rpc : Rpc) : clientTrace R ctx mux client rpc = clientHandler R mux client rpc := by
  cases rpc <;> rfl

theorem decode_total (R : Runtime) (rpc : Rpc) (req : Request) :
    (∃ m, decodesTo R rpc req m) ∨ (∃ e, decodeFails R rpc req e) := by
  unfold decodesTo decodeFails
  cases hf : filter_Blockchain rpc with
  | none => exact Or.inl ⟨_, rfl⟩
  | some filter =>
    simp only
    cases hp : R.ParseForm req with
    | error e => exact Or.inr ⟨e, Or.inl rfl⟩
    | ok form =>
      cases hq : R.PopulateQueryParameters (Message.zero (rpc.name ++ "Request")) form filter with
      | error e => exact Or.inr ⟨e, Or.inr ⟨form, rfl, hq⟩⟩
      | ok m => exact Or.inl ⟨m, form, rfl, hq⟩

theorem requestName_eq (rpc : Rpc) :
    rpc.name ++ "Request" =
      match rpc with
      | .GetBlock => "GetBlockRequest"
      | .GetBlockHash => "GetBlockHashRequest"
      | .GetBlockHeight => "GetBlockHeightRequest"
      | .GetBlockchainInfo => "GetBlockchainInfoRequest"
      | .GetConsensusInfo => "GetConsensusInfoRequest"
      | .GetAccount => "GetAccountRequest"
      | .GetValidator => "GetValidatorRequest"
      | .GetValidatorByNumber => "GetValidatorByNumberRequest"
      | .GetPublicKey => "GetPublicKeyRequest" := by
  cases rpc <;> decide

theorem request_of_decodesTo (R : Runtime) (rpc : Rpc) (ctx : Ctx) (mar : Marshaler)
    (client : BlockchainClient) (req : Request) (pp : PathParams) (m : Message)
    (h : decodesTo R rpc req m) :
    request_Blockchain rpc R ctx mar client req pp =
      ⟨(client.method rpc ctx m).msg,
        ⟨(client.method rpc ctx m).header, (client.method rpc ctx m).trailer⟩,
        (client.method rpc ctx m).err, decodePrefix R rpc req ++ [.ClientCall rpc ctx m]⟩ := by
  unfold decodesTo at h
  rw [requestName_eq] at h
  unfold decodePrefix
  rw [requestName_eq]
  cases rpc <;> simp only [filter_Blockchain] at h ⊢
  case GetBlockchainInfo =>
    subst h
    rfl
  case GetConsensusInfo =>
    subst h
    rfl
  all_goals
    obtain ⟨form, hp, hq⟩ := h
    simp [request_Blockchain, request_Blockchain_GetBlock_0, request_Blockchain_GetBlockHash_0,
      request_Blockchain_GetBlockHeight_0, request_Blockchain_GetAccount_0,
      request_Blockchain_GetValidator_0, request_Blockchain_GetValidatorByNumber_0,
      request_Blockchain_GetPublicKey_0, hp, hq, BlockchainClient.method]

theorem local_request_of_decodesTo (R : Runtime) (rpc : Rpc) (ctx : Ctx) (mar : Marshaler)
    (server : BlockchainServer) (req : Request) (pp : PathParams) (m : Message)
    (h : decodesTo R rpc req m) :
    local_request_Blockchain rpc R ctx mar server req pp =
      ⟨(server.method rpc ctx m).msg, {}, (server.method rpc ctx m).err,
        decodePrefix R rpc req ++ [.ServerCall rpc ctx m], (server.method rpc ctx m).stream⟩ := by
  unfold decodesTo at h
  rw [requestName_eq] at h
  unfold decodePrefix
  rw [requestName_eq]
  cases rpc <;> simp only [filter_Blockchain] at h ⊢
  case GetBlockchainInfo =>
    subst h
    rfl
  case GetConsensusInfo =>
    subst h
    rfl
  all_goals
    obtain ⟨form, hp, hq⟩ := h
    simp [local_request_Blockchain, local_request_Blockchain_GetBlock_0,
      local_request_Blockchain_GetBlockHash_0, local_request_Blockchain_GetBlockHeight_0,
      local_request_Blockchain_GetAccount_0, local_request_Blockchain_GetValidator_0,
      local_request_Blockchain_GetValidatorByNumber_0, local_request_Blockchain_GetPublicKey_0,
      hp, hq, BlockchainServer.method]

theorem request_of_decodeFails (R : Runtime) (rpc : Rpc) (ctx : Ctx) (mar : Marshaler)
    (client : BlockchainClient) (req : Request) (pp : PathParams) (e : GoError)
    (h : decodeFails R rpc req e) :
    request_Blockchain rpc R ctx mar client req pp =
      ⟨none, {}, some (.status codes.InvalidArgument e.Error), decodePrefix R rpc req⟩ := by
  unfold decodeFails at h
  rw [requestName_eq] at h
  unfold decodePrefix
  rw [requestName_eq]
  cases rpc <;> simp only [filter_Blockchain] at h ⊢
  all_goals
    rcases h with hp | ⟨form, hp, hq⟩
    · simp [request_Blockchain, request_Blockchain_GetBlock_0,
        request_Blockchain_GetBlockHash_0, request_Blockchain_GetBlockHeight_0,
        request_Blockchain_GetAccount_0, request_Blockchain_GetValidator_0,
        request_Blockchain_GetValidatorByNumber_0, request_Blockchain_GetPublicKey_0, hp,
        status.Errorf, codes.InvalidArgument, codes.OK]
    · simp [request_Blockchain, request_Blockchain_GetBlock_0,
        request_Blockchain_GetBlockHash_0, request_Blockchain_GetBlockHeight_0,
        request_Blockchain_GetAccount_0, request_Blockchain_GetValidator_0,
        request_Blockchain_GetValidatorByNumber_0, request_Blockchain_GetPublicKey_0, hp, hq,
        status.Errorf, codes.InvalidArgument, codes.OK]

theorem local_request_of_decodeFails (R : Runtime) (rpc : Rpc) (ctx : Ctx) (mar : Marshaler)
    (server : BlockchainServer) (req : Request) (pp : PathParams) (e : GoError)
    (h : decodeFails R rpc req e) :
    local_request_Blockchain rpc R ctx mar server req pp =
      ⟨none, {}, some (.status codes.InvalidArgument e.Error), decodePrefix R rpc req, {}⟩ := by
  unfold decodeFails at h
  rw [requestName_eq] at h
  unfold decodePrefix
  rw [requestName_eq]
  cases rpc <;> simp only [filter_Blockchain] at h ⊢
  all_goals
    rcases h with hp | ⟨form, hp, hq⟩
    · simp [local_request_Blockchain, local_request_Blockchain_GetBlock_0,
        local_request_Blockchain_GetBlockHash_0, local_request_Blockchain_GetBlockHeight_0,
        local_request_Blockchain_GetAccount_0, local_request_Blockchain_GetValidator_0,
        local_request_Blockchain_GetValidatorByNumber_0,
        local_request_Blockchain_GetPublicKey_0, hp,
        status.Errorf, codes.InvalidArgument, codes.OK]
    · simp [local_request_Blockchain, local_request_Blockchain_GetBlock_0,
        local_request_Blockchain_GetBlockHash_0, local_request_Blockchain_GetBlockHeight_0,
        local_request_Blockchain_GetAccount_0, local_request_Blockchain_GetValidator_0,
        local_request_Blockchain_GetValidatorByNumber_0,
        local_request_Blockchain_GetPublicKey_0, hp, hq,
        status.Errorf, codes.InvalidArgument, codes.OK]

theorem decodePrefix_cases (R : Runtime) (rpc : Rpc) (req : Request) :
    decodePrefix R rpc req = [] ∨ decodePrefix R rpc req = [.ParseForm] ∨
      ∃ msg form filter,
        decodePrefix R rpc req = [.ParseForm, .PopulateQueryParameters msg form filter] := by
  unfold decodePrefix
  cases filter_Blockchain rpc with
  | none => exact Or.inl rfl
  | some filter =>
    cases R.ParseForm req with
    | error e => exact Or.inr (Or.inl rfl)
    | ok form => exact Or.inr (Or.inr ⟨_, _, _, rfl⟩)

theorem forward_Blockchain_eq (rpc : Rpc) :
    forward_Blockchain rpc = RuntimeForwarder.ForwardResponseMessage := by
  cases rpc <;> rfl

theorem decodesTo_not_decodeFails (R : Runtime) (rpc : Rpc) (req : Request) (m : Message)
    (e : GoError) (h : decodesTo R rpc req m) : ¬ decodeFails R rpc req e := by
  unfold decodesTo at h
  unfold decodeFails
  cases hf : filter_Blockchain rpc with
  | none => simp
  | some filter =>
    rw [hf] at h
    obtain ⟨form, hp, hq⟩ := h
    simp [hp, hq]

/-! ### The runs of the handlers, exit path by exit path -/

theorem serverTrace_annotate_error (R : Runtime) (ctx : Ctx) (mux : ServeMux)
    (server : BlockchainServer) (rpc : Rpc) (req : Request) (pp : PathParams) (err : GoError)
    (ha : annotateServer R mux rpc req = .error err) :
    serverTrace R ctx mux server rpc req pp =
      [.WithCancel req.Context,
       .AnnotateIncomingContext (serverCtx req) rpc.fullMethod (documentedPath rpc),
       .HTTPError (serverCtx req) (R.MarshalerForRequest mux req).2 err, .cancel] := by
  rw [serverTrace_eq]
  simp [serverHandler, ha, deferCancel]

theorem serverTrace_decode_error (R : Runtime) (ctx : Ctx) (mux : ServeMux)
    (server : BlockchainServer) (rpc : Rpc) (req : Request) (pp : PathParams) (actx : Ctx)
    (e : GoError) (ha : annotateServer R mux rpc req = .ok actx)
    (hd : decodeFails R rpc req e) :
    serverTrace R ctx mux server rpc req pp =
      [.WithCancel req.Context,
       .AnnotateIncomingContext (serverCtx req) rpc.fullMethod (documentedPath rpc)] ++
      decodePrefix R rpc req ++
      [.HTTPError (Ctx.NewServerMetadataContext actx ⟨R.Join [] [], R.Join [] []⟩)
         (R.MarshalerForRequest mux req).2 (.status codes.InvalidArgument e.Error), .cancel] := by
  rw [serverTrace_eq]
  simp [serverHandler, ha, deferCancel, local_request_of_decodeFails R rpc actx _ server req pp e hd]

theorem serverTrace_service_error (R : Runtime) (ctx : Ctx) (mux : ServeMux)
    (server : BlockchainServer) (rpc : Rpc) (req : Request) (pp : PathParams) (actx : Ctx)
    (m : Message) (err : GoError) (ha : annotateServer R mux rpc req = .ok actx)
    (hd : decodesTo R rpc req m) (he : (server.method rpc actx m).err = some err) :
    serverTrace R ctx mux server rpc req pp =
      [.WithCancel req.Context,
       .AnnotateIncomingContext (serverCtx req) rpc.fullMethod (documentedPath rpc)] ++
      decodePrefix R rpc req ++
      [.ServerCall rpc actx m,
       .HTTPError (Ctx.NewServerMetadataContext actx
           ⟨R.Join [] (server.method rpc actx m).stream.Header,
            R.Join [] (server.method rpc actx m).stream.Trailer⟩)
         (R.MarshalerForRequest mux req).2 err, .cancel] := by
  rw [serverTrace_eq]
  simp [serverHandler, ha, deferCancel, local_request_of_decodesTo R rpc actx _ server req pp m hd,
    he]

theorem serverTrace_success (R : Runtime) (ctx : Ctx) (mux : ServeMux)
    (server : BlockchainServer) (rpc : Rpc) (req : Request) (pp : PathParams) (actx : Ctx)
    (m : Message) (ha : annotateServer R mux rpc req = .ok actx)
    (hd : decodesTo R rpc req m) (he : (server.method rpc actx m).err = none) :
    serverTrace R ctx mux server rpc req pp =
      [.WithCancel req.Context,
       .AnnotateIncomingContext (serverCtx req) rpc.fullMethod (documentedPath rpc)] ++
      decodePrefix R rpc req ++
      [.ServerCall rpc actx m,
       .Forward .ForwardResponseMessage (Ctx.NewServerMetadataContext actx
           ⟨R.Join [] (server.method rpc actx m).stream.Header,
            R.Join [] (server.method rpc actx m).stream.Trailer⟩)
         (R.MarshalerForRequest mux req).2 (server.method rpc actx m).msg
         mux.GetForwardResponseOptions, .cancel] := by
  rw [serverTrace_eq]
  simp [serverHandler, ha, deferCancel, local_request_of_decodesTo R rpc actx _ server req pp m hd,
    he, forward_Blockchain_eq]

theorem clientTrace_annotate_error (R : Runtime) (ctx : Ctx) (mux : ServeMux)
    (client : BlockchainClient) (rpc : Rpc) (req : Request) (pp : PathParams) (err : GoError)
    (ha : annotateClient R mux rpc req = .error err) :
    clientTrace R ctx mux client rpc req pp =
      [.WithCancel req.Context,
       .AnnotateContext (clientCtx req) rpc.fullMethod (documentedPath rpc),
       .HTTPError (clientCtx req) (R.MarshalerForRequest mux req).2 err, .cancel] := by
  rw [clientTrace_eq]
  simp [clientHandler, ha, deferCancel]

theorem clientTrace_decode_error (R : Runtime) (ctx : Ctx) (mux : ServeMux)
    (client : BlockchainClient) (rpc : Rpc) (req : Request) (pp : PathParams) (actx : Ctx)
    (e : GoError) (ha : annotateClient R mux rpc req = .ok actx)
    (hd : decodeFails R rpc req e) :
    clientTrace R ctx mux client rpc req pp =
      [.WithCancel req.Context,
       .AnnotateContext (clientCtx req) rpc.fullMethod (documentedPath rpc)] ++
      decodePrefix R rpc req ++
      [.HTTPError (Ctx.NewServerMetadataContext actx {})
         (R.MarshalerForRequest mux req).2 (.status codes.InvalidArgument e.Error), .cancel] := by
  rw [clientTrace_eq]
  simp [clientHandler, ha, deferCancel, request_of_decodeFails R rpc actx _ client req pp e hd]

theorem clientTrace_service_error (R : Runtime) (ctx : Ctx) (mux : ServeMux)
    (client : BlockchainClient) (rpc : Rpc) (req : Request) (pp : PathParams) (actx : Ctx)
    (m : Message) (err : GoError) (ha : annotateClient R mux rpc req = .ok actx)
    (hd : decodesTo R rpc req m) (he : (client.method rpc actx m).err = some err) :
    clientTrace R ctx mux client rpc req pp =
      [.WithCancel req.Context,
       .AnnotateContext (clientCtx req) rpc.fullMethod (documentedPath rpc)] ++
      decodePrefix R rpc req ++
      [.ClientCall rpc actx m,
       .HTTPError (Ctx.NewServerMetadataContext actx
           ⟨(client.method rpc actx m).header, (client.method rpc actx m).trailer⟩)
         (R.MarshalerForRequest mux req).2 err, .cancel] := by
  rw [clientTrace_eq]
  simp [clientHandler, ha, deferCancel, request_of_decodesTo R rpc actx _ client req pp m hd, he]

theorem clientTrace_success (R : Runtime) (ctx : Ctx) (mux : ServeMux)
    (client : BlockchainClient) (rpc : Rpc) (req : Request) (pp : PathParams) (actx : Ctx)
    (m : Message) (ha : annotateClient R mux rpc req = .ok actx)
    (hd : decodesTo R rpc req m) (he : (client.method rpc actx m).err = none) :
    clientTrace R ctx mux client rpc req pp =
      [.WithCancel req.Context,
       .AnnotateContext (clientCtx req) rpc.fullMethod (documentedPath rpc)] ++
      decodePrefix R rpc req ++
      [.ClientCall rpc actx m,
       .Forward .ForwardResponseMessage (Ctx.NewServerMetadataContext actx
           ⟨(client.method rpc actx m).header, (client.method rpc actx m).trailer⟩)
         (R.MarshalerForRequest mux req).2 (client.method rpc actx m).msg
         mux.GetForwardResponseOptions, .cancel] := by
  rw [clientTrace_eq]
  simp [clientHandler, ha, deferCancel, request_of_decodesTo R rpc actx _ client req pp m hd, he,
    forward_Blockchain_eq]

/-! ### Patterns of three literals -/

theorem matchOps_three_literals (a b c : String) (unescape : String → Bool → Option String)
    (cs : List String) :
    (match Pattern.matchOps ⟨[⟨2, 0⟩, ⟨2, 1⟩, ⟨2, 2⟩], [a, b, c], [], 3, 0, ""⟩ unescape cs
        [⟨2, 0⟩, ⟨2, 1⟩, ⟨2, 2⟩] ⟨0, [], []⟩ with
      | none => none
      | some st => if st.pos < cs.length then none else some ([].zip st.captured)) =
      if cs = [a, b, c] then some ([] : List (String × String)) else none := by
  match cs with
  | [] => simp [Pattern.matchOps, Pattern.matchOp, utilities.OpNop, utilities.OpLitPush]
  | [x] =>
    by_cases h0 : x = a <;>
      simp [Pattern.matchOps, Pattern.matchOp, utilities.OpNop, utilities.OpLitPush, h0]
  | [x, y] =>
    by_cases h0 : x = a <;> by_cases h1 : y = b <;>
      simp [Pattern.matchOps, Pattern.matchOp, utilities.OpNop, utilities.OpLitPush, h0, h1]
  | [x, y, z] =>
    by_cases h0 : x = a <;> by_cases h1 : y = b <;> by_cases h2 : z = c <;>
      simp [Pattern.matchOps, Pattern.matchOp, utilities.OpNop, utilities.OpLitPush, h0, h1, h2]
  | x :: y :: z :: w :: rest =>
    by_cases h0 : x = a <;> by_cases h1 : y = b <;> by_cases h2 : z = c <;>
      simp [Pattern.matchOps, Pattern.matchOp, utilities.OpNop, utilities.OpLitPush, h0, h1, h2]

theorem colon_mem_of_append (x verb : String) : ':' ∈ (x ++ ":" ++ verb).data := by
  simp [String.data_append]

theorem match_three_literals (a b c : String) (hc : ':' ∉ c.data)
    (unescape : String → Bool → Option String) (components : List String) (verb : String) :
    Pattern.Match ⟨[⟨2, 0⟩, ⟨2, 1⟩, ⟨2, 2⟩], [a, b, c], [], 3, 0, ""⟩ unescape components verb =
      if components = [a, b, c] ∧ verb = "" then some [] else none := by
  unfold Pattern.Match
  simp only [ne_eq, not_true_eq_false, and_false, if_false, List.map_nil]
  rw [matchOps_three_literals]
  by_cases hv : verb = ""
  · subst hv
    simp
  · have hv2 : ¬ ("" = verb) := fun h => hv h.symm
    simp only [hv2, not_false_eq_true, if_true, hv, and_false, if_false]
    rw [if_neg]
    intro h
    by_cases hl : components.length = 0
    · rw [if_pos hl] at h
      simp at h
    · rw [if_neg hl] at h
      have h3 : (components.dropLast ++ [components.getLastD "" ++ ":" ++ verb]).getLast? =
          ([a, b, c] : List String).getLast? := by rw [h]
      simp at h3
      apply hc
      rw [← h3]
      exact colon_mem_of_append _ _

theorem pattern_Blockchain_eq (rpc : Rpc) :
    pattern_Blockchain rpc =
      ⟨[⟨2, 0⟩, ⟨2, 1⟩, ⟨2, 2⟩], pathSegments (documentedPath rpc), [], 3, 0, ""⟩ := by
  cases rpc <;> decide

/-! ### Reading the runs -/

theorem invokedRpcs_append (s t : List Event) :
    invokedRpcs (s ++ t) = invokedRpcs s ++ invokedRpcs t := by
  induction s with
  | nil => rfl
  | cons e s ih => cases e <;> simp [invokedRpcs, ih]

theorem invokedRpcs_length (t : List Event) :
    (invokedRpcs t).length = t.countP Event.isCall := by
  induction t with
  | nil => rfl
  | cons e t ih => cases e <;> simp [invokedRpcs, Event.isCall, ih]

theorem decodePrefix_quiet (R : Runtime) (rpc : Rpc) (req : Request) :
    invokedRpcs (decodePrefix R rpc req) = [] ∧
      (decodePrefix R rpc req).countP Event.isCall = 0 ∧
      (decodePrefix R rpc req).countP Event.isHTTPError = 0 ∧
      (decodePrefix R rpc req).countP Event.isForward = 0 ∧
      (decodePrefix R rpc req).countP Event.isCancel = 0 ∧
      (decodePrefix R rpc req).filter Event.isHTTPError = [] ∧
      (decodePrefix R rpc req).filter Event.isForward = [] ∧
      (decodePrefix R rpc req).filter Event.isCall = [] := by
  rcases decodePrefix_cases R rpc req with h | h | ⟨msg, form, filter, h⟩ <;>
    simp [h, invokedRpcs, Event.isCall, Event.isHTTPError, Event.isForward, Event.isCancel]

/-- The four ways a client-path handler runs. -/
theorem clientTrace_cases (R : Runtime) (mux : ServeMux)
    (client : BlockchainClient) (rpc : Rpc) (req : Request) :
    (∃ err, annotateClient R mux rpc req = .error err) ∨
    (∃ actx e, annotateClient R mux rpc req = .ok actx ∧ decodeFails R rpc req e) ∨
    (∃ actx m err, annotateClient R mux rpc req = .ok actx ∧ decodesTo R rpc req m ∧
      (client.method rpc actx m).err = some err) ∨
    (∃ actx m, annotateClient R mux rpc req = .ok actx ∧ decodesTo R rpc req m ∧
      (client.method rpc actx m).err = none) := by
  cases ha : annotateClient R mux rpc req with
  | error err => exact Or.inl ⟨err, rfl⟩
  | ok actx =>
    rcases decode_total R rpc req with ⟨m, hm⟩ | ⟨e, he⟩
    · cases hs : (client.method rpc actx m).err with
      | none => exact Or.inr (Or.inr (Or.inr ⟨actx, m, rfl, hm, hs⟩))
      | some err => exact Or.inr (Or.inr (Or.inl ⟨actx, m, err, rfl, hm, hs⟩))
    · exact Or.inr (Or.inl ⟨actx, e, rfl, he⟩)

/-- The four ways a server-path handler runs. -/
theorem serverTrace_cases (R : Runtime) (mux : ServeMux)
    (server : BlockchainServer) (rpc : Rpc) (req : Request) :
    (∃ err, annotateServer R mux rpc req = .error err) ∨
    (∃ actx e, annotateServer R mux rpc req = .ok actx ∧ decodeFails R rpc req e) ∨
    (∃ actx m err, annotateServer R mux rpc req = .ok actx ∧ decodesTo R rpc req m ∧
      (server.method rpc actx m).err = some err) ∨
    (∃ actx m, annotateServer R mux rpc req = .ok actx ∧ decodesTo R rpc req m ∧
      (server.method rpc actx m).err = none) := by
  cases ha : annotateServer R mux rpc req with
  | error err => exact Or.inl ⟨err, rfl⟩
  | ok actx =>
    rcases decode_total R rpc req with ⟨m, hm⟩ | ⟨e, he⟩
    · cases hs : (server.method rpc actx m).err with
      | none => exact Or.inr (Or.inr (Or.inr ⟨actx, m, rfl, hm, hs⟩))
      | some err => exact Or.inr (Or.inr (Or.inl ⟨actx, m, err, rfl, hm, hs⟩))
    · exact Or.inr (Or.inl ⟨actx, e, rfl, he⟩)

theorem invokedRpcs_clientTrace (R : Runtime) (ctx : Ctx) (mux : ServeMux)
    (client : BlockchainClient) (rpc : Rpc) (req : Request) (pp : PathParams) :
    invokedRpcs (clientTrace R ctx mux client rpc req pp) = [] ∨
      invokedRpcs (clientTrace R ctx mux client rpc req pp) = [rpc] := by
  rcases clientTrace_cases R mux client rpc req with
    ⟨err, ha⟩ | ⟨actx, e, ha, hd⟩ | ⟨actx, m, err, ha, hd, hs⟩ | ⟨actx, m, ha, hd, hs⟩
  · rw [clientTrace_annotate_error R ctx mux client rpc req pp err ha]
    simp [invokedRpcs]
  · rw [clientTrace_decode_error R ctx mux client rpc req pp actx e ha hd]
    simp [invokedRpcs, invokedRpcs_append, decodePrefix_quiet]
  · rw [clientTrace_service_error R ctx mux client rpc req pp actx m err ha hd hs]
    simp [invokedRpcs, invokedRpcs_append, decodePrefix_quiet]
  · rw [clientTrace_success R ctx mux client rpc req pp actx m ha hd hs]
    simp [invokedRpcs, invokedRpcs_append, decodePrefix_quiet]

theorem invokedRpcs_serverTrace (R : Runtime) (ctx : Ctx) (mux : ServeMux)
    (server : BlockchainServer) (rpc : Rpc) (req : Request) (pp : PathParams) :
    invokedRpcs (serverTrace R ctx mux server rpc req pp) = [] ∨
      invokedRpcs (serverTrace R ctx mux server rpc req pp) = [rpc] := by
  rcases serverTrace_cases R mux server rpc req with
    ⟨err, ha⟩ | ⟨actx, e, ha, hd⟩ | ⟨actx, m, err, ha, hd, hs⟩ | ⟨actx, m, ha, hd, hs⟩
  · rw [serverTrace_annotate_error R ctx mux server rpc req pp err ha]
    simp [invokedRpcs]
  · rw [serverTrace_decode_error R ctx mux server rpc req pp actx e ha hd]
    simp [invokedRpcs, invokedRpcs_append, decodePrefix_quiet]
  · rw [serverTrace_service_error R ctx mux server rpc req pp actx m err ha hd hs]
    simp [invokedRpcs, invokedRpcs_append, decodePrefix_quiet]
  · rw [serverTrace_success R ctx mux server rpc req pp actx m ha hd hs]
    simp [invokedRpcs, invokedRpcs_append, decodePrefix_quiet]

/-! ## The URL surface -/

theorem registered_patterns_server (R : Runtime) (ctx : Ctx) (mux : ServeMux)
    (server : BlockchainServer) :
    (RegisterBlockchainHandlerServer R ctx mux server).1.map (fun reg => (reg.meth, reg.pat)) =
      Rpc.all.map (fun rpc => ("GET", pattern_Blockchain rpc)) := by
  rfl

theorem registered_patterns_client (R : Runtime) (ctx : Ctx) (mux : ServeMux)
    (client : BlockchainClient) :
    (RegisterBlockchainHandlerClient R ctx mux client).1.map (fun reg => (reg.meth, reg.pat)) =
      Rpc.all.map (fun rpc => ("GET", pattern_Blockchain rpc)) := by
  rfl

theorem no_colon_in_last_segment (rpc : Rpc) :
    ':' ∉ ((pathSegments (documentedPath rpc)).getD 2 "").data := by
  cases rpc <;> decide

theorem pathSegments_documentedPath (rpc : Rpc) :
    pathSegments (documentedPath rpc) =
      ["pactus", "blockchain", (pathSegments (documentedPath rpc)).getD 2 ""] := by
  cases rpc <;> decide

theorem pattern_Blockchain_match (rpc : Rpc) (unescape : String → Bool → Option String)
    (components : List String) (verb : String) :
    (pattern_Blockchain rpc).Match unescape components verb =
      if components = pathSegments (documentedPath rpc) ∧ verb = "" then some [] else none := by
  rw [pattern_Blockchain_eq, pathSegments_documentedPath rpc]
  rw [match_three_literals _ _ _ (no_colon_in_last_segment rpc)]

theorem pathSegments_injective (r1 r2 : Rpc)
    (h : pathSegments (documentedPath r1) = pathSegments (documentedPath r2)) : r1 = r2 := by
  revert h
  cases r1 <;> cases r2 <;> decide

theorem documentedTable_eq :
    documentedTable = Rpc.all.map (fun rpc => ⟨"GET", documentedPath rpc, rpc⟩) := by
  decide

theorem pool_path (rpc : Rpc) :
    "/" ++ "/".intercalate (pattern_Blockchain rpc).pool = documentedPath rpc := by
  cases rpc <;> decide

theorem invokedRpcs_clientTrace_reached (R : Runtime) (ctx : Ctx) (mux : ServeMux)
    (client : BlockchainClient) (rpc : Rpc) (req : Request) (pp : PathParams) (actx : Ctx)
    (m : Message) (ha : annotateClient R mux rpc req = .ok actx) (hd : decodesTo R rpc req m) :
    invokedRpcs (clientTrace R ctx mux client rpc req pp) = [rpc] := by
  cases hs : (client.method rpc actx m).err with
  | none =>
    rw [clientTrace_success R ctx mux client rpc req pp actx m ha hd hs]
    simp [invokedRpcs, invokedRpcs_append, decodePrefix_quiet]
  | some err =>
    rw [clientTrace_service_error R ctx mux client rpc req pp actx m err ha hd hs]
    simp [invokedRpcs, invokedRpcs_append, decodePrefix_quiet]

theorem invokedRpcs_serverTrace_reached (R : Runtime) (ctx : Ctx) (mux : ServeMux)
    (server : BlockchainServer) (rpc : Rpc) (req : Request) (pp : PathParams) (actx : Ctx)
    (m : Message) (ha : annotateServer R mux rpc req = .ok actx) (hd : decodesTo R rpc req m) :
    invokedRpcs (serverTrace R ctx mux server rpc req pp) = [rpc] := by
  cases hs : (server.method rpc actx m).err with
  | none =>
    rw [serverTrace_success R ctx mux server rpc req pp actx m ha hd hs]
    simp [invokedRpcs, invokedRpcs_append, decodePrefix_quiet]
  | some err =>
    rw [serverTrace_service_error R ctx mux server rpc req pp actx m err ha hd hs]
    simp [invokedRpcs, invokedRpcs_append, decodePrefix_quiet]

theorem filter_registered (rpc : Rpc) (q : Rpc → Bool)
    (hq : ∀ other, q other = true ↔ other = rpc) : Rpc.all.filter q = [rpc] := by
  have h : q = fun x => decide (x = rpc) := by
    funext x
    rw [Bool.eq_iff_iff]
    simp [hq]
  subst h
  cases rpc <;> decide

theorem filter_of_queryRpc (rpc : Rpc) (hq : rpc ∈ queryRpcs) :
    filter_Blockchain rpc = some ⟨[], [], []⟩ := by
  revert hq
  cases rpc <;> decide

theorem filter_none_of_not_queryRpc (rpc : Rpc) (hq : rpc ∉ queryRpcs) :
    filter_Blockchain rpc = none := by
  revert hq
  cases rpc <;> decide

theorem decodeFails_of_query (R : Runtime) (rpc : Rpc) (req : Request) (e : GoError)
    (hq : rpc ∈ queryRpcs)
    (hf : R.ParseForm req = .error e ∨
      ∃ form, R.ParseForm req = .ok form ∧
        R.PopulateQueryParameters (Message.zero (rpc.name ++ "Request")) form ⟨[], [], []⟩ =
          .error e) :
    decodeFails R rpc req e := by
  unfold decodeFails
  rw [filter_of_queryRpc rpc hq]
  exact hf

theorem decodesTo_of_query (R : Runtime) (rpc : Rpc) (req : Request) (form : Form)
    (m : Message) (hq : rpc ∈ queryRpcs) (hp : R.ParseForm req = .ok form)
    (hpop : R.PopulateQueryParameters (Message.zero (rpc.name ++ "Request")) form
      ⟨[], [], []⟩ = .ok m) :
    decodesTo R rpc req m := by
  unfold decodesTo
  rw [filter_of_queryRpc rpc hq]
  exact ⟨form, hp, hpop⟩

theorem decodePrefix_of_query (R : Runtime) (rpc : Rpc) (req : Request) (form : Form)
    (hq : rpc ∈ queryRpcs) (hp : R.ParseForm req = .ok form) :
    decodePrefix R rpc req =
      [.ParseForm,
       .PopulateQueryParameters (Message.zero (rpc.name ++ "Request")) form ⟨[], [], []⟩] := by
  unfold decodePrefix
  rw [filter_of_queryRpc rpc hq]
  simp [hp]

theorem sample_decodesTo :
    decodesTo (sampleRuntime true true true) .GetBlock sampleRequest
      ⟨"GetBlockRequest", [("q", "height=1")]⟩ :=
  ⟨[("q", ["height=1"])], rfl, congrArg Except.ok (by decide)⟩

theorem decodesTo_unique (R : Runtime) (rpc : Rpc) (req : Request) (m1 m2 : Message)
    (h1 : decodesTo R rpc req m1) (h2 : decodesTo R rpc req m2) : m1 = m2 := by
  unfold decodesTo at h1 h2
  cases hf : filter_Blockchain rpc with
  | none =>
    rw [hf] at h1 h2
    simp only at h1 h2
    rw [h1, h2]
  | some filter =>
    rw [hf] at h1 h2
    obtain ⟨f1, hp1, hq1⟩ := h1
    obtain ⟨f2, hp2, hq2⟩ := h2
    rw [hp1] at hp2
    cases hp2
    rw [hq1] at hq2
    cases hq2
    rfl

theorem getLast?_append_cancel (l : List Event) (x : Event) :
    (l ++ [x, Event.cancel]).getLast? = some Event.cancel := by
  induction l with
  | nil => rfl
  | cons a l ih =>
    cases hl : l ++ [x, Event.cancel] with
    | nil => simp at hl
    | cons b t =>
      rw [List.cons_append, hl, List.getLast?_cons_cons, ← hl]
      exact ih

theorem closeConn_shape (G : Grpc) (endpoint : String) (conn : ClientConn) :
    ∃ rest, closeConn G endpoint conn = ConnEvent.Close conn :: rest ∧
      rest.countP ConnEvent.isClose = 0 := by
  unfold closeConn
  cases G.Close conn with
  | none => exact ⟨[], rfl, rfl⟩
  | some cerr => exact ⟨[.Infof endpoint cerr], rfl, rfl⟩

theorem fromEndpoint_of_dial_ok (G : Grpc) (R : Runtime) (ctx : Ctx) (mux : ServeMux)
    (endpoint : String) (opts : List String) (conn : ClientConn)
    (hd : G.Dial endpoint opts = .ok conn) :
    RegisterBlockchainHandlerFromEndpoint G R ctx mux endpoint opts =
      ⟨none, (RegisterBlockchainHandlerClient R ctx mux (G.NewBlockchainClient conn)).1,
        [.Dial endpoint opts, .RegisterBlockchainHandler conn],
        [ConnEvent.AwaitDone ctx :: closeConn G endpoint conn]⟩ := by
  unfold RegisterBlockchainHandlerFromEndpoint
  rw [hd]
  rfl

theorem fullMethod_eq (rpc : Rpc) : rpc.fullMethod = "/pactus.Blockchain/" ++ rpc.name := rfl

theorem decodePrefix_no_annotate (R : Runtime) (rpc : Rpc) (req : Request) :
    (decodePrefix R rpc req).filter Event.isAnnotate = [] := by
  rcases decodePrefix_cases R rpc req with h | h | ⟨msg, form, filter, h⟩ <;>
    simp [h, Event.isAnnotate]

theorem clientTrace_annotate_events (R : Runtime) (ctx : Ctx) (mux : ServeMux)
    (client : BlockchainClient) (rpc : Rpc) (req : Request) (pp : PathParams) :
    (clientTrace R ctx mux client rpc req pp).filter Event.isAnnotate =
      [.AnnotateContext (clientCtx req) rpc.fullMethod (documentedPath rpc)] := by
  rcases clientTrace_cases R mux client rpc req with
    ⟨err, ha⟩ | ⟨actx, e, ha, hd⟩ | ⟨actx, m, err, ha, hd, hs⟩ | ⟨actx, m, ha, hd, hs⟩
  · rw [clientTrace_annotate_error R ctx mux client rpc req pp err ha]
    simp [Event.isAnnotate, List.filter_cons]
  · rw [clientTrace_decode_error R ctx mux client rpc req pp actx e ha hd]
    simp [Event.isAnnotate, List.filter_cons, List.filter_append, decodePrefix_no_annotate]
  · rw [clientTrace_service_error R ctx mux client rpc req pp actx m err ha hd hs]
    simp [Event.isAnnotate, List.filter_cons, List.filter_append, decodePrefix_no_annotate]
  · rw [clientTrace_success R ctx mux client rpc req pp actx m ha hd hs]
    simp [Event.isAnnotate, List.filter_cons, List.filter_append, decodePrefix_no_annotate]

theorem serverTrace_annotate_events (R : Runtime) (ctx : Ctx) (mux : ServeMux)
    (server : BlockchainServer) (rpc : Rpc) (req : Request) (pp : PathParams) :
    (serverTrace R ctx mux server rpc req pp).filter Event.isAnnotate =
      [.AnnotateIncomingContext (serverCtx req) rpc.fullMethod (documentedPath rpc)] := by
  rcases serverTrace_cases R mux server rpc req with
    ⟨err, ha⟩ | ⟨actx, e, ha, hd⟩ | ⟨actx, m, err, ha, hd, hs⟩ | ⟨actx, m, ha, hd, hs⟩
  · rw [serverTrace_annotate_error R ctx mux server rpc req pp err ha]
    simp [Event.isAnnotate, List.filter_cons]
  · rw [serverTrace_decode_error R ctx mux server rpc req pp actx e ha hd]
    simp [Event.isAnnotate, List.filter_cons, List.filter_append, decodePrefix_no_annotate]
  · rw [serverTrace_service_error R ctx mux server rpc req pp actx m err ha hd hs]
    simp [Event.isAnnotate, List.filter_cons, List.filter_append, decodePrefix_no_annotate]
  · rw [serverTrace_success R ctx mux server rpc req pp actx m ha hd hs]
    simp [Event.isAnnotate, List.filter_cons, List.filter_append, decodePrefix_no_annotate]

theorem clientTrace_forward_events (R : Runtime) (ctx : Ctx) (mux : ServeMux)
    (client : BlockchainClient) (rpc : Rpc) (req : Request) (pp : PathParams) :
    (clientTrace R ctx mux client rpc req pp).filter Event.isForward = [] ∨
      ∃ c mar resp opts,
        (clientTrace R ctx mux client rpc req pp).filter Event.isForward =
          [.Forward (forward_Blockchain rpc) c mar resp opts] := by
  rcases clientTrace_cases R mux client rpc req with
    ⟨err, ha⟩ | ⟨actx, e, ha, hd⟩ | ⟨actx, m, err, ha, hd, hs⟩ | ⟨actx, m, ha, hd, hs⟩
  · rw [clientTrace_annotate_error R ctx mux client rpc req pp err ha]
    exact Or.inl (by simp [Event.isForward, List.filter_cons])
  · rw [clientTrace_decode_error R ctx mux client rpc req pp actx e ha hd]
    exact Or.inl (by simp [Event.isForward, List.filter_cons, List.filter_append,
      decodePrefix_quiet])
  · rw [clientTrace_service_error R ctx mux client rpc req pp actx m err ha hd hs]
    exact Or.inl (by simp [Event.isForward, List.filter_cons, List.filter_append,
      decodePrefix_quiet])
  · rw [clientTrace_success R ctx mux client rpc req pp actx m ha hd hs]
    exact Or.inr ⟨Ctx.NewServerMetadataContext actx
        ⟨(client.method rpc actx m).header, (client.method rpc actx m).trailer⟩,
      (R.MarshalerForRequest mux req).2, (client.method rpc actx m).msg,
      mux.GetForwardResponseOptions, by
      simp [Event.isForward, List.filter_cons, List.filter_append, decodePrefix_quiet,
        forward_Blockchain_eq]⟩

theorem serverTrace_forward_events (R : Runtime) (ctx : Ctx) (mux : ServeMux)
    (server : BlockchainServer) (rpc : Rpc) (req : Request) (pp : PathParams) :
    (serverTrace R ctx mux server rpc req pp).filter Event.isForward = [] ∨
      ∃ c mar resp opts,
        (serverTrace R ctx mux server rpc req pp).filter Event.isForward =
          [.Forward (forward_Blockchain rpc) c mar resp opts] := by
  rcases serverTrace_cases R mux server rpc req with
    ⟨err, ha⟩ | ⟨actx, e, ha, hd⟩ | ⟨actx, m, err, ha, hd, hs⟩ | ⟨actx, m, ha, hd, hs⟩
  · rw [serverTrace_annotate_error R ctx mux server rpc req pp err ha]
    exact Or.inl (by simp [Event.isForward, List.filter_cons])
  · rw [serverTrace_decode_error R ctx mux server rpc req pp actx e ha hd]
    exact Or.inl (by simp [Event.isForward, List.filter_cons, List.filter_append,
      decodePrefix_quiet])
  · rw [serverTrace_service_error R ctx mux server rpc req pp actx m err ha hd hs]
    exact Or.inl (by simp [Event.isForward, List.filter_cons, List.filter_append,
      decodePrefix_quiet])
  · rw [serverTrace_success R ctx mux server rpc req pp actx m ha hd hs]
    exact Or.inr ⟨Ctx.NewServerMetadataContext actx
        ⟨R.Join [] (server.method rpc actx m).stream.Header,
         R.Join [] (server.method rpc actx m).stream.Trailer⟩,
      (R.MarshalerForRequest mux req).2, (server.method rpc actx m).msg,
      mux.GetForwardResponseOptions, by
      simp [Event.isForward, List.filter_cons, List.filter_append, decodePrefix_quiet,
        forward_Blockchain_eq]⟩

theorem quietClient_agrees (fails : Bool) (rpc : Rpc) (c : Ctx) (m : Message) :
    ((quietClient fails).method rpc c m).msg = ((sampleServer fails).method rpc c m).msg ∧
      ((quietClient fails).method rpc c m).err = ((sampleServer fails).method rpc c m).err ∧
      ((quietClient fails).method rpc c m).header = [] ∧
      ((quietClient fails).method rpc c m).trailer = [] := by
  cases rpc <;> cases fails <;> exact ⟨rfl, rfl, rfl, rfl⟩

/-! ### The handlers with the forwarder variables free -/

theorem RegisterBlockchainHandlerServerVars_initial (R : Runtime) (ctx : Ctx) (mux : ServeMux)
    (server : BlockchainServer) :
    RegisterBlockchainHandlerServerVars ForwardVars.initial R ctx mux server =
      RegisterBlockchainHandlerServer R ctx mux server := by
  rfl

theorem RegisterBlockchainHandlerClientVars_initial (R : Runtime) (ctx : Ctx) (mux : ServeMux)
    (client : BlockchainClient) :
    RegisterBlockchainHandlerClientVars ForwardVars.initial R ctx mux client =
      RegisterBlockchainHandlerClient R ctx mux client := by
  rfl

theorem serverTraceVars_eq (V : ForwardVars) (R : Runtime) (ctx : Ctx) (mux : ServeMux)
    (server : BlockchainServer) (rpc : Rpc) :
    serverTraceVars V R ctx mux server rpc = serverHandlerVars V R mux server rpc := by
  cases rpc <;> rfl

theorem clientTraceVars_eq (V : ForwardVars) (R : Runtime) (ctx : Ctx) (mux : ServeMux)
    (client : BlockchainClient) (rpc : Rpc) :
    clientTraceVars V R ctx mux client rpc = clientHandlerVars V R mux client rpc := by
  cases rpc <;> rfl

theorem clientTraceVars_forward_reached (V : ForwardVars) (R : Runtime) (ctx : Ctx)
    (mux : ServeMux) (client : BlockchainClient) (rpc : Rpc) (req : Request) (pp : PathParams)
    (actx : Ctx) (m : Message) (ha : annotateClient R mux rpc req = .ok actx)
    (hd : decodesTo R rpc req m) (hs : (client.method rpc actx m).err = none) :
    (clientTraceVars V R ctx mux client rpc req pp).filter Event.isForward =
      [.Forward (V.named rpc) (Ctx.NewServerMetadataContext actx
          ⟨(client.method rpc actx m).header, (client.method rpc actx m).trailer⟩)
        (R.MarshalerForRequest mux req).2 (client.method rpc actx m).msg
        mux.GetForwardResponseOptions] := by
  rw [clientTraceVars_eq]
  simp [clientHandlerVars, ha, deferCancel,
    request_of_decodesTo R rpc actx _ client req pp m hd, hs, List.filter_append,
    List.filter_cons, decodePrefix_quiet, Event.isForward]

theorem clientTraceVars_forward_events (V : ForwardVars) (R : Runtime) (ctx : Ctx)
    (mux : ServeMux) (client : BlockchainClient) (rpc : Rpc) (req : Request) (pp : PathParams) :
    (clientTraceVars V R ctx mux client rpc req pp).filter Event.isForward = [] ∨
      ∃ c mar resp opts,
        (clientTraceVars V R ctx mux client rpc req pp).filter Event.isForward =
          [.Forward (V.named rpc) c mar resp opts] := by
  rcases clientTrace_cases R mux client rpc req with
    ⟨err, ha⟩ | ⟨actx, e, ha, hd⟩ | ⟨actx, m, err, ha, hd, hs⟩ | ⟨actx, m, ha, hd, hs⟩
  · refine Or.inl ?_
    rw [clientTraceVars_eq]
    simp [clientHandlerVars, ha, deferCancel, List.filter_cons, Event.isForward]
  · refine Or.inl ?_
    rw [clientTraceVars_eq]
    simp [clientHandlerVars, ha, deferCancel,
      request_of_decodeFails R rpc actx _ client req pp e hd, List.filter_append,
      List.filter_cons, decodePrefix_quiet, Event.isForward]
  · refine Or.inl ?_
    rw [clientTraceVars_eq]
    simp [clientHandlerVars, ha, deferCancel,
      request_of_decodesTo R rpc actx _ client req pp m hd, hs, List.filter_append,
      List.filter_cons, decodePrefix_quiet, Event.isForward]
  · exact Or.inr ⟨_, _, _, _,
      clientTraceVars_forward_reached V R ctx mux client rpc req pp actx m ha hd hs⟩

theorem serverTraceVars_forward_reached (V : ForwardVars) (R : Runtime) (ctx : Ctx)
    (mux : ServeMux) (server : BlockchainServer) (rpc : Rpc) (req : Request) (pp : PathParams)
    (actx : Ctx) (m : Message) (ha : annotateServer R mux rpc req = .ok actx)
    (hd : decodesTo R rpc req m) (hs : (server.method rpc actx m).err = none) :
    (serverTraceVars V R ctx mux server rpc req pp).filter Event.isForward =
      [.Forward (V.named rpc) (Ctx.NewServerMetadataContext actx
          ⟨R.Join [] (server.method rpc actx m).stream.Header,
           R.Join [] (server.method rpc actx m).stream.Trailer⟩)
        (R.MarshalerForRequest mux req).2 (server.method rpc actx m).msg
        mux.GetForwardResponseOptions] := by
  rw [serverTraceVars_eq]
  simp [serverHandlerVars, ha, deferCancel,
    local_request_of_decodesTo R rpc actx _ server req pp m hd, hs, List.filter_append,
    List.filter_cons, decodePrefix_quiet, Event.isForward]

theorem serverTraceVars_forward_events (V : ForwardVars) (R : Runtime) (ctx : Ctx)
    (mux : ServeMux) (server : BlockchainServer) (rpc : Rpc) (req : Request) (pp : PathParams) :
    (serverTraceVars V R ctx mux server rpc req pp).filter Event.isForward = [] ∨
      ∃ c mar resp opts,
        (serverTraceVars V R ctx mux server rpc req pp).filter Event.isForward =
          [.Forward (V.named rpc) c mar resp opts] := by
  rcases serverTrace_cases R mux server rpc req with
    ⟨err, ha⟩ | ⟨actx, e, ha, hd⟩ | ⟨actx, m, err, ha, hd, hs⟩ | ⟨actx, m, ha, hd, hs⟩
  · refine Or.inl ?_
    rw [serverTraceVars_eq]
    simp [serverHandlerVars, ha, deferCancel, List.filter_cons, Event.isForward]
  · refine Or.inl ?_
    rw [serverTraceVars_eq]
    simp [serverHandlerVars, ha, deferCancel,
      local_request_of_decodeFails R rpc actx _ server req pp e hd, List.filter_append,
      List.filter_cons, decodePrefix_quiet, Event.isForward]
  · refine Or.inl ?_
    rw [serverTraceVars_eq]
    simp [serverHandlerVars, ha, deferCancel,
      local_request_of_decodesTo R rpc actx _ server req pp m hd, hs, List.filter_append,
      List.filter_cons, decodePrefix_quiet, Event.isForward]
  · exact Or.inr ⟨_, _, _, _,
      serverTraceVars_forward_reached V R ctx mux server rpc req pp actx m ha hd hs⟩

/-! ## Properties of the gateway -/

/-- C1: `RegisterBlockchainHandlerServer` and `RegisterBlockchainHandlerClient` each make
exactly nine calls of `mux.Handle`, every one under the HTTP method `GET`, and row by row
they are the documented table: the handler is registered under the pattern whose pool
spells the documented path, the only service method it ever invokes is the RPC of that
row, and it does invoke it whenever context annotation and query decoding succeed. -/
theorem C1_registration_is_documented_table (R : Runtime) (ctx : Ctx) (mux : ServeMux)
    (server : BlockchainServer) (client : BlockchainClient) :
    (RegisterBlockchainHandlerServer R ctx mux server).1.length = 9 ∧
    (RegisterBlockchainHandlerClient R ctx mux client).1.length = 9 ∧
    List.Forall₂
      (fun reg row =>
        reg.meth = "GET" ∧ reg.meth = row.httpMethod ∧
        "/" ++ "/".intercalate reg.pat.pool = row.path ∧
        ∀ req pp,
          (invokedRpcs (reg.h req pp) = [] ∨ invokedRpcs (reg.h req pp) = [row.rpc]) ∧
          ((∃ actx m, annotateServer R mux row.rpc req = .ok actx ∧ decodesTo R row.rpc req m) →
            invokedRpcs (reg.h req pp) = [row.rpc]))
      (RegisterBlockchainHandlerServer R ctx mux server).1 documentedTable ∧
    List.Forall₂
      (fun reg row =>
        reg.meth = "GET" ∧ reg.meth = row.httpMethod ∧
        "/" ++ "/".intercalate reg.pat.pool = row.path ∧
        ∀ req pp,
          (invokedRpcs (reg.h req pp) = [] ∨ invokedRpcs (reg.h req pp) = [row.rpc]) ∧
          ((∃ actx m, annotateClient R mux row.rpc req = .ok actx ∧ decodesTo R row.rpc req m) →
            invokedRpcs (reg.h req pp) = [row.rpc]))
      (RegisterBlockchainHandlerClient R ctx mux client).1 documentedTable := by
  refine ⟨rfl, rfl, ?_, ?_⟩
  · rw [RegisterBlockchainHandlerServer_eq, documentedTable_eq]
    rw [List.forall₂_map_left_iff, List.forall₂_map_right_iff, List.forall₂_same]
    intro rpc _
    refine ⟨rfl, rfl, pool_path rpc, fun req pp => ?_⟩
    simp only
    rw [← serverTrace_eq R ctx mux server rpc]
    refine ⟨invokedRpcs_serverTrace R ctx mux server rpc req pp, ?_⟩
    rintro ⟨actx, m, ha, hd⟩
    exact invokedRpcs_serverTrace_reached R ctx mux server rpc req pp actx m ha hd
  · rw [RegisterBlockchainHandlerClient_eq, documentedTable_eq]
    rw [List.forall₂_map_left_iff, List.forall₂_map_right_iff, List.forall₂_same]
    intro rpc _
    refine ⟨rfl, rfl, pool_path rpc, fun req pp => ?_⟩
    simp only
    rw [← clientTrace_eq R ctx mux client rpc]
    refine ⟨invokedRpcs_clientTrace R ctx mux client rpc req pp, ?_⟩
    rintro ⟨actx, m, ha, hd⟩
    exact invokedRpcs_clientTrace_reached R ctx mux client rpc req pp actx m ha hd


/-- C2: each of the nine `pattern_Blockchain_*` values is built with version 1, an empty
verb, the opcode list `[2,0,2,1,2,2]` and the pool `["pactus", "blockchain", name]`; the
construction succeeds, its operations are three literal pushes on the pool entries 0, 1
and 2 (every operand indexes the pool, no variable is captured), it accepts exactly the
segment list `["pactus", "blockchain", name]` with no verb, binding nothing, and the path
it denotes is the documented path of its RPC. -/
theorem C2_patterns_are_three_literal_pushes (rpc : Rpc) :
    ∃ name : String,
      pattern_Blockchain rpc =
        MustPattern (NewPattern 1 [2, 0, 2, 1, 2, 2] ["pactus", "blockchain", name] "") ∧
      NewPattern 1 [2, 0, 2, 1, 2, 2] ["pactus", "blockchain", name] "" =
        some (pattern_Blockchain rpc) ∧
      (pattern_Blockchain rpc).ops =
        [⟨utilities.OpLitPush, 0⟩, ⟨utilities.OpLitPush, 1⟩, ⟨utilities.OpLitPush, 2⟩] ∧
      (pattern_Blockchain rpc).pool = ["pactus", "blockchain", name] ∧
      (pattern_Blockchain rpc).pool.length = 3 ∧
      (∀ o ∈ (pattern_Blockchain rpc).ops,
        0 ≤ o.operand ∧ o.operand < ((pattern_Blockchain rpc).pool.length : Int) ∧
        o.code ≠ utilities.OpCapture) ∧
      (pattern_Blockchain rpc).vars = [] ∧
      (pattern_Blockchain rpc).verb = "" ∧
      (∀ (unescape : String → Bool → Option String) (components : List String) (verb : String),
        (pattern_Blockchain rpc).Match unescape components verb =
          if components = ["pactus", "blockchain", name] ∧ verb = "" then some [] else none) ∧
      "/pactus/blockchain/" ++ name = documentedPath rpc ∧
      (pattern_Blockchain rpc).String = documentedPath rpc := by
  refine ⟨(pathSegments (documentedPath rpc)).getD 2 "", ?_, ?_, ?_, ?_, ?_, ?_, ?_, ?_, ?_, ?_, ?_⟩
  · cases rpc <;> rfl
  · cases rpc <;> decide
  · cases rpc <;> decide
  · cases rpc <;> decide
  · cases rpc <;> decide
  · cases rpc <;> decide
  · cases rpc <;> decide
  · cases rpc <;> decide
  · intro unescape components verb
    rw [pattern_Blockchain_match, ← pathSegments_documentedPath rpc]
  · cases rpc <;> decide
  · cases rpc <;> decide

/-- C3: each documented path resolves to the correct RPC and only to it: among the
handlers either registration function installs, exactly one sits under a pattern that
matches the segments of the documented path of an RPC, and it is the one registered under
the pattern of that RPC; every registered handler whose pattern matches that path invokes
no service method but that RPC and does invoke it whenever context annotation and query
decoding succeed; a pattern matches the documented path of an RPC only if it is the
pattern of that RPC; the nine final segments are pairwise distinct. -/
theorem C3_documented_path_resolves_to_its_rpc (R : Runtime) (ctx : Ctx) (mux : ServeMux)
    (server : BlockchainServer) (client : BlockchainClient)
    (unescape : String → Bool → Option String) (rpc : Rpc) :
    (((RegisterBlockchainHandlerClient R ctx mux client).1.filter (fun reg =>
        (reg.pat.Match unescape (pathSegments (documentedPath rpc)) "").isSome)).map
          (fun reg => reg.pat) = [pattern_Blockchain rpc]) ∧
    (((RegisterBlockchainHandlerServer R ctx mux server).1.filter (fun reg =>
        (reg.pat.Match unescape (pathSegments (documentedPath rpc)) "").isSome)).map
          (fun reg => reg.pat) = [pattern_Blockchain rpc]) ∧
    (∀ reg ∈ (RegisterBlockchainHandlerClient R ctx mux client).1,
      (reg.pat.Match unescape (pathSegments (documentedPath rpc)) "").isSome = true →
      reg.pat = pattern_Blockchain rpc ∧
      ∀ req pp,
        (invokedRpcs (reg.h req pp) = [] ∨ invokedRpcs (reg.h req pp) = [rpc]) ∧
        ((∃ actx m, annotateClient R mux rpc req = .ok actx ∧ decodesTo R rpc req m) →
          invokedRpcs (reg.h req pp) = [rpc])) ∧
    (∀ reg ∈ (RegisterBlockchainHandlerServer R ctx mux server).1,
      (reg.pat.Match unescape (pathSegments (documentedPath rpc)) "").isSome = true →
      reg.pat = pattern_Blockchain rpc ∧
      ∀ req pp,
        (invokedRpcs (reg.h req pp) = [] ∨ invokedRpcs (reg.h req pp) = [rpc]) ∧
        ((∃ actx m, annotateServer R mux rpc req = .ok actx ∧ decodesTo R rpc req m) →
          invokedRpcs (reg.h req pp) = [rpc])) ∧
    (∀ req pp,
      (invokedRpcs (clientTrace R ctx mux client rpc req pp) = [] ∨
        invokedRpcs (clientTrace R ctx mux client rpc req pp) = [rpc]) ∧
      ((∃ actx m, annotateClient R mux rpc req = .ok actx ∧ decodesTo R rpc req m) →
        invokedRpcs (clientTrace R ctx mux client rpc req pp) = [rpc])) ∧
    (∀ req pp,
      (invokedRpcs (serverTrace R ctx mux server rpc req pp) = [] ∨
        invokedRpcs (serverTrace R ctx mux server rpc req pp) = [rpc]) ∧
      ((∃ actx m, annotateServer R mux rpc req = .ok actx ∧ decodesTo R rpc req m) →
        invokedRpcs (serverTrace R ctx mux server rpc req pp) = [rpc])) ∧
    (∀ other : Rpc,
      ((pattern_Blockchain other).Match unescape (pathSegments (documentedPath rpc)) "").isSome =
        true ↔ other = rpc) ∧
    (documentedTable.map (fun row => (pathSegments row.path).getLast?)).Nodup ∧
    ((pattern_Blockchain .GetBlockHash).Match unescape
        (pathSegments "/pactus/blockchain/get_block") "" = none ∧
      (pattern_Blockchain .GetBlockHeight).Match unescape
        (pathSegments "/pactus/blockchain/get_block") "" = none ∧
      (pattern_Blockchain .GetBlockchainInfo).Match unescape
        (pathSegments "/pactus/blockchain/get_block") "" = none ∧
      (pattern_Blockchain .GetValidatorByNumber).Match unescape
        (pathSegments "/pactus/blockchain/get_validator") "" = none) := by
  have key : ∀ other : Rpc,
      ((pattern_Blockchain other).Match unescape (pathSegments (documentedPath rpc)) "").isSome =
        true ↔ other = rpc := by
    intro other
    rw [pattern_Blockchain_match]
    constructor
    · intro h
      by_cases hseg : pathSegments (documentedPath rpc) = pathSegments (documentedPath other)
      · exact (pathSegments_injective _ _ hseg).symm
      · simp [hseg] at h
    · intro h
      subst h
      simp
  refine ⟨?_, ?_, ?_, ?_, ?_, ?_, key, by decide, ?_⟩
  · rw [RegisterBlockchainHandlerClient_eq]
    simp only [List.filter_map, List.map_map]
    rw [filter_registered rpc _ (fun other => by simpa using key other)]
    rfl
  · rw [RegisterBlockchainHandlerServer_eq]
    simp only [List.filter_map, List.map_map]
    rw [filter_registered rpc _ (fun other => by simpa using key other)]
    rfl
  · intro reg hreg hmatch
    rw [RegisterBlockchainHandlerClient_eq] at hreg
    simp only [List.mem_map] at hreg
    obtain ⟨other, _, hother⟩ := hreg
    subst hother
    have ho : other = rpc := (key other).mp hmatch
    subst ho
    refine ⟨rfl, fun req pp => ?_⟩
    simp only
    rw [← clientTrace_eq R ctx mux client other]
    refine ⟨invokedRpcs_clientTrace R ctx mux client other req pp, ?_⟩
    rintro ⟨actx, m, ha, hd⟩
    exact invokedRpcs_clientTrace_reached R ctx mux client other req pp actx m ha hd
  · intro reg hreg hmatch
    rw [RegisterBlockchainHandlerServer_eq] at hreg
    simp only [List.mem_map] at hreg
    obtain ⟨other, _, hother⟩ := hreg
    subst hother
    have ho : other = rpc := (key other).mp hmatch
    subst ho
    refine ⟨rfl, fun req pp => ?_⟩
    simp only
    rw [← serverTrace_eq R ctx mux server other]
    refine ⟨invokedRpcs_serverTrace R ctx mux server other req pp, ?_⟩
    rintro ⟨actx, m, ha, hd⟩
    exact invokedRpcs_serverTrace_reached R ctx mux server other req pp actx m ha hd
  · intro req pp
    refine ⟨invokedRpcs_clientTrace R ctx mux client rpc req pp, ?_⟩
    rintro ⟨actx, m, ha, hd⟩
    exact invokedRpcs_clientTrace_reached R ctx mux client rpc req pp actx m ha hd
  · intro req pp
    refine ⟨invokedRpcs_serverTrace R ctx mux server rpc req pp, ?_⟩
    rintro ⟨actx, m, ha, hd⟩
    exact invokedRpcs_serverTrace_reached R ctx mux server rpc req pp actx m ha hd
  · refine ⟨?_, ?_, ?_, ?_⟩ <;> rw [pattern_Blockchain_match] <;> decide

/-- C4: for each of the seven RPCs that decode a query string, in both the `request_*`
and the `local_request_*` decoder: if parsing the form fails, or populating the request
message from the form fails, the decoder returns a nil message and a non-nil error whose
status code is `InvalidArgument`, and it does not invoke the service. -/
theorem C4_decode_failure_is_invalid_argument (R : Runtime) (rpc : Rpc) (ctx : Ctx)
    (mar : Marshaler) (client : BlockchainClient) (server : BlockchainServer) (req : Request)
    (pp : PathParams) (e : GoError) (hq : rpc ∈ queryRpcs)
    (hf : R.ParseForm req = .error e ∨
      ∃ form, R.ParseForm req = .ok form ∧
        R.PopulateQueryParameters (Message.zero (rpc.name ++ "Request")) form ⟨[], [], []⟩ =
          .error e) :
    ((request_Blockchain rpc R ctx mar client req pp).msg = none ∧
      (request_Blockchain rpc R ctx mar client req pp).err ≠ none ∧
      status.Code (request_Blockchain rpc R ctx mar client req pp).err = codes.InvalidArgument ∧
      invokedRpcs (request_Blockchain rpc R ctx mar client req pp).trace = []) ∧
    ((local_request_Blockchain rpc R ctx mar server req pp).msg = none ∧
      (local_request_Blockchain rpc R ctx mar server req pp).err ≠ none ∧
      status.Code (local_request_Blockchain rpc R ctx mar server req pp).err =
        codes.InvalidArgument ∧
      invokedRpcs (local_request_Blockchain rpc R ctx mar server req pp).trace = []) := by
  have hd := decodeFails_of_query R rpc req e hq hf
  rw [request_of_decodeFails R rpc ctx mar client req pp e hd,
    local_request_of_decodeFails R rpc ctx mar server req pp e hd]
  simp [status.Code, decodePrefix_quiet]

theorem C4_decode_failure_is_invalid_argument_witness :
    (Rpc.GetBlock ∈ queryRpcs) ∧
    ((request_Blockchain .GetBlock (sampleRuntime true false true) (.base 0) "inbound"
        (sampleClient false) sampleRequest []).msg = none ∧
      (request_Blockchain .GetBlock (sampleRuntime true false true) (.base 0) "inbound"
        (sampleClient false) sampleRequest []).err ≠ none ∧
      status.Code (request_Blockchain .GetBlock (sampleRuntime true false true) (.base 0)
        "inbound" (sampleClient false) sampleRequest []).err = codes.InvalidArgument ∧
      invokedRpcs (request_Blockchain .GetBlock (sampleRuntime true false true) (.base 0)
        "inbound" (sampleClient false) sampleRequest []).trace = []) ∧
    ((local_request_Blockchain .GetBlock (sampleRuntime true false true) (.base 0) "inbound"
        (sampleServer false) sampleRequest []).msg = none ∧
      (local_request_Blockchain .GetBlock (sampleRuntime true false true) (.base 0) "inbound"
        (sampleServer false) sampleRequest []).err ≠ none ∧
      status.Code (local_request_Blockchain .GetBlock (sampleRuntime true false true) (.base 0)
        "inbound" (sampleServer false) sampleRequest []).err = codes.InvalidArgument ∧
      invokedRpcs (local_request_Blockchain .GetBlock (sampleRuntime true false true) (.base 0)
        "inbound" (sampleServer false) sampleRequest []).trace = []) :=
  ⟨by decide,
    C4_decode_failure_is_invalid_argument (sampleRuntime true false true) .GetBlock (.base 0)
      "inbound" (sampleClient false) (sampleServer false) sampleRequest []
      (.plain "invalid URL escape") (by decide) (Or.inl rfl)⟩


/-- C5: errors of the service are forwarded unchanged: for each of the eighteen decoders,
whenever decoding succeeds and yields the request message `m`, the decoder makes exactly
one service call, with `m`, and returns exactly the message and the error that call
returned (so the status code is unchanged); and when that error is not nil the handler
hands this same error value, and no other, to the HTTP error writer. -/
theorem C5_service_result_forwarded_unchanged (R : Runtime) (rctx : Ctx) (mux : ServeMux)
    (rpc : Rpc) (ctx : Ctx) (mar : Marshaler) (client : BlockchainClient)
    (server : BlockchainServer) (req : Request) (pp : PathParams) (m : Message)
    (hd : decodesTo R rpc req m) :
    ((request_Blockchain rpc R ctx mar client req pp).msg = (client.method rpc ctx m).msg ∧
      (request_Blockchain rpc R ctx mar client req pp).err = (client.method rpc ctx m).err ∧
      status.Code (request_Blockchain rpc R ctx mar client req pp).err =
        status.Code (client.method rpc ctx m).err ∧
      (request_Blockchain rpc R ctx mar client req pp).trace.filter Event.isCall =
        [.ClientCall rpc ctx m]) ∧
    ((local_request_Blockchain rpc R ctx mar server req pp).msg = (server.method rpc ctx m).msg ∧
      (local_request_Blockchain rpc R ctx mar server req pp).err =
        (server.method rpc ctx m).err ∧
      status.Code (local_request_Blockchain rpc R ctx mar server req pp).err =
        status.Code (server.method rpc ctx m).err ∧
      (local_request_Blockchain rpc R ctx mar server req pp).trace.filter Event.isCall =
        [.ServerCall rpc ctx m]) ∧
    (∀ actx err, annotateClient R mux rpc req = .ok actx →
      (client.method rpc actx m).err = some err →
      (clientTrace R rctx mux client rpc req pp).filter Event.isHTTPError =
        [.HTTPError (Ctx.NewServerMetadataContext actx
            ⟨(client.method rpc actx m).header, (client.method rpc actx m).trailer⟩)
          (R.MarshalerForRequest mux req).2 err]) ∧
    (∀ actx err, annotateServer R mux rpc req = .ok actx →
      (server.method rpc actx m).err = some err →
      (serverTrace R rctx mux server rpc req pp).filter Event.isHTTPError =
        [.HTTPError (Ctx.NewServerMetadataContext actx
            ⟨R.Join [] (server.method rpc actx m).stream.Header,
             R.Join [] (server.method rpc actx m).stream.Trailer⟩)
          (R.MarshalerForRequest mux req).2 err]) := by
  refine ⟨?_, ?_, ?_, ?_⟩
  · rw [request_of_decodesTo R rpc ctx mar client req pp m hd]
    simp [List.filter_append, decodePrefix_quiet, Event.isCall]
  · rw [local_request_of_decodesTo R rpc ctx mar server req pp m hd]
    simp [List.filter_append, decodePrefix_quiet, Event.isCall]
  · intro actx err ha hs
    rw [clientTrace_service_error R rctx mux client rpc req pp actx m err ha hd hs]
    simp [List.filter_append, decodePrefix_quiet, Event.isHTTPError, List.filter_cons]
  · intro actx err ha hs
    rw [serverTrace_service_error R rctx mux server rpc req pp actx m err ha hd hs]
    simp [List.filter_append, decodePrefix_quiet, Event.isHTTPError, List.filter_cons]


theorem C5_service_result_forwarded_unchanged_witness :
    decodesTo (sampleRuntime true true true) .GetBlock sampleRequest
      ⟨"GetBlockRequest", [("q", "height=1")]⟩ ∧
    (request_Blockchain .GetBlock (sampleRuntime true true true) (.base 0) "inbound"
        (sampleClient true) sampleRequest []).err =
      ((sampleClient true).method .GetBlock (.base 0)
        ⟨"GetBlockRequest", [("q", "height=1")]⟩).err ∧
    (clientTrace (sampleRuntime true true true) (.base 0) sampleMux (sampleClient true) .GetBlock
        sampleRequest []).filter Event.isHTTPError =
      [.HTTPError (Ctx.NewServerMetadataContext (.annotated (clientCtx sampleRequest) 0) ⟨[], []⟩)
        "outbound" (.status 5 "not found")] :=
  ⟨sample_decodesTo,
    (C5_service_result_forwarded_unchanged (sampleRuntime true true true) (.base 0) sampleMux
      .GetBlock (.base 0) "inbound" (sampleClient true) (sampleServer true) sampleRequest []
      ⟨"GetBlockRequest", [("q", "height=1")]⟩ sample_decodesTo).1.2.1,
    (C5_service_result_forwarded_unchanged (sampleRuntime true true true) (.base 0) sampleMux
      .GetBlock (.base 0) "inbound" (sampleClient true) (sampleServer true) sampleRequest []
      ⟨"GetBlockRequest", [("q", "height=1")]⟩ sample_decodesTo).2.2.1
      (.annotated (clientCtx sampleRequest) 0) (.status 5 "not found") rfl rfl⟩

/-- C6 fails as stated: on a request whose form does not parse, the decoders of
`GetBlockchainInfo` and `GetConsensusInfo` never call `ParseForm`, return no
invalid-argument error and do reach the service. -/
theorem C6_counterexample :
    (sampleRuntime true false true).ParseForm sampleRequest =
      .error (.plain "invalid URL escape") ∧
    request_Blockchain_GetBlockchainInfo_0 (sampleRuntime true false true) (.base 0) "inbound"
        (sampleClient false) sampleRequest [] =
      ⟨some ⟨"Response", []⟩, ⟨[("h", ["1"])], []⟩, none,
        [.ClientCall .GetBlockchainInfo (.base 0) ⟨"GetBlockchainInfoRequest", []⟩]⟩ ∧
    local_request_Blockchain_GetConsensusInfo_0 (sampleRuntime true false true) (.base 0)
        "inbound" (sampleServer false) sampleRequest [] =
      ⟨some ⟨"Response", []⟩, ⟨[], []⟩, none,
        [.ServerCall .GetConsensusInfo (.base 0) ⟨"GetConsensusInfoRequest", []⟩],
        ⟨[("h", ["1"])], []⟩⟩ ∧
    ¬ (∀ (rpc : Rpc) (R : Runtime) (ctx : Ctx) (mar : Marshaler) (client : BlockchainClient)
        (req : Request) (pp : PathParams) (e : GoError), R.ParseForm req = .error e →
        status.Code (request_Blockchain rpc R ctx mar client req pp).err = codes.InvalidArgument ∧
        invokedRpcs (request_Blockchain rpc R ctx mar client req pp).trace = []) := by
  refine ⟨rfl, by decide, by decide, ?_⟩
  intro h
  have h1 := (h .GetBlockchainInfo (sampleRuntime true false true) (.base 0) "inbound"
    (sampleClient false) sampleRequest [] (.plain "invalid URL escape") rfl).2
  revert h1
  decide

/-- C6, amended: the seven RPCs that take their request from the query parse the form
and populate the request before they call the service (the trace of a successful decode is
`ParseForm`, `PopulateQueryParameters`, then the call), and reject a form that does not
parse with an invalid-argument error without reaching the service; `GetBlockchainInfo`
and `GetConsensusInfo` decode nothing: whatever the form, their decoders call the service
at once with a zero-valued request and return what it returns. -/
theorem C6_query_rpcs_parse_before_call (R : Runtime) (rpc : Rpc) (ctx : Ctx)
    (mar : Marshaler) (client : BlockchainClient) (server : BlockchainServer) (req : Request)
    (pp : PathParams) :
    if rpc ∈ queryRpcs then
      (∀ e, R.ParseForm req = .error e →
        request_Blockchain rpc R ctx mar client req pp =
          ⟨none, {}, some (.status codes.InvalidArgument e.Error), [.ParseForm]⟩ ∧
        local_request_Blockchain rpc R ctx mar server req pp =
          ⟨none, {}, some (.status codes.InvalidArgument e.Error), [.ParseForm], {}⟩) ∧
      (∀ form m, R.ParseForm req = .ok form →
        R.PopulateQueryParameters (Message.zero (rpc.name ++ "Request")) form ⟨[], [], []⟩ =
          .ok m →
        (request_Blockchain rpc R ctx mar client req pp).trace =
          [.ParseForm,
           .PopulateQueryParameters (Message.zero (rpc.name ++ "Request")) form ⟨[], [], []⟩,
           .ClientCall rpc ctx m] ∧
        (local_request_Blockchain rpc R ctx mar server req pp).trace =
          [.ParseForm,
           .PopulateQueryParameters (Message.zero (rpc.name ++ "Request")) form ⟨[], [], []⟩,
           .ServerCall rpc ctx m])
    else
      (rpc = .GetBlockchainInfo ∨ rpc = .GetConsensusInfo) ∧
      request_Blockchain rpc R ctx mar client req pp =
        ⟨(client.method rpc ctx (Message.zero (rpc.name ++ "Request"))).msg,
          ⟨(client.method rpc ctx (Message.zero (rpc.name ++ "Request"))).header,
           (client.method rpc ctx (Message.zero (rpc.name ++ "Request"))).trailer⟩,
          (client.method rpc ctx (Message.zero (rpc.name ++ "Request"))).err,
          [.ClientCall rpc ctx (Message.zero (rpc.name ++ "Request"))]⟩ ∧
      local_request_Blockchain rpc R ctx mar server req pp =
        ⟨(server.method rpc ctx (Message.zero (rpc.name ++ "Request"))).msg, {},
          (server.method rpc ctx (Message.zero (rpc.name ++ "Request"))).err,
          [.ServerCall rpc ctx (Message.zero (rpc.name ++ "Request"))],
          (server.method rpc ctx (Message.zero (rpc.name ++ "Request"))).stream⟩ := by
  by_cases hq : rpc ∈ queryRpcs
  · rw [if_pos hq]
    refine ⟨fun e he => ?_, fun form m hp hpop => ?_⟩
    · have hd := decodeFails_of_query R rpc req e hq (Or.inl he)
      rw [request_of_decodeFails R rpc ctx mar client req pp e hd,
        local_request_of_decodeFails R rpc ctx mar server req pp e hd]
      have hpre : decodePrefix R rpc req = [.ParseForm] := by
        unfold decodePrefix
        rw [filter_of_queryRpc rpc hq]
        simp [he]
      rw [hpre]
      exact ⟨rfl, rfl⟩
    · have hd := decodesTo_of_query R rpc req form m hq hp hpop
      rw [request_of_decodesTo R rpc ctx mar client req pp m hd,
        local_request_of_decodesTo R rpc ctx mar server req pp m hd,
        decodePrefix_of_query R rpc req form hq hp]
      exact ⟨rfl, rfl⟩
  · rw [if_neg hq]
    have hd : decodesTo R rpc req (Message.zero (rpc.name ++ "Request")) := by
      unfold decodesTo
      rw [filter_none_of_not_queryRpc rpc hq]
    have hpre : decodePrefix R rpc req = [] := by
      unfold decodePrefix
      rw [filter_none_of_not_queryRpc rpc hq]
    rw [request_of_decodesTo R rpc ctx mar client req pp _ hd,
      local_request_of_decodesTo R rpc ctx mar server req pp _ hd, hpre]
    refine ⟨?_, rfl, rfl⟩
    revert hq
    cases rpc <;> decide

/-- C7: for each of the seven query-decoding RPCs, the filter the file declares is the
empty double array, and when form parsing and population both succeed the one service call
of either decoder carries exactly the message obtained by populating a zero-valued message
of the RPC's own request type (`<RPC>Request`) from the complete form with that empty
filter. -/
theorem C7_populated_request_reaches_service (R : Runtime) (rpc : Rpc) (ctx : Ctx)
    (mar : Marshaler) (client : BlockchainClient) (server : BlockchainServer) (req : Request)
    (pp : PathParams) (form : Form) (m : Message) (hq : rpc ∈ queryRpcs)
    (hp : R.ParseForm req = .ok form)
    (hpop : R.PopulateQueryParameters (Message.zero (rpc.name ++ "Request")) form
      ⟨[], [], []⟩ = .ok m) :
    filter_Blockchain rpc = some ⟨[], [], []⟩ ∧
    (request_Blockchain rpc R ctx mar client req pp).trace =
      [.ParseForm,
       .PopulateQueryParameters (Message.zero (rpc.name ++ "Request")) form ⟨[], [], []⟩,
       .ClientCall rpc ctx m] ∧
    (local_request_Blockchain rpc R ctx mar server req pp).trace =
      [.ParseForm,
       .PopulateQueryParameters (Message.zero (rpc.name ++ "Request")) form ⟨[], [], []⟩,
       .ServerCall rpc ctx m] := by
  have hd := decodesTo_of_query R rpc req form m hq hp hpop
  rw [request_of_decodesTo R rpc ctx mar client req pp m hd,
    local_request_of_decodesTo R rpc ctx mar server req pp m hd,
    decodePrefix_of_query R rpc req form hq hp]
  exact ⟨filter_of_queryRpc rpc hq, rfl, rfl⟩

theorem C7_populated_request_reaches_service_witness :
    (Rpc.GetAccount ∈ queryRpcs) ∧
    (sampleRuntime true true true).ParseForm sampleRequest = .ok [("q", ["height=1"])] ∧
    (sampleRuntime true true true).PopulateQueryParameters
      (Message.zero (Rpc.GetAccount.name ++ "Request")) [("q", ["height=1"])] ⟨[], [], []⟩ =
        .ok ⟨"GetAccountRequest", [("q", "height=1")]⟩ ∧
    (request_Blockchain .GetAccount (sampleRuntime true true true) (.base 0) "inbound"
        (sampleClient false) sampleRequest []).trace =
      [.ParseForm,
       .PopulateQueryParameters (Message.zero (Rpc.GetAccount.name ++ "Request"))
         [("q", ["height=1"])] ⟨[], [], []⟩,
       .ClientCall .GetAccount (.base 0) ⟨"GetAccountRequest", [("q", "height=1")]⟩] :=
  ⟨by decide, rfl, congrArg Except.ok (by decide),
    (C7_populated_request_reaches_service (sampleRuntime true true true) .GetAccount (.base 0)
      "inbound" (sampleClient false) (sampleServer false) sampleRequest [] [("q", ["height=1"])]
      ⟨"GetAccountRequest", [("q", "height=1")]⟩ (by decide) rfl
      (congrArg Except.ok (by decide))).2.1⟩


/-- C8: every handler registered by either registration function ends in exactly one
response action: of the HTTP error writer and the response forwarder exactly one is
called, exactly once; the error writer is the one called if and only if context
annotation or the decoder returned a non-nil error; otherwise the forwarder, which is
`ForwardResponseMessage` for all nine RPCs, receives the response message of the service
call unmodified together with the outbound marshaler. -/
theorem C8_exactly_one_response_action (R : Runtime) (ctx : Ctx) (mux : ServeMux)
    (server : BlockchainServer) (client : BlockchainClient) (rpc : Rpc) (req : Request)
    (pp : PathParams) :
    forward_Blockchain rpc = .ForwardResponseMessage ∧
    ((clientTrace R ctx mux client rpc req pp).countP Event.isHTTPError +
        (clientTrace R ctx mux client rpc req pp).countP Event.isForward = 1 ∧
      ((clientTrace R ctx mux client rpc req pp).countP Event.isHTTPError = 1 ↔
        clientFailure R mux client rpc req pp) ∧
      ((clientTrace R ctx mux client rpc req pp).countP Event.isForward = 1 ↔
        ¬ clientFailure R mux client rpc req pp) ∧
      (¬ clientFailure R mux client rpc req pp →
        ∃ actx m c, Event.ClientCall rpc actx m ∈ clientTrace R ctx mux client rpc req pp ∧
          (clientTrace R ctx mux client rpc req pp).filter Event.isForward =
            [.Forward .ForwardResponseMessage c (R.MarshalerForRequest mux req).2
              (client.method rpc actx m).msg mux.GetForwardResponseOptions])) ∧
    ((serverTrace R ctx mux server rpc req pp).countP Event.isHTTPError +
        (serverTrace R ctx mux server rpc req pp).countP Event.isForward = 1 ∧
      ((serverTrace R ctx mux server rpc req pp).countP Event.isHTTPError = 1 ↔
        serverFailure R mux server rpc req pp) ∧
      ((serverTrace R ctx mux server rpc req pp).countP Event.isForward = 1 ↔
        ¬ serverFailure R mux server rpc req pp) ∧
      (¬ serverFailure R mux server rpc req pp →
        ∃ actx m c, Event.ServerCall rpc actx m ∈ serverTrace R ctx mux server rpc req pp ∧
          (serverTrace R ctx mux server rpc req pp).filter Event.isForward =
            [.Forward .ForwardResponseMessage c (R.MarshalerForRequest mux req).2
              (server.method rpc actx m).msg mux.GetForwardResponseOptions])) := by
  refine ⟨forward_Blockchain_eq rpc, ?_, ?_⟩
  · rcases clientTrace_cases R mux client rpc req with
      ⟨err, ha⟩ | ⟨actx, e, ha, hd⟩ | ⟨actx, m, err, ha, hd, hs⟩ | ⟨actx, m, ha, hd, hs⟩
    · have hf : clientFailure R mux client rpc req pp := Or.inl ⟨err, ha⟩
      rw [clientTrace_annotate_error R ctx mux client rpc req pp err ha]
      simp [hf, Event.isHTTPError, Event.isForward, List.countP_cons]
    · have hf : clientFailure R mux client rpc req pp :=
        Or.inr ⟨actx, _, ha, by rw [request_of_decodeFails R rpc actx _ client req pp e hd]⟩
      rw [clientTrace_decode_error R ctx mux client rpc req pp actx e ha hd]
      simp [hf, Event.isHTTPError, Event.isForward, List.countP_cons, List.countP_append,
        decodePrefix_quiet]
    · have hf : clientFailure R mux client rpc req pp :=
        Or.inr ⟨actx, err, ha, by rw [request_of_decodesTo R rpc actx _ client req pp m hd, hs]⟩
      rw [clientTrace_service_error R ctx mux client rpc req pp actx m err ha hd hs]
      simp [hf, Event.isHTTPError, Event.isForward, List.countP_cons, List.countP_append,
        decodePrefix_quiet]
    · have hf : ¬ clientFailure R mux client rpc req pp := by
        rintro (⟨err, he⟩ | ⟨actx2, err, ha2, he⟩)
        · rw [ha] at he
          cases he
        · rw [ha] at ha2
          cases ha2
          rw [request_of_decodesTo R rpc actx _ client req pp m hd, hs] at he
          cases he
      rw [clientTrace_success R ctx mux client rpc req pp actx m ha hd hs]
      simp only [hf, not_false_eq_true, iff_true, iff_false, true_implies]
      refine ⟨?_, ?_, ?_, actx, m, Ctx.NewServerMetadataContext actx
        ⟨(client.method rpc actx m).header, (client.method rpc actx m).trailer⟩, ?_, ?_⟩ <;>
        simp [Event.isHTTPError, Event.isForward, List.countP_cons, List.countP_append,
          List.filter_cons, decodePrefix_quiet]
  · rcases serverTrace_cases R mux server rpc req with
      ⟨err, ha⟩ | ⟨actx, e, ha, hd⟩ | ⟨actx, m, err, ha, hd, hs⟩ | ⟨actx, m, ha, hd, hs⟩
    · have hf : serverFailure R mux server rpc req pp := Or.inl ⟨err, ha⟩
      rw [serverTrace_annotate_error R ctx mux server rpc req pp err ha]
      simp [hf, Event.isHTTPError, Event.isForward, List.countP_cons]
    · have hf : serverFailure R mux server rpc req pp :=
        Or.inr ⟨actx, _, ha, by rw [local_request_of_decodeFails R rpc actx _ server req pp e hd]⟩
      rw [serverTrace_decode_error R ctx mux server rpc req pp actx e ha hd]
      simp [hf, Event.isHTTPError, Event.isForward, List.countP_cons, List.countP_append,
        decodePrefix_quiet]
    · have hf : serverFailure R mux server rpc req pp :=
        Or.inr ⟨actx, err, ha,
          by rw [local_request_of_decodesTo R rpc actx _ server req pp m hd, hs]⟩
      rw [serverTrace_service_error R ctx mux server rpc req pp actx m err ha hd hs]
      simp [hf, Event.isHTTPError, Event.isForward, List.countP_cons, List.countP_append,
        decodePrefix_quiet]
    · have hf : ¬ serverFailure R mux server rpc req pp := by
        rintro (⟨err, he⟩ | ⟨actx2, err, ha2, he⟩)
        · rw [ha] at he
          cases he
        · rw [ha] at ha2
          cases ha2
          rw [local_request_of_decodesTo R rpc actx _ server req pp m hd, hs] at he
          cases he
      rw [serverTrace_success R ctx mux server rpc req pp actx m ha hd hs]
      simp only [hf, not_false_eq_true, iff_true, iff_false, true_implies]
      refine ⟨?_, ?_, ?_, actx, m, Ctx.NewServerMetadataContext actx
        ⟨R.Join [] (server.method rpc actx m).stream.Header,
         R.Join [] (server.method rpc actx m).stream.Trailer⟩, ?_, ?_⟩ <;>
        simp [Event.isHTTPError, Event.isForward, List.countP_cons, List.countP_append,
          List.filter_cons, decodePrefix_quiet]


/-- C9: no retries and no local recovery: while handling one request a handler invokes
the service at most once; exactly once when context annotation and query decoding both
succeed, and not at all when either fails; and when the service returns an error, the
call is directly followed by the report of that very error to the HTTP error writer and
the release of the context, with no service call before it. -/
theorem C9_service_invoked_at_most_once (R : Runtime) (ctx : Ctx) (mux : ServeMux)
    (server : BlockchainServer) (client : BlockchainClient) (rpc : Rpc) (req : Request)
    (pp : PathParams) :
    ((clientTrace R ctx mux client rpc req pp).countP Event.isCall ≤ 1 ∧
      ((clientTrace R ctx mux client rpc req pp).countP Event.isCall = 1 ↔
        ∃ actx m, annotateClient R mux rpc req = .ok actx ∧ decodesTo R rpc req m) ∧
      ((clientTrace R ctx mux client rpc req pp).countP Event.isCall = 0 ↔
        (∃ err, annotateClient R mux rpc req = .error err) ∨ ∃ e, decodeFails R rpc req e) ∧
      (∀ actx m err, annotateClient R mux rpc req = .ok actx → decodesTo R rpc req m →
        (client.method rpc actx m).err = some err →
        ∃ pre c,
          clientTrace R ctx mux client rpc req pp =
            pre ++ [.ClientCall rpc actx m, .HTTPError c (R.MarshalerForRequest mux req).2 err,
              .cancel] ∧
          pre.countP Event.isCall = 0)) ∧
    ((serverTrace R ctx mux server rpc req pp).countP Event.isCall ≤ 1 ∧
      ((serverTrace R ctx mux server rpc req pp).countP Event.isCall = 1 ↔
        ∃ actx m, annotateServer R mux rpc req = .ok actx ∧ decodesTo R rpc req m) ∧
      ((serverTrace R ctx mux server rpc req pp).countP Event.isCall = 0 ↔
        (∃ err, annotateServer R mux rpc req = .error err) ∨ ∃ e, decodeFails R rpc req e) ∧
      (∀ actx m err, annotateServer R mux rpc req = .ok actx → decodesTo R rpc req m →
        (server.method rpc actx m).err = some err →
        ∃ pre c,
          serverTrace R ctx mux server rpc req pp =
            pre ++ [.ServerCall rpc actx m, .HTTPError c (R.MarshalerForRequest mux req).2 err,
              .cancel] ∧
          pre.countP Event.isCall = 0)) := by
  refine ⟨?_, ?_⟩
  · rcases clientTrace_cases R mux client rpc req with
      ⟨err, ha⟩ | ⟨actx, e, ha, hd⟩ | ⟨actx, m, err, ha, hd, hs⟩ | ⟨actx, m, ha, hd, hs⟩
    · have hc : (clientTrace R ctx mux client rpc req pp).countP Event.isCall = 0 := by
        rw [clientTrace_annotate_error R ctx mux client rpc req pp err ha]
        simp [Event.isCall, List.countP_cons, List.countP_append, decodePrefix_quiet]
      rw [hc]
      refine ⟨by decide, ⟨fun h => absurd h (by decide), ?_⟩,
        ⟨fun _ => Or.inl ⟨err, ha⟩, fun _ => rfl⟩, ?_⟩
      · rintro ⟨actx, m, ha2, _⟩
        rw [ha] at ha2
        cases ha2
      · intro actx m err2 ha2 _ _
        rw [ha] at ha2
        cases ha2
    · have hno : ∀ m, ¬ decodesTo R rpc req m :=
        fun m hm => decodesTo_not_decodeFails R rpc req m e hm hd
      have hc : (clientTrace R ctx mux client rpc req pp).countP Event.isCall = 0 := by
        rw [clientTrace_decode_error R ctx mux client rpc req pp actx e ha hd]
        simp [Event.isCall, List.countP_cons, List.countP_append, decodePrefix_quiet]
      rw [hc]
      refine ⟨by decide, ⟨fun h => absurd h (by decide), ?_⟩,
        ⟨fun _ => Or.inr ⟨e, hd⟩, fun _ => rfl⟩, ?_⟩
      · rintro ⟨actx2, m, _, hm⟩
        exact absurd hm (hno m)
      · intro actx2 m err2 _ hm _
        exact absurd hm (hno m)
    · have hno : ∀ e, ¬ decodeFails R rpc req e :=
        fun e he => decodesTo_not_decodeFails R rpc req m e hd he
      have hc : (clientTrace R ctx mux client rpc req pp).countP Event.isCall = 1 := by
        rw [clientTrace_service_error R ctx mux client rpc req pp actx m err ha hd hs]
        simp [Event.isCall, List.countP_cons, List.countP_append, decodePrefix_quiet]
      rw [hc]
      refine ⟨le_refl 1, ⟨fun _ => ⟨actx, m, ha, hd⟩, fun _ => rfl⟩,
        ⟨fun h => absurd h (by decide), ?_⟩, ?_⟩
      · rintro (⟨err2, he⟩ | ⟨e, he⟩)
        · rw [ha] at he
          cases he
        · exact absurd he (hno e)
      · intro actx2 m2 err2 ha2 hm2 hs2
        rw [ha] at ha2
        cases ha2
        have hmm : m2 = m := decodesTo_unique R rpc req m2 m hm2 hd
        subst hmm
        rw [hs] at hs2
        cases hs2
        rw [clientTrace_service_error R ctx mux client rpc req pp actx m2 err ha hd hs]
        exact ⟨_, _, rfl, by simp [Event.isCall, List.countP_cons, List.countP_append, decodePrefix_quiet]⟩
    · have hno : ∀ e, ¬ decodeFails R rpc req e :=
        fun e he => decodesTo_not_decodeFails R rpc req m e hd he
      have hc : (clientTrace R ctx mux client rpc req pp).countP Event.isCall = 1 := by
        rw [clientTrace_success R ctx mux client rpc req pp actx m ha hd hs]
        simp [Event.isCall, List.countP_cons, List.countP_append, decodePrefix_quiet]
      rw [hc]
      refine ⟨le_refl 1, ⟨fun _ => ⟨actx, m, ha, hd⟩, fun _ => rfl⟩,
        ⟨fun h => absurd h (by decide), ?_⟩, ?_⟩
      · rintro (⟨err2, he⟩ | ⟨e, he⟩)
        · rw [ha] at he
          cases he
        · exact absurd he (hno e)
      · intro actx2 m2 err2 ha2 hm2 hs2
        rw [ha] at ha2
        cases ha2
        have hmm : m2 = m := decodesTo_unique R rpc req m2 m hm2 hd
        subst hmm
        rw [hs] at hs2
        cases hs2
  · rcases serverTrace_cases R mux server rpc req with
      ⟨err, ha⟩ | ⟨actx, e, ha, hd⟩ | ⟨actx, m, err, ha, hd, hs⟩ | ⟨actx, m, ha, hd, hs⟩
    · have hc : (serverTrace R ctx mux server rpc req pp).countP Event.isCall = 0 := by
        rw [serverTrace_annotate_error R ctx mux server rpc req pp err ha]
        simp [Event.isCall, List.countP_cons, List.countP_append, decodePrefix_quiet]
      rw [hc]
      refine ⟨by decide, ⟨fun h => absurd h (by decide), ?_⟩,
        ⟨fun _ => Or.inl ⟨err, ha⟩, fun _ => rfl⟩, ?_⟩
      · rintro ⟨actx, m, ha2, _⟩
        rw [ha] at ha2
        cases ha2
      · intro actx m err2 ha2 _ _
        rw [ha] at ha2
        cases ha2
    · have hno : ∀ m, ¬ decodesTo R rpc req m :=
        fun m hm => decodesTo_not_decodeFails R rpc req m e hm hd
      have hc : (serverTrace R ctx mux server rpc req pp).countP Event.isCall = 0 := by
        rw [serverTrace_decode_error R ctx mux server rpc req pp actx e ha hd]
        simp [Event.isCall, List.countP_cons, List.countP_append, decodePrefix_quiet]
      rw [hc]
      refine ⟨by decide, ⟨fun h => absurd h (by decide), ?_⟩,
        ⟨fun _ => Or.inr ⟨e, hd⟩, fun _ => rfl⟩, ?_⟩
      · rintro ⟨actx2, m, _, hm⟩
        exact absurd hm (hno m)
      · intro actx2 m err2 _ hm _
        exact absurd hm (hno m)
    · have hno : ∀ e, ¬ decodeFails R rpc req e :=
        fun e he => decodesTo_not_decodeFails R rpc req m e hd he
      have hc : (serverTrace R ctx mux server rpc req pp).countP Event.isCall = 1 := by
        rw [serverTrace_service_error R ctx mux server rpc req pp actx m err ha hd hs]
        simp [Event.isCall, List.countP_cons, List.countP_append, decodePrefix_quiet]
      rw [hc]
      refine ⟨le_refl 1, ⟨fun _ => ⟨actx, m, ha, hd⟩, fun _ => rfl⟩,
        ⟨fun h => absurd h (by decide), ?_⟩, ?_⟩
      · rintro (⟨err2, he⟩ | ⟨e, he⟩)
        · rw [ha] at he
          cases he
        · exact absurd he (hno e)
      · intro actx2 m2 err2 ha2 hm2 hs2
        rw [ha] at ha2
        cases ha2
        have hmm : m2 = m := decodesTo_unique R rpc req m2 m hm2 hd
        subst hmm
        rw [hs] at hs2
        cases hs2
        rw [serverTrace_service_error R ctx mux server rpc req pp actx m2 err ha hd hs]
        exact ⟨_, _, rfl, by simp [Event.isCall, List.countP_cons, List.countP_append, decodePrefix_quiet]⟩
    · have hno : ∀ e, ¬ decodeFails R rpc req e :=
        fun e he => decodesTo_not_decodeFails R rpc req m e hd he
      have hc : (serverTrace R ctx mux server rpc req pp).countP Event.isCall = 1 := by
        rw [serverTrace_success R ctx mux server rpc req pp actx m ha hd hs]
        simp [Event.isCall, List.countP_cons, List.countP_append, decodePrefix_quiet]
      rw [hc]
      refine ⟨le_refl 1, ⟨fun _ => ⟨actx, m, ha, hd⟩, fun _ => rfl⟩,
        ⟨fun h => absurd h (by decide), ?_⟩, ?_⟩
      · rintro (⟨err2, he⟩ | ⟨e, he⟩)
        · rw [ha] at he
          cases he
        · exact absurd he (hno e)
      · intro actx2 m2 err2 ha2 hm2 hs2
        rw [ha] at ha2
        cases ha2
        have hmm : m2 = m := decodesTo_unique R rpc req m2 m hm2 hd
        subst hmm
        rw [hs] at hs2
        cases hs2


/-- C10: every handler derives its working context as a cancellable child of the
context of the HTTP request (the first effect is `context.WithCancel` on `req.Context()`
and the context handed to annotation is that child, wrapped with the transport stream on
the server path) and releases it when it returns: on every exit path the cancel function
is called exactly once, as the last effect, directly after the single call of the error
writer or of the forwarder. -/
theorem C10_context_cancelled_last (R : Runtime) (ctx : Ctx) (mux : ServeMux)
    (server : BlockchainServer) (client : BlockchainClient) (rpc : Rpc) (req : Request)
    (pp : PathParams) :
    ((∃ pre e,
        clientTrace R ctx mux client rpc req pp =
          Event.WithCancel req.Context ::
            Event.AnnotateContext (Ctx.WithCancel req.Context) rpc.fullMethod (documentedPath rpc) ::
              (pre ++ [e, Event.cancel]) ∧
        (e.isHTTPError = true ∨ e.isForward = true) ∧
        pre.countP Event.isHTTPError = 0 ∧ pre.countP Event.isForward = 0) ∧
      (clientTrace R ctx mux client rpc req pp).countP Event.isCancel = 1 ∧
      (clientTrace R ctx mux client rpc req pp).getLast? = some Event.cancel) ∧
    ((∃ pre e,
        serverTrace R ctx mux server rpc req pp =
          Event.WithCancel req.Context ::
            Event.AnnotateIncomingContext (Ctx.NewContextWithServerTransportStream (Ctx.WithCancel req.Context)) rpc.fullMethod (documentedPath rpc) ::
              (pre ++ [e, Event.cancel]) ∧
        (e.isHTTPError = true ∨ e.isForward = true) ∧
        pre.countP Event.isHTTPError = 0 ∧ pre.countP Event.isForward = 0) ∧
      (serverTrace R ctx mux server rpc req pp).countP Event.isCancel = 1 ∧
      (serverTrace R ctx mux server rpc req pp).getLast? = some Event.cancel) := by
  refine ⟨?_, ?_⟩
  · rcases clientTrace_cases R mux client rpc req with
      ⟨err, ha⟩ | ⟨actx, e, ha, hd⟩ | ⟨actx, m, err, ha, hd, hs⟩ | ⟨actx, m, ha, hd, hs⟩
    · rw [clientTrace_annotate_error R ctx mux client rpc req pp err ha]
      refine ⟨⟨[],
        Event.HTTPError (clientCtx req) (R.MarshalerForRequest mux req).2 err,
        by simp [clientCtx, serverCtx], ?_, ?_, ?_⟩, ?_, ?_⟩
      · simp [Event.isHTTPError, Event.isForward]
      · simp [Event.isHTTPError, Event.isCall, List.countP_cons, List.countP_append,
          decodePrefix_quiet]
      · simp [Event.isForward, Event.isCall, List.countP_cons, List.countP_append,
          decodePrefix_quiet]
      · simp [Event.isCancel, List.countP_cons, List.countP_append, decodePrefix_quiet]
      · have h := getLast?_append_cancel
          (Event.WithCancel req.Context ::
            Event.AnnotateContext (clientCtx req) rpc.fullMethod (documentedPath rpc) :: ([]))
          (Event.HTTPError (clientCtx req) (R.MarshalerForRequest mux req).2 err)
        exact h
    · rw [clientTrace_decode_error R ctx mux client rpc req pp actx e ha hd]
      refine ⟨⟨decodePrefix R rpc req,
        Event.HTTPError (Ctx.NewServerMetadataContext actx {}) (R.MarshalerForRequest mux req).2
          (.status codes.InvalidArgument e.Error),
        by simp [clientCtx, serverCtx], ?_, ?_, ?_⟩, ?_, ?_⟩
      · simp [Event.isHTTPError, Event.isForward]
      · simp [Event.isHTTPError, Event.isCall, List.countP_cons, List.countP_append,
          decodePrefix_quiet]
      · simp [Event.isForward, Event.isCall, List.countP_cons, List.countP_append,
          decodePrefix_quiet]
      · simp [Event.isCancel, List.countP_cons, List.countP_append, decodePrefix_quiet]
      · have h := getLast?_append_cancel
          (Event.WithCancel req.Context ::
            Event.AnnotateContext (clientCtx req) rpc.fullMethod (documentedPath rpc) :: (decodePrefix R rpc req))
          (Event.HTTPError (Ctx.NewServerMetadataContext actx {}) (R.MarshalerForRequest mux req).2
          (.status codes.InvalidArgument e.Error))
        simpa using h
    · rw [clientTrace_service_error R ctx mux client rpc req pp actx m err ha hd hs]
      refine ⟨⟨decodePrefix R rpc req ++ [Event.ClientCall rpc actx m],
        Event.HTTPError (Ctx.NewServerMetadataContext actx ⟨(client.method rpc actx m).header, (client.method rpc actx m).trailer⟩)
          (R.MarshalerForRequest mux req).2 err,
        by simp [clientCtx, serverCtx], ?_, ?_, ?_⟩, ?_, ?_⟩
      · simp [Event.isHTTPError, Event.isForward]
      · simp [Event.isHTTPError, Event.isCall, List.countP_cons, List.countP_append,
          decodePrefix_quiet]
      · simp [Event.isForward, Event.isCall, List.countP_cons, List.countP_append,
          decodePrefix_quiet]
      · simp [Event.isCancel, List.countP_cons, List.countP_append, decodePrefix_quiet]
      · have h := getLast?_append_cancel
          (Event.WithCancel req.Context ::
            Event.AnnotateContext (clientCtx req) rpc.fullMethod (documentedPath rpc) :: (decodePrefix R rpc req ++ [Event.ClientCall rpc actx m]))
          (Event.HTTPError (Ctx.NewServerMetadataContext actx ⟨(client.method rpc actx m).header, (client.method rpc actx m).trailer⟩)
          (R.MarshalerForRequest mux req).2 err)
        simpa using h
    · rw [clientTrace_success R ctx mux client rpc req pp actx m ha hd hs]
      refine ⟨⟨decodePrefix R rpc req ++ [Event.ClientCall rpc actx m],
        Event.Forward .ForwardResponseMessage (Ctx.NewServerMetadataContext actx ⟨(client.method rpc actx m).header, (client.method rpc actx m).trailer⟩)
          (R.MarshalerForRequest mux req).2 (client.method rpc actx m).msg mux.GetForwardResponseOptions,
        by simp [clientCtx, serverCtx], ?_, ?_, ?_⟩, ?_, ?_⟩
      · simp [Event.isHTTPError, Event.isForward]
      · simp [Event.isHTTPError, Event.isCall, List.countP_cons, List.countP_append,
          decodePrefix_quiet]
      · simp [Event.isForward, Event.isCall, List.countP_cons, List.countP_append,
          decodePrefix_quiet]
      · simp [Event.isCancel, List.countP_cons, List.countP_append, decodePrefix_quiet]
      · have h := getLast?_append_cancel
          (Event.WithCancel req.Context ::
            Event.AnnotateContext (clientCtx req) rpc.fullMethod (documentedPath rpc) :: (decodePrefix R rpc req ++ [Event.ClientCall rpc actx m]))
          (Event.Forward .ForwardResponseMessage (Ctx.NewServerMetadataContext actx ⟨(client.method rpc actx m).header, (client.method rpc actx m).trailer⟩)
          (R.MarshalerForRequest mux req).2 (client.method rpc actx m).msg mux.GetForwardResponseOptions)
        simpa using h
  · rcases serverTrace_cases R mux server rpc req with
      ⟨err, ha⟩ | ⟨actx, e, ha, hd⟩ | ⟨actx, m, err, ha, hd, hs⟩ | ⟨actx, m, ha, hd, hs⟩
    · rw [serverTrace_annotate_error R ctx mux server rpc req pp err ha]
      refine ⟨⟨[],
        Event.HTTPError (serverCtx req) (R.MarshalerForRequest mux req).2 err,
        by simp [clientCtx, serverCtx], ?_, ?_, ?_⟩, ?_, ?_⟩
      · simp [Event.isHTTPError, Event.isForward]
      · simp [Event.isHTTPError, Event.isCall, List.countP_cons, List.countP_append,
          decodePrefix_quiet]
      · simp [Event.isForward, Event.isCall, List.countP_cons, List.countP_append,
          decodePrefix_quiet]
      · simp [Event.isCancel, List.countP_cons, List.countP_append, decodePrefix_quiet]
      · have h := getLast?_append_cancel
          (Event.WithCancel req.Context ::
            Event.AnnotateIncomingContext (serverCtx req) rpc.fullMethod (documentedPath rpc) :: ([]))
          (Event.HTTPError (serverCtx req) (R.MarshalerForRequest mux req).2 err)
        exact h
    · rw [serverTrace_decode_error R ctx mux server rpc req pp actx e ha hd]
      refine ⟨⟨decodePrefix R rpc req,
        Event.HTTPError (Ctx.NewServerMetadataContext actx ⟨R.Join [] [], R.Join [] []⟩) (R.MarshalerForRequest mux req).2
          (.status codes.InvalidArgument e.Error),
        by simp [clientCtx, serverCtx], ?_, ?_, ?_⟩, ?_, ?_⟩
      · simp [Event.isHTTPError, Event.isForward]
      · simp [Event.isHTTPError, Event.isCall, List.countP_cons, List.countP_append,
          decodePrefix_quiet]
      · simp [Event.isForward, Event.isCall, List.countP_cons, List.countP_append,
          decodePrefix_quiet]
      · simp [Event.isCancel, List.countP_cons, List.countP_append, decodePrefix_quiet]
      · have h := getLast?_append_cancel
          (Event.WithCancel req.Context ::
            Event.AnnotateIncomingContext (serverCtx req) rpc.fullMethod (documentedPath rpc) :: (decodePrefix R rpc req))
          (Event.HTTPError (Ctx.NewServerMetadataContext actx ⟨R.Join [] [], R.Join [] []⟩) (R.MarshalerForRequest mux req).2
          (.status codes.InvalidArgument e.Error))
        simpa using h
    · rw [serverTrace_service_error R ctx mux server rpc req pp actx m err ha hd hs]
      refine ⟨⟨decodePrefix R rpc req ++ [Event.ServerCall rpc actx m],
        Event.HTTPError (Ctx.NewServerMetadataContext actx ⟨R.Join [] (server.method rpc actx m).stream.Header, R.Join [] (server.method rpc actx m).stream.Trailer⟩)
          (R.MarshalerForRequest mux req).2 err,
        by simp [clientCtx, serverCtx], ?_, ?_, ?_⟩, ?_, ?_⟩
      · simp [Event.isHTTPError, Event.isForward]
      · simp [Event.isHTTPError, Event.isCall, List.countP_cons, List.countP_append,
          decodePrefix_quiet]
      · simp [Event.isForward, Event.isCall, List.countP_cons, List.countP_append,
          decodePrefix_quiet]
      · simp [Event.isCancel, List.countP_cons, List.countP_append, decodePrefix_quiet]
      · have h := getLast?_append_cancel
          (Event.WithCancel req.Context ::
            Event.AnnotateIncomingContext (serverCtx req) rpc.fullMethod (documentedPath rpc) :: (decodePrefix R rpc req ++ [Event.ServerCall rpc actx m]))
          (Event.HTTPError (Ctx.NewServerMetadataContext actx ⟨R.Join [] (server.method rpc actx m).stream.Header, R.Join [] (server.method rpc actx m).stream.Trailer⟩)
          (R.MarshalerForRequest mux req).2 err)
        simpa using h
    · rw [serverTrace_success R ctx mux server rpc req pp actx m ha hd hs]
      refine ⟨⟨decodePrefix R rpc req ++ [Event.ServerCall rpc actx m],
        Event.Forward .ForwardResponseMessage (Ctx.NewServerMetadataContext actx ⟨R.Join [] (server.method rpc actx m).stream.Header, R.Join [] (server.method rpc actx m).stream.Trailer⟩)
          (R.MarshalerForRequest mux req).2 (server.method rpc actx m).msg mux.GetForwardResponseOptions,
        by simp [clientCtx, serverCtx], ?_, ?_, ?_⟩, ?_, ?_⟩
      · simp [Event.isHTTPError, Event.isForward]
      · simp [Event.isHTTPError, Event.isCall, List.countP_cons, List.countP_append,
          decodePrefix_quiet]
      · simp [Event.isForward, Event.isCall, List.countP_cons, List.countP_append,
          decodePrefix_quiet]
      · simp [Event.isCancel, List.countP_cons, List.countP_append, decodePrefix_quiet]
      · have h := getLast?_append_cancel
          (Event.WithCancel req.Context ::
            Event.AnnotateIncomingContext (serverCtx req) rpc.fullMethod (documentedPath rpc) :: (decodePrefix R rpc req ++ [Event.ServerCall rpc actx m]))
          (Event.Forward .ForwardResponseMessage (Ctx.NewServerMetadataContext actx ⟨R.Join [] (server.method rpc actx m).stream.Header, R.Join [] (server.method rpc actx m).stream.Trailer⟩)
          (R.MarshalerForRequest mux req).2 (server.method rpc actx m).msg mux.GetForwardResponseOptions)
        simpa using h


/-- C11: `RegisterBlockchainHandlerFromEndpoint` is `RegisterBlockchainHandler` plus
dialing and closing: when the dial fails it returns the dial error, registers no handler
and does nothing else; when the dial succeeds it returns what `RegisterBlockchainHandler`
returns on the dialed connection and registers the same handlers (those of
`RegisterBlockchainHandlerClient` on a new client over that connection), it does not close
the connection itself before it returns, and the one goroutine it starts closes the
connection only after waiting for `ctx` to be done. -/
theorem C11_from_endpoint_dials_then_registers (G : Grpc) (R : Runtime) (ctx : Ctx)
    (mux : ServeMux) (endpoint : String) (opts : List String) :
    match G.Dial endpoint opts with
    | .error err =>
      (RegisterBlockchainHandlerFromEndpoint G R ctx mux endpoint opts).err = some err ∧
      (RegisterBlockchainHandlerFromEndpoint G R ctx mux endpoint opts).handles = [] ∧
      (RegisterBlockchainHandlerFromEndpoint G R ctx mux endpoint opts).calls =
        [.Dial endpoint opts] ∧
      (RegisterBlockchainHandlerFromEndpoint G R ctx mux endpoint opts).goroutines = []
    | .ok conn =>
      (RegisterBlockchainHandlerFromEndpoint G R ctx mux endpoint opts).err =
        (RegisterBlockchainHandler G R ctx mux conn).2 ∧
      (RegisterBlockchainHandlerFromEndpoint G R ctx mux endpoint opts).handles =
        (RegisterBlockchainHandler G R ctx mux conn).1 ∧
      RegisterBlockchainHandler G R ctx mux conn =
        RegisterBlockchainHandlerClient R ctx mux (G.NewBlockchainClient conn) ∧
      (RegisterBlockchainHandlerFromEndpoint G R ctx mux endpoint opts).calls.countP
        ConnEvent.isClose = 0 ∧
      ∃ rest,
        (RegisterBlockchainHandlerFromEndpoint G R ctx mux endpoint opts).goroutines =
          [ConnEvent.AwaitDone ctx :: ConnEvent.Close conn :: rest] ∧
        rest.countP ConnEvent.isClose = 0 := by
  cases hd : G.Dial endpoint opts with
  | error err =>
    simp only
    unfold RegisterBlockchainHandlerFromEndpoint
    rw [hd]
    exact ⟨rfl, rfl, rfl, rfl⟩
  | ok conn =>
    simp only
    rw [fromEndpoint_of_dial_ok G R ctx mux endpoint opts conn hd]
    obtain ⟨rest, hrest, hcount⟩ := closeConn_shape G endpoint conn
    refine ⟨rfl, rfl, rfl, rfl, rest, ?_, hcount⟩
    simp only [hrest]

/-- C12: a context-annotation failure is surfaced at once: in every handler of both
registration functions, when annotating the request context returns an error the handler
calls the HTTP error writer with that error and the un-annotated cancellable context,
releases the context and returns; it decodes nothing, invokes no service method and does
not call the forwarder. -/
theorem C12_annotation_failure_surfaced (R : Runtime) (ctx : Ctx) (mux : ServeMux)
    (server : BlockchainServer) (client : BlockchainClient) (rpc : Rpc) (req : Request)
    (pp : PathParams) :
    (∀ err, annotateClient R mux rpc req = .error err →
      clientTrace R ctx mux client rpc req pp =
        [.WithCancel req.Context,
         .AnnotateContext (Ctx.WithCancel req.Context) rpc.fullMethod (documentedPath rpc),
         .HTTPError (Ctx.WithCancel req.Context) (R.MarshalerForRequest mux req).2 err,
         .cancel] ∧
      (clientTrace R ctx mux client rpc req pp).countP Event.isDecode = 0 ∧
      (clientTrace R ctx mux client rpc req pp).countP Event.isCall = 0 ∧
      (clientTrace R ctx mux client rpc req pp).countP Event.isForward = 0) ∧
    (∀ err, annotateServer R mux rpc req = .error err →
      serverTrace R ctx mux server rpc req pp =
        [.WithCancel req.Context,
         .AnnotateIncomingContext
           (Ctx.NewContextWithServerTransportStream (Ctx.WithCancel req.Context))
           rpc.fullMethod (documentedPath rpc),
         .HTTPError (Ctx.NewContextWithServerTransportStream (Ctx.WithCancel req.Context))
           (R.MarshalerForRequest mux req).2 err,
         .cancel] ∧
      (serverTrace R ctx mux server rpc req pp).countP Event.isDecode = 0 ∧
      (serverTrace R ctx mux server rpc req pp).countP Event.isCall = 0 ∧
      (serverTrace R ctx mux server rpc req pp).countP Event.isForward = 0) := by
  refine ⟨fun err ha => ?_, fun err ha => ?_⟩
  · rw [clientTrace_annotate_error R ctx mux client rpc req pp err ha]
    exact ⟨rfl, rfl, rfl, rfl⟩
  · rw [serverTrace_annotate_error R ctx mux server rpc req pp err ha]
    exact ⟨rfl, rfl, rfl, rfl⟩


/-- C13: in every one of the eighteen handlers the three names agree: the handler
registered under the pattern of an RPC annotates the context exactly once, with the full
method name `/pactus.Blockchain/<RPC>` and with the path pattern made of `/` and the three
pool strings of that pattern joined by `/`; the only service method it invokes is that
same RPC, and it does invoke it, once, whenever annotation and decoding succeed; and the
forwarder it calls is the one named for that RPC: whatever values the nine forwarder
variables hold, the handler forwards with the value of the variable named for its RPC,
and it does forward with it whenever annotation, decoding and the service call succeed.
The nine patterns are those of the nine registrations of either function, in order, and
with the variables at their initial values the handlers are those of the source. -/
theorem C13_names_agree (R : Runtime) (ctx : Ctx) (mux : ServeMux)
    (server : BlockchainServer) (client : BlockchainClient) (rpc : Rpc) (req : Request)
    (pp : PathParams) :
    (RegisterBlockchainHandlerClient R ctx mux client).1.map (fun reg => reg.pat) =
      Rpc.all.map pattern_Blockchain ∧
    (RegisterBlockchainHandlerServer R ctx mux server).1.map (fun reg => reg.pat) =
      Rpc.all.map pattern_Blockchain ∧
    (pattern_Blockchain rpc).pool.length = 3 ∧
    RegisterBlockchainHandlerClientVars ForwardVars.initial R ctx mux client =
      RegisterBlockchainHandlerClient R ctx mux client ∧
    RegisterBlockchainHandlerServerVars ForwardVars.initial R ctx mux server =
      RegisterBlockchainHandlerServer R ctx mux server ∧
    ForwardVars.initial.named rpc = forward_Blockchain rpc ∧
    ((clientTrace R ctx mux client rpc req pp).filter Event.isAnnotate =
        [.AnnotateContext (Ctx.WithCancel req.Context) ("/pactus.Blockchain/" ++ rpc.name)
          ("/" ++ "/".intercalate (pattern_Blockchain rpc).pool)] ∧
      (invokedRpcs (clientTrace R ctx mux client rpc req pp) = [] ∨
        invokedRpcs (clientTrace R ctx mux client rpc req pp) = [rpc]) ∧
      ((∃ actx m, annotateClient R mux rpc req = .ok actx ∧ decodesTo R rpc req m) →
        invokedRpcs (clientTrace R ctx mux client rpc req pp) = [rpc] ∧
        ∃ actx m, annotateClient R mux rpc req = .ok actx ∧ decodesTo R rpc req m ∧
          (clientTrace R ctx mux client rpc req pp).filter Event.isCall =
            [.ClientCall rpc actx m]) ∧
      ((clientTrace R ctx mux client rpc req pp).filter Event.isForward = [] ∨
        ∃ c mar resp opts,
          (clientTrace R ctx mux client rpc req pp).filter Event.isForward =
            [.Forward (forward_Blockchain rpc) c mar resp opts]) ∧
      (∀ V : ForwardVars,
        ((clientTraceVars V R ctx mux client rpc req pp).filter Event.isForward = [] ∨
          ∃ c mar resp opts,
            (clientTraceVars V R ctx mux client rpc req pp).filter Event.isForward =
              [.Forward (V.named rpc) c mar resp opts]) ∧
        ∀ actx m, annotateClient R mux rpc req = .ok actx → decodesTo R rpc req m →
          (client.method rpc actx m).err = none →
          (clientTraceVars V R ctx mux client rpc req pp).filter Event.isForward =
            [.Forward (V.named rpc) (Ctx.NewServerMetadataContext actx
              ⟨(client.method rpc actx m).header, (client.method rpc actx m).trailer⟩)
              (R.MarshalerForRequest mux req).2 (client.method rpc actx m).msg
              mux.GetForwardResponseOptions])) ∧
    ((serverTrace R ctx mux server rpc req pp).filter Event.isAnnotate =
        [.AnnotateIncomingContext (Ctx.NewContextWithServerTransportStream (Ctx.WithCancel req.Context)) ("/pactus.Blockchain/" ++ rpc.name)
          ("/" ++ "/".intercalate (pattern_Blockchain rpc).pool)] ∧
      (invokedRpcs (serverTrace R ctx mux server rpc req pp) = [] ∨
        invokedRpcs (serverTrace R ctx mux server rpc req pp) = [rpc]) ∧
      ((∃ actx m, annotateServer R mux rpc req = .ok actx ∧ decodesTo R rpc req m) →
        invokedRpcs (serverTrace R ctx mux server rpc req pp) = [rpc] ∧
        ∃ actx m, annotateServer R mux rpc req = .ok actx ∧ decodesTo R rpc req m ∧
          (serverTrace R ctx mux server rpc req pp).filter Event.isCall =
            [.ServerCall rpc actx m]) ∧
      ((serverTrace R ctx mux server rpc req pp).filter Event.isForward = [] ∨
        ∃ c mar resp opts,
          (serverTrace R ctx mux server rpc req pp).filter Event.isForward =
            [.Forward (forward_Blockchain rpc) c mar resp opts]) ∧
      (∀ V : ForwardVars,
        ((serverTraceVars V R ctx mux server rpc req pp).filter Event.isForward = [] ∨
          ∃ c mar resp opts,
            (serverTraceVars V R ctx mux server rpc req pp).filter Event.isForward =
              [.Forward (V.named rpc) c mar resp opts]) ∧
        ∀ actx m, annotateServer R mux rpc req = .ok actx → decodesTo R rpc req m →
          (server.method rpc actx m).err = none →
          (serverTraceVars V R ctx mux server rpc req pp).filter Event.isForward =
            [.Forward (V.named rpc) (Ctx.NewServerMetadataContext actx
              ⟨R.Join [] (server.method rpc actx m).stream.Header,
               R.Join [] (server.method rpc actx m).stream.Trailer⟩)
              (R.MarshalerForRequest mux req).2 (server.method rpc actx m).msg
              mux.GetForwardResponseOptions])) := by
  refine ⟨rfl, rfl, by cases rpc <;> decide, rfl, rfl, by cases rpc <;> rfl,
    ⟨?_, ?_, ?_, ?_, ?_⟩, ⟨?_, ?_, ?_, ?_, ?_⟩⟩
  · rw [clientTrace_annotate_events, pool_path]
    rfl
  · exact invokedRpcs_clientTrace R ctx mux client rpc req pp
  · rintro ⟨actx, m, ha, hd⟩
    refine ⟨invokedRpcs_clientTrace_reached R ctx mux client rpc req pp actx m ha hd,
      actx, m, ha, hd, ?_⟩
    cases hs : (client.method rpc actx m).err with
    | none =>
      rw [clientTrace_success R ctx mux client rpc req pp actx m ha hd hs]
      simp [List.filter_append, List.filter_cons, decodePrefix_quiet, Event.isCall]
    | some err =>
      rw [clientTrace_service_error R ctx mux client rpc req pp actx m err ha hd hs]
      simp [List.filter_append, List.filter_cons, decodePrefix_quiet, Event.isCall]
  · exact clientTrace_forward_events R ctx mux client rpc req pp
  · intro V
    exact ⟨clientTraceVars_forward_events V R ctx mux client rpc req pp,
      fun actx m ha hd hs =>
        clientTraceVars_forward_reached V R ctx mux client rpc req pp actx m ha hd hs⟩
  · rw [serverTrace_annotate_events, pool_path]
    rfl
  · exact invokedRpcs_serverTrace R ctx mux server rpc req pp
  · rintro ⟨actx, m, ha, hd⟩
    refine ⟨invokedRpcs_serverTrace_reached R ctx mux server rpc req pp actx m ha hd,
      actx, m, ha, hd, ?_⟩
    cases hs : (server.method rpc actx m).err with
    | none =>
      rw [serverTrace_success R ctx mux server rpc req pp actx m ha hd hs]
      simp [List.filter_append, List.filter_cons, decodePrefix_quiet, Event.isCall]
    | some err =>
      rw [serverTrace_service_error R ctx mux server rpc req pp actx m err ha hd hs]
      simp [List.filter_append, List.filter_cons, decodePrefix_quiet, Event.isCall]
  · exact serverTrace_forward_events R ctx mux server rpc req pp
  · intro V
    exact ⟨serverTraceVars_forward_events V R ctx mux server rpc req pp,
      fun actx m ha hd hs =>
        serverTraceVars_forward_reached V R ctx mux server rpc req pp actx m ha hd hs⟩

/-- C14: in every handler registered by `RegisterBlockchainHandlerServer`, once the
context is annotated, the context handed to the single response action (the error writer
when the decoder returned an error, the forwarder otherwise) already carries the server
metadata made of the decoder's header metadata joined with the headers recorded on the
transport stream and of the decoder's trailer metadata joined with the stream's trailers;
no error writer or forwarder call comes before that. -/
theorem C14_server_metadata_joined (R : Runtime) (ctx : Ctx) (mux : ServeMux)
    (server : BlockchainServer) (rpc : Rpc) (req : Request) (pp : PathParams) (actx : Ctx)
    (ha : annotateServer R mux rpc req = .ok actx) :
    ∃ pre e,
      serverTrace R ctx mux server rpc req pp = pre ++ [e, Event.cancel] ∧
      pre.countP Event.isHTTPError = 0 ∧ pre.countP Event.isForward = 0 ∧
      ((∃ err, (local_request_Blockchain rpc R actx (R.MarshalerForRequest mux req).1
        server req pp).err = some err ∧
          e = Event.HTTPError
            (Ctx.NewServerMetadataContext actx
              ⟨R.Join (local_request_Blockchain rpc R actx (R.MarshalerForRequest mux req).1
        server req pp).metadata.HeaderMD
                (local_request_Blockchain rpc R actx (R.MarshalerForRequest mux req).1
        server req pp).stream.Header,
               R.Join (local_request_Blockchain rpc R actx (R.MarshalerForRequest mux req).1
        server req pp).metadata.TrailerMD
                (local_request_Blockchain rpc R actx (R.MarshalerForRequest mux req).1
        server req pp).stream.Trailer⟩)
            (R.MarshalerForRequest mux req).2 err) ∨
        ((local_request_Blockchain rpc R actx (R.MarshalerForRequest mux req).1
        server req pp).err = none ∧
          e = Event.Forward .ForwardResponseMessage
            (Ctx.NewServerMetadataContext actx
              ⟨R.Join (local_request_Blockchain rpc R actx (R.MarshalerForRequest mux req).1
        server req pp).metadata.HeaderMD
                (local_request_Blockchain rpc R actx (R.MarshalerForRequest mux req).1
        server req pp).stream.Header,
               R.Join (local_request_Blockchain rpc R actx (R.MarshalerForRequest mux req).1
        server req pp).metadata.TrailerMD
                (local_request_Blockchain rpc R actx (R.MarshalerForRequest mux req).1
        server req pp).stream.Trailer⟩)
            (R.MarshalerForRequest mux req).2
            (local_request_Blockchain rpc R actx (R.MarshalerForRequest mux req).1
        server req pp).msg
            mux.GetForwardResponseOptions)) := by
  rcases decode_total R rpc req with ⟨m, hm⟩ | ⟨e, he⟩
  · cases hs : (server.method rpc actx m).err with
    | some err =>
      rw [serverTrace_service_error R ctx mux server rpc req pp actx m err ha hm hs,
        local_request_of_decodesTo R rpc actx _ server req pp m hm]
      refine ⟨([Event.WithCancel req.Context,
          Event.AnnotateIncomingContext (serverCtx req) rpc.fullMethod (documentedPath rpc)] ++
          decodePrefix R rpc req ++ [Event.ServerCall rpc actx m]),
        Event.HTTPError (Ctx.NewServerMetadataContext actx
          ⟨R.Join [] (server.method rpc actx m).stream.Header,
           R.Join [] (server.method rpc actx m).stream.Trailer⟩)
          (R.MarshalerForRequest mux req).2 err, by simp, ?_, ?_, Or.inl ⟨err, hs, rfl⟩⟩ <;>
        simp [Event.isHTTPError, Event.isForward, List.countP_cons, List.countP_append,
          decodePrefix_quiet]
    | none =>
      rw [serverTrace_success R ctx mux server rpc req pp actx m ha hm hs,
        local_request_of_decodesTo R rpc actx _ server req pp m hm]
      refine ⟨([Event.WithCancel req.Context,
          Event.AnnotateIncomingContext (serverCtx req) rpc.fullMethod (documentedPath rpc)] ++
          decodePrefix R rpc req ++ [Event.ServerCall rpc actx m]),
        Event.Forward .ForwardResponseMessage (Ctx.NewServerMetadataContext actx
          ⟨R.Join [] (server.method rpc actx m).stream.Header,
           R.Join [] (server.method rpc actx m).stream.Trailer⟩)
          (R.MarshalerForRequest mux req).2 (server.method rpc actx m).msg
          mux.GetForwardResponseOptions, by simp, ?_, ?_, Or.inr ⟨hs, rfl⟩⟩ <;>
        simp [Event.isHTTPError, Event.isForward, List.countP_cons, List.countP_append,
          decodePrefix_quiet]
  · rw [serverTrace_decode_error R ctx mux server rpc req pp actx e ha he,
      local_request_of_decodeFails R rpc actx _ server req pp e he]
    refine ⟨([Event.WithCancel req.Context,
        Event.AnnotateIncomingContext (serverCtx req) rpc.fullMethod (documentedPath rpc)] ++
        decodePrefix R rpc req),
      Event.HTTPError (Ctx.NewServerMetadataContext actx ⟨R.Join [] [], R.Join [] []⟩)
        (R.MarshalerForRequest mux req).2 (.status codes.InvalidArgument e.Error),
      rfl, ?_, ?_, Or.inl ⟨_, rfl, rfl⟩⟩ <;>
      simp [Event.isHTTPError, Event.isForward, List.countP_cons, List.countP_append,
        decodePrefix_quiet]

theorem C14_server_metadata_joined_witness :
    annotateServer (sampleRuntime true true true) sampleMux .GetBlock sampleRequest =
      .ok (.annotated (serverCtx sampleRequest) 1) ∧
    ∃ pre e,
      serverTrace (sampleRuntime true true true) (.base 0) sampleMux (sampleServer false) .GetBlock sampleRequest [] = pre ++ [e, Event.cancel] ∧
      pre.countP Event.isHTTPError = 0 ∧ pre.countP Event.isForward = 0 ∧
      ((∃ err, (local_request_Blockchain .GetBlock (sampleRuntime true true true) (.annotated (serverCtx sampleRequest) 1) ((sampleRuntime true true true).MarshalerForRequest sampleMux sampleRequest).1
        (sampleServer false) sampleRequest []).err = some err ∧
          e = Event.HTTPError
            (Ctx.NewServerMetadataContext (.annotated (serverCtx sampleRequest) 1)
              ⟨(sampleRuntime true true true).Join (local_request_Blockchain .GetBlock (sampleRuntime true true true) (.annotated (serverCtx sampleRequest) 1) ((sampleRuntime true true true).MarshalerForRequest sampleMux sampleRequest).1
        (sampleServer false) sampleRequest []).metadata.HeaderMD
                (local_request_Blockchain .GetBlock (sampleRuntime true true true) (.annotated (serverCtx sampleRequest) 1) ((sampleRuntime true true true).MarshalerForRequest sampleMux sampleRequest).1
        (sampleServer false) sampleRequest []).stream.Header,
               (sampleRuntime true true true).Join (local_request_Blockchain .GetBlock (sampleRuntime true true true) (.annotated (serverCtx sampleRequest) 1) ((sampleRuntime true true true).MarshalerForRequest sampleMux sampleRequest).1
        (sampleServer false) sampleRequest []).metadata.TrailerMD
                (local_request_Blockchain .GetBlock (sampleRuntime true true true) (.annotated (serverCtx sampleRequest) 1) ((sampleRuntime true true true).MarshalerForRequest sampleMux sampleRequest).1
        (sampleServer false) sampleRequest []).stream.Trailer⟩)
            ((sampleRuntime true true true).MarshalerForRequest sampleMux sampleRequest).2 err) ∨
        ((local_request_Blockchain .GetBlock (sampleRuntime true true true) (.annotated (serverCtx sampleRequest) 1) ((sampleRuntime true true true).MarshalerForRequest sampleMux sampleRequest).1
        (sampleServer false) sampleRequest []).err = none ∧
          e = Event.Forward .ForwardResponseMessage
            (Ctx.NewServerMetadataContext (.annotated (serverCtx sampleRequest) 1)
              ⟨(sampleRuntime true true true).Join (local_request_Blockchain .GetBlock (sampleRuntime true true true) (.annotated (serverCtx sampleRequest) 1) ((sampleRuntime true true true).MarshalerForRequest sampleMux sampleRequest).1
        (sampleServer false) sampleRequest []).metadata.HeaderMD
                (local_request_Blockchain .GetBlock (sampleRuntime true true true) (.annotated (serverCtx sampleRequest) 1) ((sampleRuntime true true true).MarshalerForRequest sampleMux sampleRequest).1
        (sampleServer false) sampleRequest []).stream.Header,
               (sampleRuntime true true true).Join (local_request_Blockchain .GetBlock (sampleRuntime true true true) (.annotated (serverCtx sampleRequest) 1) ((sampleRuntime true true true).MarshalerForRequest sampleMux sampleRequest).1
        (sampleServer false) sampleRequest []).metadata.TrailerMD
                (local_request_Blockchain .GetBlock (sampleRuntime true true true) (.annotated (serverCtx sampleRequest) 1) ((sampleRuntime true true true).MarshalerForRequest sampleMux sampleRequest).1
        (sampleServer false) sampleRequest []).stream.Trailer⟩)
            ((sampleRuntime true true true).MarshalerForRequest sampleMux sampleRequest).2
            (local_request_Blockchain .GetBlock (sampleRuntime true true true) (.annotated (serverCtx sampleRequest) 1) ((sampleRuntime true true true).MarshalerForRequest sampleMux sampleRequest).1
        (sampleServer false) sampleRequest []).msg
            sampleMux.GetForwardResponseOptions)) :=
  ⟨rfl, C14_server_metadata_joined (sampleRuntime true true true) (.base 0) sampleMux
    (sampleServer false) .GetBlock sampleRequest [] (.annotated (serverCtx sampleRequest) 1) rfl⟩


/-- C15: the invalid-argument error produced on a decoding failure carries as its
message exactly the `%v` text of the underlying parse or populate error, nothing before
and nothing after it, and the server metadata returned with it is the zero value: no
header and no trailer (on the server path the transport stream is untouched as well). -/
theorem C15_invalid_argument_message (R : Runtime) (rpc : Rpc) (ctx : Ctx)
    (mar : Marshaler) (client : BlockchainClient) (server : BlockchainServer) (req : Request)
    (pp : PathParams) (e : GoError) (hq : rpc ∈ queryRpcs)
    (hf : R.ParseForm req = .error e ∨
      ∃ form, R.ParseForm req = .ok form ∧
        R.PopulateQueryParameters (Message.zero (rpc.name ++ "Request")) form ⟨[], [], []⟩ =
          .error e) :
    (request_Blockchain rpc R ctx mar client req pp).err =
      some (GoError.status codes.InvalidArgument e.Error) ∧
    (request_Blockchain rpc R ctx mar client req pp).metadata = ⟨[], []⟩ ∧
    (local_request_Blockchain rpc R ctx mar server req pp).err =
      some (GoError.status codes.InvalidArgument e.Error) ∧
    (local_request_Blockchain rpc R ctx mar server req pp).metadata = ⟨[], []⟩ ∧
    (local_request_Blockchain rpc R ctx mar server req pp).stream = ⟨[], []⟩ := by
  have hd := decodeFails_of_query R rpc req e hq hf
  rw [request_of_decodeFails R rpc ctx mar client req pp e hd,
    local_request_of_decodeFails R rpc ctx mar server req pp e hd]
  exact ⟨rfl, rfl, rfl, rfl, rfl⟩

theorem C15_invalid_argument_message_witness :
    (Rpc.GetPublicKey ∈ queryRpcs) ∧
    (request_Blockchain .GetPublicKey (sampleRuntime true true false) (.base 0) "inbound"
        (sampleClient false) sampleRequest []).err =
      some (GoError.status 3 "parsing field") ∧
    (local_request_Blockchain .GetPublicKey (sampleRuntime true true false) (.base 0) "inbound"
        (sampleServer false) sampleRequest []).metadata = ⟨[], []⟩ :=
  ⟨by decide,
    (C15_invalid_argument_message (sampleRuntime true true false) .GetPublicKey (.base 0)
      "inbound" (sampleClient false) (sampleServer false) sampleRequest []
      (.plain "parsing field") (by decide) (Or.inr ⟨[("q", ["height=1"])], rfl, rfl⟩)).1,
    (C15_invalid_argument_message (sampleRuntime true true false) .GetPublicKey (.base 0)
      "inbound" (sampleClient false) (sampleServer false) sampleRequest []
      (.plain "parsing field") (by decide) (Or.inr ⟨[("q", ["height=1"])], rfl, rfl⟩)).2.2.2.1⟩

/-- C16: `RegisterBlockchainHandlerServer` and `RegisterBlockchainHandlerClient` return
nil for every context, mux and service implementation; hence `RegisterBlockchainHandler`
returns nil on every connection, and after a successful dial
`RegisterBlockchainHandlerFromEndpoint` returns nil without ever taking the branch that
closes the connection at once: the only calls it makes itself are the dial and the
registration. -/
theorem C16_registration_returns_nil (G : Grpc) (R : Runtime) (ctx : Ctx) (mux : ServeMux)
    (server : BlockchainServer) (client : BlockchainClient) (conn : ClientConn)
    (endpoint : String) (opts : List String) :
    (RegisterBlockchainHandlerServer R ctx mux server).2 = none ∧
    (RegisterBlockchainHandlerClient R ctx mux client).2 = none ∧
    (RegisterBlockchainHandler G R ctx mux conn).2 = none ∧
    (match G.Dial endpoint opts with
      | .ok dialed =>
        (RegisterBlockchainHandlerFromEndpoint G R ctx mux endpoint opts).err = none ∧
        (RegisterBlockchainHandlerFromEndpoint G R ctx mux endpoint opts).calls =
          [.Dial endpoint opts, .RegisterBlockchainHandler dialed] ∧
        (RegisterBlockchainHandlerFromEndpoint G R ctx mux endpoint opts).calls.countP
          ConnEvent.isClose = 0
      | .error err =>
        (RegisterBlockchainHandlerFromEndpoint G R ctx mux endpoint opts).err = some err) := by
  refine ⟨rfl, rfl, rfl, ?_⟩
  cases hd : G.Dial endpoint opts with
  | error err =>
    simp only
    unfold RegisterBlockchainHandlerFromEndpoint
    rw [hd]
  | ok dialed =>
    simp only
    rw [fromEndpoint_of_dial_ok G R ctx mux endpoint opts dialed hd]
    exact ⟨rfl, rfl, rfl⟩

/-- C17: the client path and the in-process server path decode alike: for each of the
nine RPCs and every request, `request_X` and `local_request_X` make the same decoding
calls, reach the service on exactly the same requests and with the same request message,
and when they do not reach it they return the same nil message, zero metadata and
invalid-argument error; hence, when the client's methods return the message and error the
server's methods return and write no header or trailer metadata, the two decoders return
the same (message, metadata, error) triple. -/
theorem C17_client_and_server_decode_alike (R : Runtime) (rpc : Rpc) (ctx : Ctx)
    (mar : Marshaler) (client : BlockchainClient) (server : BlockchainServer) (req : Request)
    (pp : PathParams) :
    (request_Blockchain rpc R ctx mar client req pp).trace.filter Event.isDecode =
      (local_request_Blockchain rpc R ctx mar server req pp).trace.filter Event.isDecode ∧
    invokedRpcs (request_Blockchain rpc R ctx mar client req pp).trace =
      invokedRpcs (local_request_Blockchain rpc R ctx mar server req pp).trace ∧
    (∀ c m, (request_Blockchain rpc R ctx mar client req pp).trace.filter Event.isCall =
        [.ClientCall rpc c m] ↔
      (local_request_Blockchain rpc R ctx mar server req pp).trace.filter Event.isCall =
        [.ServerCall rpc c m]) ∧
    (invokedRpcs (request_Blockchain rpc R ctx mar client req pp).trace = [] →
      (request_Blockchain rpc R ctx mar client req pp).msg = none ∧
      (local_request_Blockchain rpc R ctx mar server req pp).msg = none ∧
      (request_Blockchain rpc R ctx mar client req pp).metadata =
        (local_request_Blockchain rpc R ctx mar server req pp).metadata ∧
      (request_Blockchain rpc R ctx mar client req pp).err =
        (local_request_Blockchain rpc R ctx mar server req pp).err ∧
      status.Code (request_Blockchain rpc R ctx mar client req pp).err =
        codes.InvalidArgument) ∧
    ((∀ c m, (client.method rpc c m).msg = (server.method rpc c m).msg ∧
        (client.method rpc c m).err = (server.method rpc c m).err ∧
        (client.method rpc c m).header = [] ∧ (client.method rpc c m).trailer = []) →
      (request_Blockchain rpc R ctx mar client req pp).msg =
        (local_request_Blockchain rpc R ctx mar server req pp).msg ∧
      (request_Blockchain rpc R ctx mar client req pp).metadata =
        (local_request_Blockchain rpc R ctx mar server req pp).metadata ∧
      (request_Blockchain rpc R ctx mar client req pp).err =
        (local_request_Blockchain rpc R ctx mar server req pp).err) := by
  rcases decode_total R rpc req with ⟨m, hm⟩ | ⟨e, he⟩
  · rw [request_of_decodesTo R rpc ctx mar client req pp m hm,
      local_request_of_decodesTo R rpc ctx mar server req pp m hm]
    refine ⟨?_, ?_, ?_, ?_, ?_⟩
    · simp [List.filter_append, Event.isDecode]
    · simp [invokedRpcs_append, invokedRpcs]
    · intro c m2
      simp [List.filter_append, decodePrefix_quiet, Event.isCall]
    · intro h
      simp [invokedRpcs_append, invokedRpcs] at h
    · intro h
      obtain ⟨h1, h2, h3, h4⟩ := h ctx m
      refine ⟨h1, ?_, h2⟩
      show ServerMetadata.mk _ _ = ServerMetadata.mk _ _
      rw [h3, h4]
  · rw [request_of_decodeFails R rpc ctx mar client req pp e he,
      local_request_of_decodeFails R rpc ctx mar server req pp e he]
    refine ⟨rfl, rfl, ?_, ?_, ?_⟩
    · intro c m2
      simp [decodePrefix_quiet]
    · intro _
      exact ⟨rfl, rfl, rfl, rfl, rfl⟩
    · intro _
      exact ⟨rfl, rfl, rfl⟩

end Pactus
